import Mathlib

/-!
# RemoteKnown: detection engine

A shallow embedding of `internal/detector` (and of the parts of `internal/storage`
it drives) and of the history endpoint of `internal/server`, together with the
properties proved about them.

Conventions of the embedding.

* Go `string` is `String`; the functions of package `strings` are defined on the
  list of runes (`String.data`).
* `time.Time` is an integer count of nanoseconds since the zero time, and
  `time.Duration` an integer count of nanoseconds.
* Go `int`, `int32`, `uint32` are `Int`/`Nat`; the two conversions between `int32`
  and `uint32` that the code performs are explicit (`toInt32`, `toUint32`).
* `float64` confidences are rationals.  Every confidence the detector produces is
  the constant `1.0`.  The `float64` conversions of durations (`Duration.Seconds`
  and the like) are computed exactly, with rounding to nearest, in `F64`.
* Everything the code asks the operating system during one scan is gathered in a
  record `OS`; a failed query is `none`.
* The Unicode tables of the Go runtime (`unicode.ToLower`, simple case folding) are
  a parameter `Unicode`.
* In the history endpoint Go `int` has 64 bits and its arithmetic wraps around
  (`wrapInt`); `strconv.Atoi` is defined from its documented behaviour, and the
  answers of the database to the paginated query are a record `HistoryDB`.
-/

namespace RemoteKnown

/-! ## Go runtime: runes and package `strings` -/

/-- The Unicode tables of the Go runtime used by `strings.ToLower` and
`strings.EqualFold`. -/
structure Unicode where
  /-- Rune mapping `unicode.ToLower`. -/
  toLower : Char → Char
  /-- Whether two distinct runes are related by simple case folding. -/
  simpleFoldEq : Char → Char → Bool

/-- The tables restricted to ASCII: `A`..`Z` map to `a`..`z`. -/
def Unicode.ascii : Unicode where
  toLower := Char.toLower
  simpleFoldEq := fun a b => a.toLower == b.toLower

/-- A table agrees with Go on ASCII when it lower-cases `A`..`Z` and fixes every
other ASCII rune. -/
def Unicode.LowersASCII (u : Unicode) : Prop :=
  ∀ c : Char, c.val < 128 → u.toLower c = c.toLower

/-- Rune predicate `unicode.IsSpace`. -/
def isSpace (c : Char) : Bool :=
  let n := c.toNat
  n == 0x09 || n == 0x0A || n == 0x0B || n == 0x0C || n == 0x0D || n == 0x20 ||
  n == 0x85 || n == 0xA0 || n == 0x1680 || (0x2000 ≤ n && n ≤ 0x200A) ||
  n == 0x2028 || n == 0x2029 || n == 0x202F || n == 0x205F || n == 0x3000

namespace strings

/-- Runes of `strings.ToLower s`. -/
def lowerRunes (u : Unicode) (s : List Char) : List Char :=
  s.map u.toLower

/-- Index of the first occurrence of `sub` in `s` (`strings.Index`), on runes. -/
def indexRunes : List Char → List Char → Option Nat
  | [], sub => if sub = [] then some 0 else none
  | c :: cs, sub =>
    if sub.isPrefixOf (c :: cs) then some 0
    else (indexRunes cs sub).map (· + 1)

/-- Go `explode`: at most `n` pieces, each of the first `n - 1` a single rune. -/
def explode : List Char → Nat → List (List Char)
  | [], _ => []
  | _ :: _, 0 => []
  | c :: cs, 1 => [c :: cs]
  | c :: cs, n + 2 => [c] :: explode cs (n + 1)

/-- Go `genSplit` for a non-empty separator, after `k` more cuts are allowed. -/
def genSplit (sep : List Char) : Nat → List Char → List (List Char)
  | 0, s => [s]
  | k + 1, s =>
    match indexRunes s sep with
    | none => [s]
    | some m => s.take m :: genSplit sep k (s.drop (m + sep.length))

/-- Runes of the pieces of `strings.SplitN s sep n`, for `n ≥ 0`. -/
def splitNRunes (s sep : List Char) (n : Nat) : List (List Char) :=
  if n = 0 then []
  else if sep = [] then explode s n
  else genSplit sep (n - 1) s

/-- Removal of the leading and trailing runes satisfying `p`. -/
def trimRunes (p : Char → Bool) (s : List Char) : List Char :=
  List.rdropWhile p (s.dropWhile p)

/-- Go `strings.ToLower`. -/
def ToLower (u : Unicode) (s : String) : String :=
  ⟨lowerRunes u s.data⟩

/-- Go `strings.Contains`. -/
def Contains (s substr : String) : Bool :=
  (indexRunes s.data substr.data).isSome

/-- Go `strings.SplitN`, for a non-negative count. -/
def SplitN (s sep : String) (n : Nat) : List String :=
  (splitNRunes s.data sep.data n).map String.mk

/-- Go `strings.TrimSpace`. -/
def TrimSpace (s : String) : String :=
  ⟨trimRunes isSpace s.data⟩

/-- Go `strings.Trim`. -/
def Trim (s cutset : String) : String :=
  ⟨trimRunes (fun c => cutset.data.contains c) s.data⟩

/-- Rune-wise comparison under simple case folding. -/
def equalFoldRunes (u : Unicode) : List Char → List Char → Bool
  | [], [] => true
  | a :: as, b :: bs => (a == b || u.simpleFoldEq a b) && equalFoldRunes u as bs
  | _, _ => false

/-- Go `strings.EqualFold`. -/
def EqualFold (u : Unicode) (s t : String) : Bool :=
  equalFoldRunes u s.data t.data

end strings

/-- Go `%d` verb of `fmt.Sprintf`. -/
def fmtInt (n : Int) : String :=
  toString n

/-! ## Machine integers and time -/

/-- Conversion `int32(x)` of a `uint32`. -/
def toInt32 (n : Nat) : Int :=
  if n % 2 ^ 32 < 2 ^ 31 then (n % 2 ^ 32 : Nat) else (n % 2 ^ 32 : Nat) - 2 ^ 32

/-- Conversion `uint32(x)` of an `int32`. -/
def toUint32 (i : Int) : Nat :=
  (i % 2 ^ 32).toNat

/-- Go `time.Time`: nanoseconds since the zero time. -/
abbrev Time := Int

/-- Go `time.Duration`: nanoseconds. -/
abbrev Duration := Int

/-- Largest `time.Duration`. -/
def maxDuration : Duration := 2 ^ 63 - 1

/-- Smallest `time.Duration`. -/
def minDuration : Duration := -(2 ^ 63)

/-- Go `Time.Sub`: the difference, saturated to the range of `Duration`. -/
def Time.Sub (t v : Time) : Duration :=
  if t - v > maxDuration then maxDuration
  else if t - v < minDuration then minDuration
  else t - v

/-- Go `time.Second`. -/
def Second : Duration := 1000000000

/-! ## Operating-system observations -/

/-- A `*process.Process` handle of gopsutil. -/
structure Process where
  /-- Process id, an `int32`. -/
  Pid : Int
deriving DecidableEq, Repr

/-- One entry of `Process.Connections()`. -/
structure ConnectionStat where
  /-- Field `Type`: socket type, `syscall.SOCK_STREAM` or `syscall.SOCK_DGRAM`. -/
  Typ : Nat
  /-- Connection state, such as `ESTABLISHED`. -/
  Status : String
deriving DecidableEq, Repr

/-- Socket type of TCP connections. -/
def SOCK_STREAM : Nat := 1

/-- Socket type of UDP connections. -/
def SOCK_DGRAM : Nat := 2

/-- One `windows.ProcessEntry32` of a process snapshot. -/
structure ProcessEntry32 where
  /-- Executable file name. -/
  ExeFile : String
  /-- Process id, a `uint32`. -/
  ProcessID : Nat
deriving DecidableEq, Repr

/-- One top-level window as seen by the `EnumWindows` callback. -/
structure Window where
  /-- Owner reported by `GetWindowThreadProcessId`, a `uint32`. -/
  pid : Nat
  /-- Class name, `none` when `GetClassNameW` returns 0. -/
  className : Option String
  /-- Title, `none` when `GetWindowTextLengthW` or `GetWindowTextW` returns 0. -/
  title : Option String
deriving DecidableEq, Repr

/-- Everything the operating system answers during one scan. -/
structure OS where
  /-- Reading of the clock, `time.Now()`. -/
  now : Time
  /-- Entries of `CreateToolhelp32Snapshot` walked by `Process32First` and
  `Process32Next`; `none` when the snapshot cannot be created. -/
  snapshot : Option (List ProcessEntry32)
  /-- Whether `process.NewProcess pid` succeeds. -/
  newProcess : Int → Bool
  /-- Result of `process.Processes()`. -/
  processes : Option (List Process)
  /-- Result of `Process.Cmdline()` for a process id. -/
  cmdline : Int → Option String
  /-- Result of `Process.Connections()` for a process id. -/
  connections : Int → Option (List ConnectionStat)
  /-- Top-level windows in the order `EnumWindows` visits them. -/
  windows : List Window

/-! ## Rule catalog -/

/-- Configuration of one remote tool. -/
structure RemoteTool where
  ProcessName : String := ""
  WindowClass : String := ""
  WindowTitle : String := ""
  CommandLineArgs : List String := []
  ToolName : String := ""
  TCPConnThreshold : Int := 0
  UDPConnThreshold : Int := 0
  UseEstablishedOnly : Bool := false
deriving DecidableEq, Repr

/-- The catalog of remote tools. -/
def remoteTools : List RemoteTool :=
  [ { ProcessName := "todesk.exe",
      CommandLineArgs := ["--localPort=", "--isVideoSession=true"],
      ToolName := "ToDesk" },
    { ProcessName := "AweSun.exe",
      CommandLineArgs := ["--mod=desktopagent", "--port=", "--agentid=", "--lockscreen="],
      ToolName := "向日葵" },
    { ProcessName := "sunloginclient.exe", ToolName := "向日葵客户端" },
    { ProcessName := "GameViewerServer.exe", ToolName := "网易UU远程",
      TCPConnThreshold := 5, UseEstablishedOnly := true },
    { ProcessName := "AskLink.exe", ToolName := "AskLink远程", UDPConnThreshold := 1 },
    { ProcessName := "RCClient.exe", ToolName := "远程看看", WindowTitle := "聊天" } ]

/-! ## Signals -/

/-- One positive detection. -/
structure Signal where
  Typ : String
  Name : String
  Confidence : ℚ
  Source : String
  DetectedAt : Time
deriving DecidableEq, Repr

/-! ## Process cache -/

/-- State of a `WindowsDetector`. -/
structure WindowsDetector where
  /-- Map from process name to the processes resolved for it. -/
  processCache : String → Option (List Process)
  /-- Time of the last cache fill. -/
  processCacheTime : Time
  /-- Lifetime of the cache. -/
  cacheDuration : Duration

/-- Go `NewWindowsDetector`. -/
def NewWindowsDetector : WindowsDetector where
  processCache := fun _ => none
  processCacheTime := 0
  cacheDuration := 3 * Second

/-- The loop of `findProcessesByName` over the entries of the snapshot. -/
def snapshotLoop (u : Unicode) (os : OS) (processName : String) :
    List ProcessEntry32 → List Process
  | [] => []
  | procEntry :: rest =>
    let exeFile := procEntry.ExeFile
    if strings.EqualFold u exeFile processName ||
        strings.EqualFold u (strings.ToLower u exeFile) (strings.ToLower u processName) then
      if os.newProcess (toInt32 procEntry.ProcessID) then
        { Pid := toInt32 procEntry.ProcessID } :: snapshotLoop u os processName rest
      else snapshotLoop u os processName rest
    else snapshotLoop u os processName rest

/-- Go `WindowsDetector.findProcessesByName`: the processes returned and the
detector afterwards. -/
def findProcessesByName (u : Unicode) (d : WindowsDetector) (os : OS)
    (processName : String) : List Process × WindowsDetector :=
  let hit : Option (List Process) :=
    if Time.Sub os.now d.processCacheTime < d.cacheDuration then d.processCache processName
    else none
  match hit with
  | some cached => (cached, d)
  | none =>
    match os.snapshot with
    | none => ([], d)
    | some [] => ([], d)
    | some (first :: rest) =>
      let matchedProcesses := snapshotLoop u os processName (first :: rest)
      (matchedProcesses,
        { d with
          processCache := fun k =>
            if k = processName then some matchedProcesses else d.processCache k
          processCacheTime := os.now })

/-- Go `WindowsDetector.clearCache`. -/
def clearCache (d : WindowsDetector) : WindowsDetector :=
  { d with processCache := fun _ => none }

/-! ## Window and connection queries -/

/-- Go `WindowsDetector.detectWindowClassByAPI`: the enumeration stops at the first
window of the process whose class name is `className`. -/
def detectWindowClassByAPI (os : OS) (pid : Int) (className : String) : Bool × Bool :=
  (os.windows.any fun w =>
      toUint32 pid == w.pid &&
        match w.className with
        | some windowClass => windowClass == className
        | none => false,
    true)

/-- Go `WindowsDetector.detectWindowClass`: the flag, and whether the error is nil. -/
def detectWindowClass (os : OS) (pid : Int) (className : String) : Bool × Bool :=
  let (found, ok) := detectWindowClassByAPI os pid className
  if ok && found then (true, true) else (false, false)

/-- Go `WindowsDetector.detectWindowTitle`: the flag, and whether the error is nil. -/
def detectWindowTitle (os : OS) (pid : Int) (titleSubStr : String) : Bool × Bool :=
  (os.windows.any fun w =>
      toUint32 pid == w.pid &&
        match w.title with
        | some windowTitle => strings.Contains windowTitle titleSubStr
        | none => false,
    true)

/-- The counting loop of `getTCPConnectionCount`. -/
def tcpCountLoop (establishedOnly : Bool) : List ConnectionStat → Int → Int
  | [], count => count
  | conn :: rest, count =>
    if conn.Typ != SOCK_STREAM then tcpCountLoop establishedOnly rest count
    else if establishedOnly then
      if conn.Status == "ESTABLISHED" then tcpCountLoop establishedOnly rest (count + 1)
      else tcpCountLoop establishedOnly rest count
    else tcpCountLoop establishedOnly rest (count + 1)

/-- Go `WindowsDetector.getTCPConnectionCount`: the count, and whether the error is
nil. -/
def getTCPConnectionCount (os : OS) (pid : Int) (establishedOnly : Bool) : Int × Bool :=
  if os.newProcess pid then
    match os.connections pid with
    | none => (0, false)
    | some connections => (tcpCountLoop establishedOnly connections 0, true)
  else (0, false)

/-- The counting loop of `getUDPConnectionCount`. -/
def udpCountLoop : List ConnectionStat → Int → Int
  | [], count => count
  | conn :: rest, count =>
    if conn.Typ == SOCK_DGRAM then udpCountLoop rest (count + 1)
    else udpCountLoop rest count

/-- Go `WindowsDetector.getUDPConnectionCount`: the count, and whether the error is
nil. -/
def getUDPConnectionCount (os : OS) (pid : Int) : Int × Bool :=
  if os.newProcess pid then
    match os.connections pid with
    | none => (0, false)
    | some connections => (udpCountLoop connections 0, true)
  else (0, false)

/-! ## DetectRemoteTools -/

/-- The values of `remoteProcess` and `detectionMethod` once `isRemote` is set. -/
structure Detection where
  remoteProcess : Process
  detectionMethod : String
deriving DecidableEq, Repr

/-- The text in which the command-line strategy looks for the arguments: the
lower-cased command line, cut after the process name when it occurs. -/
def cmdlineRemainder (u : Unicode) (tool : RemoteTool) (cmdline : String) : String :=
  let cmdlineLower := strings.ToLower u cmdline
  if tool.ProcessName != "" then
    let processNameLower := strings.ToLower u tool.ProcessName
    if strings.Contains cmdlineLower processNameLower then
      let parts := strings.SplitN cmdlineLower processNameLower 2
      match parts with
      | _ :: second :: _ =>
        strings.TrimSpace (strings.Trim (strings.TrimSpace second) "\"")
      | _ => cmdlineLower
    else cmdlineLower
  else cmdlineLower

/-- The loop computing `allArgsFound`. -/
def allArgsFound (u : Unicode) (cmdlineLower : String) : List String → Bool
  | [] => true
  | arg :: rest =>
    if !strings.Contains cmdlineLower (strings.ToLower u arg) then false
    else allArgsFound u cmdlineLower rest

/-- Command-line strategy: the loop over the candidates. -/
def commandLineLoop (u : Unicode) (os : OS) (tool : RemoteTool) :
    List Process → Option Detection
  | [] => none
  | p :: rest =>
    match os.cmdline p.Pid with
    | none => commandLineLoop u os tool rest
    | some cmdline =>
      if allArgsFound u (cmdlineRemainder u tool cmdline) tool.CommandLineArgs then
        some { remoteProcess := p, detectionMethod := "命令行参数" }
      else commandLineLoop u os tool rest

/-- Window-class strategy: the loop over the candidates. -/
def windowClassLoop (os : OS) (tool : RemoteTool) : List Process → Option Detection
  | [] => none
  | p :: rest =>
    let (hasWindow, ok) := detectWindowClass os p.Pid tool.WindowClass
    if ok && hasWindow then some { remoteProcess := p, detectionMethod := "窗口类名" }
    else windowClassLoop os tool rest

/-- Window-title strategy: the loop over the candidates. -/
def windowTitleLoop (os : OS) (tool : RemoteTool) : List Process → Option Detection
  | [] => none
  | p :: rest =>
    let (hasTitle, ok) := detectWindowTitle os p.Pid tool.WindowTitle
    if ok && hasTitle then
      some { remoteProcess := p, detectionMethod := "窗口标题包含:" ++ tool.WindowTitle }
    else windowTitleLoop os tool rest

/-- TCP strategy: the loop over the candidates. -/
def tcpLoop (os : OS) (tool : RemoteTool) : List Process → Option Detection
  | [] => none
  | p :: rest =>
    let (connCount, ok) := getTCPConnectionCount os p.Pid tool.UseEstablishedOnly
    if ok && decide (connCount ≥ tool.TCPConnThreshold) then
      some { remoteProcess := p, detectionMethod := "TCP连接数:" ++ fmtInt connCount }
    else tcpLoop os tool rest

/-- UDP strategy: the loop over the candidates. -/
def udpLoop (os : OS) (tool : RemoteTool) : List Process → Option Detection
  | [] => none
  | p :: rest =>
    let (connCount, ok) := getUDPConnectionCount os p.Pid
    if ok && decide (connCount > tool.UDPConnThreshold) then
      some { remoteProcess := p, detectionMethod := "UDP连接数:" ++ fmtInt connCount }
    else udpLoop os tool rest

/-- The signal appended for a tool detected with `det`. -/
def toolSignal (os : OS) (tool : RemoteTool) (det : Detection) : Signal :=
  let signalName :=
    if det.detectionMethod != "" then tool.ToolName ++ (" (" ++ det.detectionMethod ++ ")")
    else tool.ToolName
  { Typ := "remote_tool"
    Name := signalName
    Confidence := 1
    Source := "进程:" ++ tool.ProcessName ++ " PID:" ++ fmtInt det.remoteProcess.Pid
    DetectedAt := os.now }

/-- The second step of the body of the loop of `DetectRemoteTools`: the strategies
tried on the candidates `matchedProcesses` of one tool, in order. -/
def detectStrategies (u : Unicode) (os : OS) (tool : RemoteTool)
    (matchedProcesses : List Process) : Option Detection :=
  let r : Option Detection := none
  let r := if tool.CommandLineArgs.length > 0 then commandLineLoop u os tool matchedProcesses
    else r
  let r := if r.isNone && tool.WindowClass != "" then windowClassLoop os tool matchedProcesses
    else r
  let r := if r.isNone && tool.WindowTitle != "" then windowTitleLoop os tool matchedProcesses
    else r
  let r := if r.isNone && decide (tool.TCPConnThreshold > 0) then tcpLoop os tool matchedProcesses
    else r
  let r := if r.isNone && decide (tool.UDPConnThreshold > 0) then udpLoop os tool matchedProcesses
    else r
  let r :=
    if r.isNone && tool.ProcessName != "" && tool.WindowClass == "" && tool.WindowTitle == "" &&
        tool.CommandLineArgs.length == 0 && tool.TCPConnThreshold == 0 &&
        tool.UDPConnThreshold == 0 then
      matchedProcesses.head?.map fun first =>
        { remoteProcess := first, detectionMethod := "进程存在" }
    else r
  r

/-- The body of the loop of `DetectRemoteTools` once the candidates of the tool are
resolved: no signal without candidates, else the signal of the first strategy that
detects. -/
def detectTool (u : Unicode) (os : OS) (tool : RemoteTool)
    (matchedProcesses : List Process) : Option Signal :=
  if matchedProcesses.length == 0 then none
  else (detectStrategies u os tool matchedProcesses).map (toolSignal os tool)

/-- The loop of `DetectRemoteTools` over a catalog. -/
def toolsLoop (u : Unicode) (os : OS) :
    List RemoteTool → WindowsDetector → List Signal → List Signal × WindowsDetector
  | [], d, signals => (signals, d)
  | tool :: rest, d, signals =>
    if tool.ProcessName != "" then
      let (matchedProcesses, d1) := findProcessesByName u d os tool.ProcessName
      toolsLoop u os rest d1 (signals ++ (detectTool u os tool matchedProcesses).toList)
    else
      match os.processes with
      | none => toolsLoop u os rest d signals
      | some procs => toolsLoop u os rest d (signals ++ (detectTool u os tool procs).toList)

/-- Go `WindowsDetector.DetectRemoteTools` for a given catalog: the signals, and the
detector afterwards.  The returned error is always nil. -/
def detectRemoteToolsIn (tools : List RemoteTool) (u : Unicode) (d : WindowsDetector)
    (os : OS) : List Signal × WindowsDetector :=
  toolsLoop u os tools (clearCache d) []

/-- Go `WindowsDetector.DetectRemoteTools`. -/
def DetectRemoteTools (u : Unicode) (d : WindowsDetector) (os : OS) :
    List Signal × WindowsDetector :=
  detectRemoteToolsIn remoteTools u d os

/-- Go `WindowsDetector.DetectSessions`. -/
def DetectSessions : List Signal := []

/-- Go `WindowsDetector.DetectRDPPorts`. -/
def DetectRDPPorts : List Signal := []

/-! ## float64 arithmetic on durations

`Duration.Seconds`, `Duration.Minutes` and `Duration.Hours` compute in `float64`.
A finite `float64` is the number `num * 2 ^ exp`; sums and quotients are rounded to
the nearest value with a 53-bit significand, ties to even.  The quantities that
occur are far from the overflow and subnormal ranges. -/

/-- A finite `float64`: the number `num * 2 ^ exp`. -/
structure F64 where
  num : Int
  exp : Int
deriving DecidableEq, Repr

/-- Auxiliary recursion of `ilog2`. -/
def log2Fuel : Nat → Nat → Nat
  | 0, _ => 0
  | f + 1, n => if n < 2 then 0 else log2Fuel f (n / 2) + 1

/-- Position of the highest set bit of `n`. -/
def ilog2 (n : Nat) : Nat :=
  log2Fuel n n

/-- Nearest `float64` to `p / q` for positive `p`, `q`: significand and exponent. -/
def roundNat (p q : Nat) : Nat × Int :=
  let e0 : Int := (ilog2 p : Int) - (ilog2 q : Int)
  let e : Int := if p * 2 ^ (-e0).toNat ≥ q * 2 ^ e0.toNat then e0 else e0 - 1
  let s : Int := e - 52
  let n := p * 2 ^ (-s).toNat
  let d := q * 2 ^ s.toNat
  let m := n / d
  let r := n % d
  let m1 := if 2 * r > d ∨ (2 * r = d ∧ m % 2 = 1) then m + 1 else m
  (m1, s)

/-- Nearest `float64` to the rational `p / q`, `q > 0`. -/
def F64.round (p : Int) (q : Nat) : F64 :=
  if p = 0 then { num := 0, exp := 0 }
  else
    let (m, e) := roundNat p.natAbs q
    { num := if p < 0 then -(m : Int) else m, exp := e }

/-- Conversion `float64(i)` of an integer. -/
def F64.ofInt (i : Int) : F64 :=
  F64.round i 1

/-- Sum of two `float64`. -/
def F64.add (a b : F64) : F64 :=
  let e := min a.exp b.exp
  let n := a.num * 2 ^ (a.exp - e).toNat + b.num * 2 ^ (b.exp - e).toNat
  F64.round (n * 2 ^ e.toNat) (2 ^ (-e).toNat)

/-- Quotient of two `float64`, the divisor not zero. -/
def F64.div (a b : F64) : F64 :=
  let sgn : Int := if b.num < 0 then -1 else 1
  F64.round (a.num * sgn * 2 ^ (a.exp - b.exp).toNat)
    (b.num.natAbs * 2 ^ (b.exp - a.exp).toNat)

/-- Conversion `int64(f)`, truncating toward zero. -/
def F64.toInt (a : F64) : Int :=
  Int.tdiv (a.num * 2 ^ a.exp.toNat) (2 ^ (-a.exp).toNat)

/-- Go `time.Minute`. -/
def Minute : Duration := 60 * Second

/-- Go `time.Hour`. -/
def Hour : Duration := 60 * Minute

/-- Go `Duration.Seconds`. -/
def Duration.Seconds (d : Duration) : F64 :=
  let sec := Int.tdiv d Second
  let nsec := Int.tmod d Second
  F64.add (F64.ofInt sec) (F64.div (F64.ofInt nsec) (F64.ofInt 1000000000))

/-- Go `Duration.Minutes`. -/
def Duration.Minutes (d : Duration) : F64 :=
  let min := Int.tdiv d Minute
  let nsec := Int.tmod d Minute
  F64.add (F64.ofInt min) (F64.div (F64.ofInt nsec) (F64.ofInt (60 * 1000000000)))

/-- Go `Duration.Hours`. -/
def Duration.Hours (d : Duration) : F64 :=
  let hour := Int.tdiv d Hour
  let nsec := Int.tmod d Hour
  F64.add (F64.ofInt hour) (F64.div (F64.ofInt nsec) (F64.ofInt (60 * 60 * 1000000000)))

/-- Go `%02d` verb of `fmt.Sprintf`. -/
def fmt02d (n : Int) : String :=
  if 0 ≤ n ∧ n < 10 then "0" ++ fmtInt n else fmtInt n

/-- Go `formatDuration`. -/
def formatDuration (d : Duration) : String :=
  let hours := (Duration.Hours d).toInt
  let minutes := Int.tmod (Duration.Minutes d).toInt 60
  let seconds := Int.tmod (Duration.Seconds d).toInt 60
  fmt02d hours ++ ":" ++ fmt02d minutes ++ ":" ++ fmt02d seconds

/-! ## Storage -/

/-- A row of the table of sessions. -/
structure RemoteSession where
  ID : String := ""
  StartTime : Time := 0
  /-- A nil `EndTime` is `none`: the session is open. -/
  EndTime : Option Time := none
  /-- Seconds. -/
  Duration : Int := 0
  Signals : String := ""
  Confidence : ℚ := 0
  CreatedAt : Time := 0
deriving DecidableEq, Repr

/-- A row of the table of raw signals. -/
structure RawSignal where
  ID : String := ""
  SessionID : Option String := none
  Typ : String := ""
  Name : String := ""
  Confidence : ℚ := 0
  RawData : String := ""
  DetectedAt : Time := 0
deriving DecidableEq, Repr

/-- Go `RawSignal.SetSessionID`. -/
def RawSignal.SetSessionID (s : RawSignal) (id : String) : RawSignal :=
  if id == "" then { s with SessionID := none } else { s with SessionID := some id }

/-- Go `RemoteSession.IsActive`. -/
def RemoteSession.IsActive (s : RemoteSession) : Bool :=
  s.EndTime.isNone

/-- The tables of the database, rows in insertion order. -/
structure Storage where
  sessions : List RemoteSession := []
  rawSignals : List RawSignal := []
deriving DecidableEq, Repr

/-- Go `Storage.SaveSession`: the session as the pointer holds it afterwards, whether
the error is nil, and the storage afterwards.  `newID` is the value of
`uuid.New()`, `now` the clock, `dbErr` whether the database refuses the insertion;
a row with an existing primary key is refused too. -/
def SaveSession (st : Storage) (newID : String) (now : Time) (dbErr : Bool)
    (session : RemoteSession) : RemoteSession × Bool × Storage :=
  let session := if session.ID == "" then { session with ID := newID } else session
  let session := if session.CreatedAt == 0 then { session with CreatedAt := now } else session
  if dbErr || st.sessions.any (fun r => r.ID == session.ID) then (session, false, st)
  else (session, true, { st with sessions := st.sessions ++ [session] })

/-- Go `Storage.SaveRawSignal`. -/
def SaveRawSignal (st : Storage) (newID : String) (now : Time) (dbErr : Bool)
    (signal : RawSignal) : RawSignal × Bool × Storage :=
  let signal := if signal.ID == "" then { signal with ID := newID } else signal
  let signal := if signal.DetectedAt == 0 then { signal with DetectedAt := now } else signal
  if dbErr || st.rawSignals.any (fun r => r.ID == signal.ID) then (signal, false, st)
  else (signal, true, { st with rawSignals := st.rawSignals ++ [signal] })

/-- Go `Storage.UpdateSessionEnd`: whether the error is nil, and the storage
afterwards. -/
def UpdateSessionEnd (st : Storage) (dbErr : Bool) (sessionID : String) (endTime : Time)
    (duration : Duration) : Bool × Storage :=
  if dbErr then (false, st)
  else
    (true,
      { st with
        sessions := st.sessions.map fun r =>
          if r.ID == sessionID then
            { r with EndTime := some endTime, Duration := (Duration.Seconds duration).toInt }
          else r })

/-- The row with the least primary key, as `First` orders by it. -/
def firstByID : List RemoteSession → Option RemoteSession
  | [] => none
  | r :: rest =>
    match firstByID rest with
    | none => some r
    | some t => if t.ID < r.ID then some t else some r

/-- Go `Storage.GetOpenSession`: the session, nil both when there is none and when
the query fails. -/
def GetOpenSession (st : Storage) (dbErr : Bool) : Option RemoteSession :=
  if dbErr then none else firstByID (st.sessions.filter fun r => r.EndTime.isNone)

/-! ## Detector -/

/-- The result of `GetStatus`. -/
structure DetectionResult where
  RemoteActive : Bool
  StartTime : Time := 0
  Duration : String := ""
  Signals : List Signal
  OverallConf : ℚ
deriving DecidableEq, Repr

/-- State of a `Detector`; the storage it points to is passed alongside. -/
structure Detector where
  /-- Whether the notifier is not nil. -/
  notifier : Bool
  windows : WindowsDetector
  signals : List Signal
  lastState : Bool
  lastChange : Time

/-- Go `NewDetector`, created at time `now`. -/
def NewDetector (notifier : Bool) (now : Time) : Detector where
  notifier := notifier
  windows := NewWindowsDetector
  signals := []
  lastState := false
  lastChange := now

/-- A call made by the detector to the storage or to the notifier. -/
inductive Event where
  /-- Call of `Storage.SaveSession`, with the row handed to the database. -/
  | SaveSession (session : RemoteSession)
  /-- Call of `Storage.SaveRawSignal`, with the row handed to the database. -/
  | SaveRawSignal (signal : RawSignal)
  | GetOpenSession
  | UpdateSessionEnd (sessionID : String) (endTime : Time) (duration : Duration)
  /-- Call of `Notifier.NotifyRemoteStart`, with the names of the signals. -/
  | NotifyRemoteStart (names : List String)
  /-- Call of `Notifier.NotifyRemoteEnd`, with the names of the signals. -/
  | NotifyRemoteEnd (names : List String)
deriving DecidableEq, Repr

/-- What one cycle of `detect` observes from outside the detector. -/
structure Env where
  /-- The operating system during the scan. -/
  os : OS
  /-- Value of `time.Now()` in `detect`. -/
  now : Time
  /-- Value of `time.Now()` in `handleRemoteEnd`. -/
  endNow : Time
  /-- Value of `time.Now()` inside the storage. -/
  storageNow : Time
  /-- The successive values of `uuid.New()`. -/
  uuid : Nat → String
  /-- Whether the database fails in `SaveSession`. -/
  saveSessionErr : Bool
  /-- Whether the database fails in the `i`-th `SaveRawSignal`. -/
  saveRawSignalErr : Nat → Bool
  /-- Whether the database fails in `GetOpenSession`. -/
  getOpenSessionErr : Bool
  /-- Whether the database fails in `UpdateSessionEnd`. -/
  updateSessionEndErr : Bool

/-- Go `joinStrings`: the loop appending the remaining strings. -/
def joinLoop (sep : String) : List String → String → String
  | [], result => result
  | x :: rest, result => joinLoop sep rest (result ++ sep ++ x)

/-- Go `joinStrings`. -/
def joinStrings (strs : List String) (sep : String) : String :=
  match strs with
  | [] => ""
  | first :: rest => joinLoop sep rest first

/-- Go `Detector.formatSignals`. -/
def formatSignals (signals : List Signal) : String :=
  let names := signals.map fun s => s.Name
  if names.length == 0 then "" else joinStrings names ", "

/-- Go `strings.Split`. -/
def strings.Split (s sep : String) : List String :=
  (if sep.data = [] then strings.explode s.data s.data.length
    else strings.genSplit sep.data s.data.length s.data).map String.mk

/-- Go `Detector.parseSignals`: the loop over the parts. -/
def parseLoop : List String → List String
  | [] => []
  | part :: rest =>
    let name := strings.TrimSpace part
    if name != "" then name :: parseLoop rest else parseLoop rest

/-- Go `Detector.parseSignals`. -/
def parseSignals (signalsStr : String) : List String :=
  if signalsStr == "" then [] else parseLoop (strings.Split signalsStr ",")

/-- The loop accumulating `total` in `handleRemoteStart` and `GetStatus`. -/
def totalLoop : List Signal → ℚ → ℚ
  | [], total => total
  | s :: rest, total => totalLoop rest (total + s.Confidence)

/-- The value of `avgConf` in `handleRemoteStart` and `GetStatus`. -/
def avgConf (signals : List Signal) : ℚ :=
  if signals.length > 0 then totalLoop signals 0 / (signals.length : ℚ) else 0

/-- The loop of `handleRemoteStart` saving one raw signal per signal; `i` counts the
signals already handled. -/
def rawSignalLoop (env : Env) (sessionID : String) :
    List Signal → Nat → Storage → List Event → Storage × List Event
  | [], _, st, events => (st, events)
  | s :: rest, i, st, events =>
    let rawSignal : RawSignal :=
      { Typ := s.Typ, Name := s.Name, Confidence := s.Confidence, RawData := s.Source,
        DetectedAt := s.DetectedAt }
    let rawSignal := rawSignal.SetSessionID sessionID
    let (saved, _, st1) :=
      SaveRawSignal st (env.uuid (i + 1)) env.storageNow (env.saveRawSignalErr i) rawSignal
    rawSignalLoop env sessionID rest (i + 1) st1 (events ++ [Event.SaveRawSignal saved])

/-- Go `Detector.handleRemoteStart`: the storage afterwards and the calls made. -/
def handleRemoteStart (d : Detector) (st : Storage) (env : Env) (signals : List Signal) :
    Storage × List Event :=
  let session : RemoteSession :=
    { StartTime := d.lastChange, Signals := formatSignals signals,
      Confidence := avgConf signals }
  let (session, _, st1) := SaveSession st (env.uuid 0) env.storageNow env.saveSessionErr session
  let (st2, events) := rawSignalLoop env session.ID signals 0 st1 [Event.SaveSession session]
  if d.notifier then (st2, events ++ [Event.NotifyRemoteStart (signals.map fun s => s.Name)])
  else (st2, events)

/-- Go `Detector.handleRemoteEnd`: the storage afterwards and the calls made. -/
def handleRemoteEnd (d : Detector) (st : Storage) (env : Env) : Storage × List Event :=
  let openSession := GetOpenSession st env.getOpenSessionErr
  let (st1, events, signals) : Storage × List Event × List String :=
    match openSession with
    | some openSession =>
      let endTime := env.endNow
      let duration := Time.Sub endTime openSession.StartTime
      let (_, st1) := UpdateSessionEnd st env.updateSessionEndErr openSession.ID endTime duration
      (st1, [Event.GetOpenSession, Event.UpdateSessionEnd openSession.ID endTime duration],
        if openSession.Signals != "" then parseSignals openSession.Signals else [])
    | none => (st, [Event.GetOpenSession], [])
  if d.notifier then (st1, events ++ [Event.NotifyRemoteEnd signals])
  else (st1, events)

/-- The body of `detect` once the three lists of signals are known: the detector
and the storage afterwards, and the calls made to the storage and the notifier. -/
def detectFrom (d : Detector) (st : Storage) (env : Env)
    (remoteToolSignals sessionSignals portSignals : List Signal) :
    Detector × Storage × List Event :=
  let allSignals := remoteToolSignals ++ sessionSignals ++ portSignals
  let d := { d with signals := allSignals }
  let isRemote := decide (remoteToolSignals.length > 0)
  if isRemote != d.lastState then
    let d := { d with lastChange := env.now, lastState := isRemote }
    if isRemote then
      let (st1, events) := handleRemoteStart d st env allSignals
      (d, st1, events)
    else
      let (st1, events) := handleRemoteEnd d st env
      (d, st1, events)
  else (d, st, [])

/-- Go `Detector.detect`. -/
def detect (u : Unicode) (d : Detector) (st : Storage) (env : Env) :
    Detector × Storage × List Event :=
  let (remoteToolSignals, w) := DetectRemoteTools u d.windows env.os
  detectFrom { d with windows := w } st env remoteToolSignals DetectSessions DetectRDPPorts

/-- Go `Detector.GetStatus`, read at time `now`; `dbErr` tells whether
`GetOpenSession` fails. -/
def GetStatus (d : Detector) (st : Storage) (now : Time) (dbErr : Bool) : DetectionResult :=
  let signals := d.signals
  let openSession := GetOpenSession st dbErr
  let result : DetectionResult :=
    { RemoteActive := d.lastState, Signals := signals, OverallConf := avgConf signals }
  match openSession with
  | some openSession =>
    if d.lastState then
      { result with
        StartTime := openSession.StartTime
        Duration := formatDuration (Time.Sub now openSession.StartTime) }
    else result
  | none => result

/-! ## Notions used to state the properties -/

/-- The five detection strategies of a rule. -/
inductive Strategy where
  | commandLine
  | windowClass
  | windowTitle
  | tcp
  | udp
deriving DecidableEq, Repr

/-- The strategies in the order in which the rule tries them. -/
def Strategy.order : List Strategy :=
  [Strategy.commandLine, Strategy.windowClass, Strategy.windowTitle, Strategy.tcp, Strategy.udp]

/-- Position of the strategy in the order. -/
def Strategy.rank : Strategy → Nat
  | Strategy.commandLine => 0
  | Strategy.windowClass => 1
  | Strategy.windowTitle => 2
  | Strategy.tcp => 3
  | Strategy.udp => 4

/-- Whether the rule configures the strategy. -/
def Strategy.configured (tool : RemoteTool) : Strategy → Bool
  | Strategy.commandLine => decide (tool.CommandLineArgs ≠ [])
  | Strategy.windowClass => decide (tool.WindowClass ≠ "")
  | Strategy.windowTitle => decide (tool.WindowTitle ≠ "")
  | Strategy.tcp => decide (tool.TCPConnThreshold > 0)
  | Strategy.udp => decide (tool.UDPConnThreshold > 0)

/-- Whether the strategy succeeds on the candidate `p`. -/
def Strategy.succeedsOn (u : Unicode) (os : OS) (tool : RemoteTool) (p : Process) :
    Strategy → Bool
  | Strategy.commandLine =>
    match os.cmdline p.Pid with
    | none => false
    | some cmdline => allArgsFound u (cmdlineRemainder u tool cmdline) tool.CommandLineArgs
  | Strategy.windowClass =>
    (detectWindowClass os p.Pid tool.WindowClass).2 &&
      (detectWindowClass os p.Pid tool.WindowClass).1
  | Strategy.windowTitle =>
    (detectWindowTitle os p.Pid tool.WindowTitle).2 &&
      (detectWindowTitle os p.Pid tool.WindowTitle).1
  | Strategy.tcp =>
    (getTCPConnectionCount os p.Pid tool.UseEstablishedOnly).2 &&
      decide ((getTCPConnectionCount os p.Pid tool.UseEstablishedOnly).1 ≥ tool.TCPConnThreshold)
  | Strategy.udp =>
    (getUDPConnectionCount os p.Pid).2 &&
      decide ((getUDPConnectionCount os p.Pid).1 > tool.UDPConnThreshold)

/-- The description of the strategy put in the name of the signal. -/
def Strategy.describe (os : OS) (tool : RemoteTool) (p : Process) : Strategy → String
  | Strategy.commandLine => "命令行参数"
  | Strategy.windowClass => "窗口类名"
  | Strategy.windowTitle => "窗口标题包含:" ++ tool.WindowTitle
  | Strategy.tcp =>
    "TCP连接数:" ++ fmtInt (getTCPConnectionCount os p.Pid tool.UseEstablishedOnly).1
  | Strategy.udp => "UDP连接数:" ++ fmtInt (getUDPConnectionCount os p.Pid).1

/-- The first strategy, in order, that is configured and succeeds on some candidate,
with the first candidate on which it succeeds. -/
def firstMatch (u : Unicode) (os : OS) (tool : RemoteTool) (procs : List Process) :
    Option (Strategy × Process) :=
  Strategy.order.findSome? fun s =>
    if s.configured tool then (procs.find? fun p => s.succeedsOn u os tool p).map fun p => (s, p)
    else none

/-- Whether the rule configures none of the five strategies: no command-line
argument, no window class, no window title, both thresholds 0. -/
def noStrategy (tool : RemoteTool) : Bool :=
  tool.WindowClass == "" && tool.WindowTitle == "" && tool.CommandLineArgs.length == 0 &&
    tool.TCPConnThreshold == 0 && tool.UDPConnThreshold == 0

/-- The processes a fresh snapshot resolves for a name. -/
def freshProcesses (u : Unicode) (os : OS) (processName : String) : List Process :=
  match os.snapshot with
  | some (first :: rest) => snapshotLoop u os processName (first :: rest)
  | _ => []

/-- The candidates of a rule: the processes of that name in the snapshot, or every
process when the rule has no process name. -/
def candidates (u : Unicode) (os : OS) (tool : RemoteTool) : List Process :=
  if tool.ProcessName != "" then freshProcesses u os tool.ProcessName
  else os.processes.getD []

/-- Every list in the cache is the one a fresh snapshot resolves. -/
def CacheFresh (u : Unicode) (os : OS) (d : WindowsDetector) : Prop :=
  ∀ k l, d.processCache k = some l → l = freshProcesses u os k

/-- Whether `handleRemoteStart` ran: a session was handed to the storage. -/
def startFired (events : List Event) : Bool :=
  events.any fun e =>
    match e with
    | Event.SaveSession _ => true
    | _ => false

/-- Whether `handleRemoteEnd` ran: the open session was asked for. -/
def endFired (events : List Event) : Bool :=
  events.any fun e =>
    match e with
    | Event.GetOpenSession => true
    | _ => false

/-- Successive cycles of `detectionLoop`, the signals of each cycle given: the
state of the detector after each cycle. -/
def cyclesFrom : Detector → Storage → List (Env × List Signal) → List Detector
  | _, _, [] => []
  | d, st, (env, remoteToolSignals) :: rest =>
    let (d1, st1, _) := detectFrom d st env remoteToolSignals DetectSessions DetectRDPPorts
    d1 :: cyclesFrom d1 st1 rest

/-- The transitions in a sequence of states: the number of the cycle, from `i`, and
the state entered. -/
def transitionsFrom : Nat → Bool → List Bool → List (Nat × Bool)
  | _, _, [] => []
  | i, last, b :: rest =>
    if b != last then (i, b) :: transitionsFrom (i + 1) b rest
    else transitionsFrom (i + 1) b rest

/-- The transitions of a new detector run over the given cycles, numbered from 1. -/
def transitions (notifier : Bool) (now : Time) (st : Storage)
    (cycles : List (Env × List Signal)) : List (Nat × Bool) :=
  transitionsFrom 1 (NewDetector notifier now).lastState
    ((cyclesFrom (NewDetector notifier now) st cycles).map fun d => d.lastState)

/-! ## Concrete inputs -/

/-- An environment in which every query succeeds and finds nothing. -/
def quietEnv : Env where
  os :=
    { now := 0, snapshot := none, newProcess := fun _ => true, processes := none
      cmdline := fun _ => none, connections := fun _ => none, windows := [] }
  now := 0
  endNow := 0
  storageNow := 0
  uuid := fun n => toString n
  saveSessionErr := false
  saveRawSignalErr := fun _ => false
  getOpenSessionErr := false
  updateSessionEndErr := false

/-- A remote-tool signal as `DetectRemoteTools` emits it. -/
def todeskSignal : Signal where
  Typ := "remote_tool"
  Name := "ToDesk (命令行参数)"
  Confidence := 1
  Source := "进程:todesk.exe PID:1234"
  DetectedAt := 0

/-- Six cycles with 0, 2, 2, 0, 0 and 3 remote-tool signals. -/
def sixCycles : List (Env × List Signal) :=
  [(quietEnv, []), (quietEnv, [todeskSignal, todeskSignal]),
    (quietEnv, [todeskSignal, todeskSignal]), (quietEnv, []), (quietEnv, []),
    (quietEnv, [todeskSignal, todeskSignal, todeskSignal])]

/-- The catalog entry of ToDesk. -/
def todeskTool : RemoteTool where
  ProcessName := "todesk.exe"
  CommandLineArgs := ["--localPort=", "--isVideoSession=true"]
  ToolName := "ToDesk"

/-- Command line of a ToDesk process serving a remote session. -/
def todeskCmdline : String :=
  "C:\\Program Files\\ToDesk\\ToDesk.exe --localPort=35600 --isVideoSession=true"

/-- An operating system running ToDesk as process 1234, without windows or
connections. -/
def todeskOS : OS where
  now := 0
  snapshot := some [{ ExeFile := "System", ProcessID := 4 },
    { ExeFile := "ToDesk.exe", ProcessID := 1234 }]
  newProcess := fun _ => true
  processes := none
  cmdline := fun pid => if pid = 1234 then some todeskCmdline else none
  connections := fun _ => none
  windows := []

/-- The same operating system, the process now owning a window and five
connections. -/
def todeskBusyOS : OS where
  now := 0
  snapshot := some [{ ExeFile := "System", ProcessID := 4 },
    { ExeFile := "ToDesk.exe", ProcessID := 1234 }]
  newProcess := fun _ => true
  processes := none
  cmdline := fun pid => if pid = 1234 then some todeskCmdline else none
  connections := fun _ =>
    some (List.replicate 5 { Typ := SOCK_STREAM, Status := "ESTABLISHED" })
  windows := [{ pid := 1234, className := some "ToDeskWnd", title := some "ToDesk" }]

/-- The command line of `todeskCmdline` with the text `--localPort=` removed. -/
def todeskCmdlineNoPort : String :=
  "C:\\Program Files\\ToDesk\\ToDesk.exe 35600 --isVideoSession=true"

/-- The command line of `todeskCmdline` with the text `--isVideoSession=true`
removed. -/
def todeskCmdlineNoVideo : String :=
  "C:\\Program Files\\ToDesk\\ToDesk.exe --localPort=35600 "

/-- An operating system in which every process has the command line `c`. -/
def cmdlineOS (c : String) : OS where
  now := 0
  snapshot := none
  newProcess := fun _ => true
  processes := none
  cmdline := fun _ => some c
  connections := fun _ => none
  windows := []

/-- Whether every rune of the string is ASCII. -/
def isASCII (s : String) : Bool :=
  s.data.all fun c => decide (c.val < 128)

/-- The catalog entry detected by its TCP connections. -/
def gameViewerTool : RemoteTool where
  ProcessName := "GameViewerServer.exe"
  ToolName := "网易UU远程"
  TCPConnThreshold := 5
  UseEstablishedOnly := true

/-- The catalog entry detected by its UDP connections. -/
def askLinkTool : RemoteTool where
  ProcessName := "AskLink.exe"
  ToolName := "AskLink远程"
  UDPConnThreshold := 1

/-- An operating system in which every process has the connections `conns`. -/
def connectionsOS (conns : List ConnectionStat) : OS where
  now := 0
  snapshot := none
  newProcess := fun _ => true
  processes := none
  cmdline := fun _ => none
  connections := fun _ => some conns
  windows := []

/-- Four established and two listening TCP connections. -/
def fourEstablished : List ConnectionStat :=
  List.replicate 4 { Typ := SOCK_STREAM, Status := "ESTABLISHED" } ++
    List.replicate 2 { Typ := SOCK_STREAM, Status := "LISTEN" }

/-- Five established TCP connections. -/
def fiveEstablished : List ConnectionStat :=
  List.replicate 5 { Typ := SOCK_STREAM, Status := "ESTABLISHED" }

/-- One UDP connection. -/
def oneDatagram : List ConnectionStat :=
  [{ Typ := SOCK_DGRAM, Status := "" }]

/-- Two UDP connections and a TCP connection. -/
def twoDatagrams : List ConnectionStat :=
  [{ Typ := SOCK_DGRAM, Status := "" }, { Typ := SOCK_STREAM, Status := "ESTABLISHED" },
    { Typ := SOCK_DGRAM, Status := "" }]

/-- A rule without process name and without strategy. -/
def anonymousTool : RemoteTool where
  ToolName := "任意进程"

/-- The catalog entry detected by the existence of its process. -/
def sunloginTool : RemoteTool where
  ProcessName := "sunloginclient.exe"
  ToolName := "向日葵客户端"

/-- An operating system running the Sunlogin client as process 4321. -/
def sunloginOS : OS where
  now := 0
  snapshot := some [{ ExeFile := "System", ProcessID := 4 },
    { ExeFile := "SunloginClient.exe", ProcessID := 4321 }]
  newProcess := fun _ => true
  processes := some [{ Pid := 4 }, { Pid := 4321 }]
  cmdline := fun _ => none
  connections := fun _ => none
  windows := []

/-! ## Notions and inputs for the session recorder and the process cache -/

/-- The row handed to the storage for the signal number `i` of a new session. -/
def rawSignalRow (env : Env) (sessionID : String) (i : Nat) (s : Signal) : RawSignal where
  ID := env.uuid (i + 1)
  SessionID := if sessionID = "" then none else some sessionID
  Typ := s.Typ
  Name := s.Name
  Confidence := s.Confidence
  RawData := s.Source
  DetectedAt := if s.DetectedAt = 0 then env.storageNow else s.DetectedAt

/-- The rows handed to `Storage.SaveRawSignal` among the calls. -/
def savedRawSignals (events : List Event) : List RawSignal :=
  events.filterMap fun e =>
    match e with
    | Event.SaveRawSignal r => some r
    | _ => none

/-- A detector in the Active state. -/
def activeDetector : Detector :=
  { NewDetector true 0 with lastState := true }

/-- The session handed to the storage at a transition to Active. -/
def newSession (d : Detector) (env : Env) (signals : List Signal) : RemoteSession where
  ID := env.uuid 0
  StartTime := d.lastChange
  EndTime := none
  Duration := 0
  Signals := formatSignals signals
  Confidence := avgConf signals
  CreatedAt := env.storageNow

/-- The environment of `quietEnv` in which every storage operation fails. -/
def failingEnv : Env :=
  { quietEnv with
    saveSessionErr := true
    saveRawSignalErr := fun _ => true
    getOpenSessionErr := true
    updateSessionEndErr := true }

/-- The number of sessions of the store without end time. -/
def openCount (st : Storage) : Nat :=
  (st.sessions.filter fun r => r.IsActive).length

/-- A store left with one open session, as by a detector stopped while Active. -/
def staleStore : Storage where
  sessions := [{ ID := "stale", StartTime := 0, Signals := "ToDesk (命令行参数)", Confidence := 1 }]

/-- The comparison of names made on each entry of the snapshot. -/
def sameName (u : Unicode) (exeFile processName : String) : Bool :=
  strings.EqualFold u exeFile processName ||
    strings.EqualFold u (strings.ToLower u exeFile) (strings.ToLower u processName)

/-- An operating system whose snapshot cannot be created. -/
def noSnapshotOS : OS where
  now := 0
  snapshot := none
  newProcess := fun _ => true
  processes := none
  cmdline := fun _ => none
  connections := fun _ => none
  windows := []

/-- An operating system running ToDesk as a process for which no handle can be
created. -/
def closedProcessOS : OS where
  now := 0
  snapshot := some [{ ExeFile := "ToDesk.exe", ProcessID := 1234 }]
  newProcess := fun _ => false
  processes := none
  cmdline := fun _ => none
  connections := fun _ => none
  windows := []

/-- A name that survives the summary: not empty, without comma, without white space
at either end. -/
def cleanName (n : String) : Prop :=
  n ≠ "" ∧ ',' ∉ n.data ∧ n.data.head?.map isSpace ≠ some true ∧
    n.data.getLast?.map isSpace ≠ some true

instance cleanName.decidable (n : String) : Decidable (cleanName n) := by
  unfold cleanName
  infer_instance

/-- The rational number that a `float64` denotes. -/
def F64.val (a : F64) : ℚ :=
  a.num * (2 : ℚ) ^ a.exp

/-- A store holding one open session that started at time 0. -/
def openStore : Storage where
  sessions := [{ ID := "open", StartTime := 0, Signals := "ToDesk (命令行参数)", Confidence := 1 }]

/-- The environment of `quietEnv` with the clock at `t` when the session is closed. -/
def closingEnv (t : Time) : Env :=
  { quietEnv with endNow := t }

/-- Three cycles from a new detector over an empty store, with zero, one and zero
remote-tool signals: the results of the three calls of `detect`. -/
def threeCycles (notifier : Bool) (t0 : Time) (env1 env2 env3 : Env) (s : Signal) :
    (Detector × Storage × List Event) × (Detector × Storage × List Event) ×
      (Detector × Storage × List Event) :=
  let c1 := detectFrom (NewDetector notifier t0) {} env1 [] DetectSessions DetectRDPPorts
  let c2 := detectFrom c1.1 c1.2.1 env2 [s] DetectSessions DetectRDPPorts
  let c3 := detectFrom c2.1 c2.2.1 env3 [] DetectSessions DetectRDPPorts
  (c1, c2, c3)

/-- The session that the second of the three cycles creates. -/
def createdSession (env2 : Env) (s : Signal) : RemoteSession where
  ID := env2.uuid 0
  StartTime := env2.now
  EndTime := none
  Duration := 0
  Signals := formatSignals [s]
  Confidence := avgConf [s]
  CreatedAt := env2.storageNow

/-- The environment of `quietEnv` with the clock at `t`. -/
def cycleEnv (t : Time) : Env :=
  { quietEnv with now := t, endNow := t }

/-! ## Notions and inputs for sequences of cycles and the cache -/

/-- The detector and the storage after each cycle of a sequence of cycles, each given by
its environment and its remote-tool signals. -/
def statesFrom : Detector → Storage → List (Env × List Signal) → List (Detector × Storage)
  | _, _, [] => []
  | d, st, (env, remoteToolSignals) :: rest =>
    let c := detectFrom d st env remoteToolSignals DetectSessions DetectRDPPorts
    (c.1, c.2.1) :: statesFrom c.1 c.2.1 rest

/-- Every storage operation of the cycles succeeds: at a transition to Active the
database accepts the new session, whose id is not yet in the table, and at a transition
to Inactive both the query for the open session and the update succeed. -/
def storageSucceeds : Detector → Storage → List (Env × List Signal) → Prop
  | _, _, [] => True
  | d, st, (env, remoteToolSignals) :: rest =>
    (d.lastState = false → remoteToolSignals ≠ [] →
      env.saveSessionErr = false ∧ ∀ x ∈ st.sessions, x.ID ≠ env.uuid 0) ∧
    (d.lastState = true → remoteToolSignals = [] →
      env.getOpenSessionErr = false ∧ env.updateSessionEndErr = false) ∧
    storageSucceeds
      (detectFrom d st env remoteToolSignals DetectSessions DetectRDPPorts).1
      (detectFrom d st env remoteToolSignals DetectSessions DetectRDPPorts).2.1 rest

instance storageSucceeds.decidable :
    ∀ (d : Detector) (st : Storage) (cycles : List (Env × List Signal)),
      Decidable (storageSucceeds d st cycles)
  | _, _, [] => isTrue trivial
  | d, st, (env, remoteToolSignals) :: rest =>
    have := storageSucceeds.decidable
      (detectFrom d st env remoteToolSignals DetectSessions DetectRDPPorts).1
      (detectFrom d st env remoteToolSignals DetectSessions DetectRDPPorts).2.1 rest
    inferInstanceAs (Decidable
      ((d.lastState = false → remoteToolSignals ≠ [] →
          env.saveSessionErr = false ∧ ∀ x ∈ st.sessions, x.ID ≠ env.uuid 0) ∧
        (d.lastState = true → remoteToolSignals = [] →
          env.getOpenSessionErr = false ∧ env.updateSessionEndErr = false) ∧
        storageSucceeds
          (detectFrom d st env remoteToolSignals DetectSessions DetectRDPPorts).1
          (detectFrom d st env remoteToolSignals DetectSessions DetectRDPPorts).2.1 rest))

/-- The environment of `quietEnv` in cycle `k`, drawing identifiers of its own. -/
def numberedEnv (k : Nat) : Env :=
  { quietEnv with uuid := fun n => toString k ++ "-" ++ toString n }

/-- Five cycles with 0, 1, 1, 0 and 1 remote-tool signals. -/
def fiveCycles : List (Env × List Signal) :=
  [(numberedEnv 1, []), (numberedEnv 2, [todeskSignal]), (numberedEnv 3, [todeskSignal]),
    (numberedEnv 4, []), (numberedEnv 5, [todeskSignal])]

/-- A detector whose cache holds a list for ToDesk that no snapshot of the cycle
resolves. -/
def staleDetector : WindowsDetector :=
  { NewWindowsDetector with
    processCache := fun k => if k = "todesk.exe" then some [{ Pid := 999 }] else none }

/-- The operating system of `todeskOS` observed at time `t`. -/
def todeskAt (t : Time) : OS :=
  { todeskOS with now := t }

/-- An operating system observed at time `t` in which ToDesk no longer runs. -/
def idleAt (t : Time) : OS :=
  { todeskOS with now := t, snapshot := some [{ ExeFile := "System", ProcessID := 4 }] }

/-! ## History endpoint -/

/-- The value that a result of `int` arithmetic wraps to: Go `int` has 64 bits in two's
complement. -/
def wrapInt (x : Int) : Int :=
  (x + 2 ^ 63) % 2 ^ 64 - 2 ^ 63

/-- The loop of `strconv.Atoi` over the digits: the number read, `none` at a byte that
is not a decimal digit. -/
def digitsValue : List Char → Nat → Option Nat
  | [], n => some n
  | ch :: rest, n =>
    if '0' ≤ ch ∧ ch ≤ '9' then digitsValue rest (n * 10 + (ch.toNat - '0'.toNat))
    else none

/-- The end of `strconv.Atoi`: the digits after the sign are read and the sign is
applied; `none` for a syntax or range error of a 64-bit `int`. -/
def strconv.signedValue (neg : Bool) (digits : List Char) : Option Int :=
  if digits = [] then none
  else
    match digitsValue digits 0 with
    | none => none
    | some n =>
      if neg then (if n ≤ 2 ^ 63 then some (-(n : Int)) else none)
      else if n < 2 ^ 63 then some (n : Int) else none

/-- Go `strconv.Atoi` for a 64-bit `int`: the value, `none` for an error.  An optional
sign is followed by at least one decimal digit. -/
def strconv.Atoi (s : String) : Option Int :=
  match s.data with
  | '-' :: rest => strconv.signedValue true rest
  | '+' :: rest => strconv.signedValue false rest
  | digits => strconv.signedValue false digits

/-- Answers of the database to the two queries of `GetSessionsPaginated`: the number
of sessions, and the sessions in descending order of start time from an offset up to a
limit; `none` is an error. -/
structure HistoryDB where
  count : Option Int
  find : Int → Int → Option (List RemoteSession)

/-- Go `Storage.GetSessionsPaginated`, reached through
`Detector.GetHistoryPaginated`: the sessions and the total, `none` when the returned
error is not nil. -/
def GetSessionsPaginated (db : HistoryDB) (page pageSize : Int) :
    Option (List RemoteSession × Int) :=
  let offset := wrapInt (wrapInt (page - 1) * pageSize)
  match db.count with
  | none => none
  | some total =>
    match db.find offset pageSize with
    | none => none
    | some sessions => some (sessions, total)

/-- What `handleHistory` writes. -/
inductive HistoryReply where
  /-- Status 405. -/
  | methodNotAllowed
  /-- Status 500. -/
  | internalError
  /-- The JSON object of the page. -/
  | page (sessions : List RemoteSession) (total page pageSize totalPages : Int)
deriving DecidableEq, Repr

/-- The value of a paging parameter after its query value is read. -/
def pagingParam (default : Int) (value : String) : Int :=
  if value != "" then
    match strconv.Atoi value with
    | some p => if p > 0 then p else default
    | none => default
  else default

/-- Go `Server.handleHistory`; `pageStr` and `pageSizeStr` are the values of the query
parameters `page` and `pageSize`, empty when absent. -/
def handleHistory (db : HistoryDB) (method pageStr pageSizeStr : String) : HistoryReply :=
  if method != "GET" then HistoryReply.methodNotAllowed
  else
    let page := pagingParam 1 pageStr
    let pageSize := pagingParam 5 pageSizeStr
    match GetSessionsPaginated db page pageSize with
    | none => HistoryReply.internalError
    | some (sessions, total) =>
      HistoryReply.page sessions total page pageSize
        (Int.tdiv (wrapInt (wrapInt (wrapInt total + pageSize) - 1)) pageSize)

/-- A database with two sessions that answers every query. -/
def twoSessionsDB : HistoryDB where
  count := some 2
  find := fun _ _ => some []

/-! ## Properties of the state tracker -/

theorem rawSignalLoop_events (env : Env) (sessionID : String) (signals : List Signal) :
    ∀ (i : Nat) (st : Storage) (events : List Event),
      ∃ raws : List RawSignal, raws.length = signals.length ∧
        (rawSignalLoop env sessionID signals i st events).2 =
          events ++ raws.map Event.SaveRawSignal := by
  induction signals with
  | nil => intro i st events; exact ⟨[], rfl, by simp [rawSignalLoop]⟩
  | cons s rest ih =>
    intro i st events
    simp only [rawSignalLoop]
    generalize SaveRawSignal st _ _ _ _ = x
    obtain ⟨raws, hlen, h⟩ := ih (i + 1) x.2.2 (events ++ [Event.SaveRawSignal x.1])
    exact ⟨x.1 :: raws, by simp [hlen], by rw [h]; simp⟩

theorem SaveSession_fields (st : Storage) (newID : String) (now : Time) (dbErr : Bool)
    (session : RemoteSession) :
    (SaveSession st newID now dbErr session).1.StartTime = session.StartTime ∧
    (SaveSession st newID now dbErr session).1.EndTime = session.EndTime ∧
    (SaveSession st newID now dbErr session).1.Signals = session.Signals ∧
    (SaveSession st newID now dbErr session).1.Confidence = session.Confidence := by
  unfold SaveSession
  simp only
  split_ifs <;> simp

theorem handleRemoteStart_events (d : Detector) (st : Storage) (env : Env)
    (signals : List Signal) :
    ∃ (session : RemoteSession) (raws : List RawSignal),
      session.StartTime = d.lastChange ∧ session.EndTime = none ∧
      session.Signals = formatSignals signals ∧ session.Confidence = avgConf signals ∧
      raws.length = signals.length ∧
      (handleRemoteStart d st env signals).2 =
        Event.SaveSession session ::
          (raws.map Event.SaveRawSignal ++
            if d.notifier then [Event.NotifyRemoteStart (signals.map fun s => s.Name)]
            else []) := by
  unfold handleRemoteStart
  simp only
  generalize hx : SaveSession st _ _ _ _ = x
  have hf := SaveSession_fields st (env.uuid 0) env.storageNow env.saveSessionErr
    { StartTime := d.lastChange, Signals := formatSignals signals,
      Confidence := avgConf signals }
  rw [hx] at hf
  obtain ⟨raws, hlen, h⟩ := rawSignalLoop_events env x.1.ID signals 0 x.2.2
    [Event.SaveSession x.1]
  refine ⟨x.1, raws, hf.1, hf.2.1, hf.2.2.1, hf.2.2.2, hlen, ?_⟩
  split <;> simp [h]

theorem handleRemoteEnd_events (d : Detector) (st : Storage) (env : Env) :
    ∃ rest : List Event, (handleRemoteEnd d st env).2 = Event.GetOpenSession :: rest ∧
      ∀ e ∈ rest, ∀ s, e ≠ Event.SaveSession s := by
  unfold handleRemoteEnd
  cases GetOpenSession st env.getOpenSessionErr <;> cases d.notifier <;> simp

theorem startFired_handleRemoteStart (d : Detector) (st : Storage) (env : Env)
    (signals : List Signal) :
    startFired (handleRemoteStart d st env signals).2 = true ∧
      endFired (handleRemoteStart d st env signals).2 = false := by
  obtain ⟨session, raws, -, -, -, -, -, h⟩ := handleRemoteStart_events d st env signals
  rw [h]
  constructor
  · simp [startFired]
  · cases d.notifier <;> simp [endFired]

theorem endFired_handleRemoteEnd (d : Detector) (st : Storage) (env : Env) :
    endFired (handleRemoteEnd d st env).2 = true ∧
      startFired (handleRemoteEnd d st env).2 = false := by
  unfold handleRemoteEnd
  cases GetOpenSession st env.getOpenSessionErr <;> cases d.notifier <;>
    simp [endFired, startFired]

theorem detect_eq_detectFrom (u : Unicode) (d : Detector) (st : Storage) (env : Env) :
    detect u d st env =
      detectFrom { d with windows := (DetectRemoteTools u d.windows env.os).2 } st env
        (DetectRemoteTools u d.windows env.os).1 DetectSessions DetectRDPPorts := by
  unfold detect
  cases DetectRemoteTools u d.windows env.os
  rfl

theorem detectFrom_same (d : Detector) (st : Storage) (env : Env)
    (r sessionSignals portSignals : List Signal)
    (h : decide (r.length > 0) = d.lastState) :
    detectFrom d st env r sessionSignals portSignals =
      ({ d with signals := r ++ sessionSignals ++ portSignals }, st, []) := by
  unfold detectFrom
  simp [h]

theorem detectFrom_start (d : Detector) (st : Storage) (env : Env)
    (r sessionSignals portSignals : List Signal)
    (h : d.lastState = false) (hr : r ≠ []) :
    detectFrom d st env r sessionSignals portSignals =
      ({ d with signals := r ++ sessionSignals ++ portSignals, lastChange := env.now,
                lastState := true },
        handleRemoteStart
          { d with signals := r ++ sessionSignals ++ portSignals, lastChange := env.now,
                   lastState := true } st env (r ++ sessionSignals ++ portSignals)) := by
  have hr' : r.length > 0 := List.length_pos.mpr hr
  unfold detectFrom
  simp [h, hr']

theorem detectFrom_end (d : Detector) (st : Storage) (env : Env)
    (sessionSignals portSignals : List Signal) (h : d.lastState = true) :
    detectFrom d st env [] sessionSignals portSignals =
      ({ d with signals := sessionSignals ++ portSignals, lastChange := env.now,
                lastState := false },
        handleRemoteEnd
          { d with signals := sessionSignals ++ portSignals, lastChange := env.now,
                   lastState := false } st env) := by
  unfold detectFrom
  simp [h]

theorem detectFrom_state (d : Detector) (st : Storage) (env : Env)
    (r sessionSignals portSignals : List Signal) :
    ((detectFrom d st env r sessionSignals portSignals).1.lastState = true ↔ r ≠ []) ∧
    (startFired (detectFrom d st env r sessionSignals portSignals).2.2 = true ↔
      d.lastState = false ∧ r ≠ []) ∧
    (endFired (detectFrom d st env r sessionSignals portSignals).2.2 = true ↔
      d.lastState = true ∧ r = []) := by
  cases hl : d.lastState <;> cases r with
  | nil =>
    first
    | (rw [detectFrom_same _ _ _ _ _ _ (by simp [hl])]; simp [hl, startFired, endFired]; done)
    | (rw [detectFrom_end _ _ _ _ _ hl]; simp [endFired_handleRemoteEnd])
  | cons a t =>
    first
    | (rw [detectFrom_same _ _ _ _ _ _ (by simp [hl])]; simp [hl, startFired, endFired]; done)
    | (rw [detectFrom_start _ _ _ _ _ _ hl (by simp)]; simp [startFired_handleRemoteStart])

/-- C1: after a cycle the state is Active exactly when the cycle found a remote-tool
signal, whatever the session and port signals are; `handleRemoteStart` runs exactly
when the state was Inactive and a remote-tool signal was found, `handleRemoteEnd`
exactly when the state was Active and none was found. -/
theorem detect_active_iff_remote_tool (u : Unicode) (d : Detector) (st : Storage) (env : Env)
    (remoteToolSignals sessionSignals portSignals : List Signal) :
    ((detectFrom d st env remoteToolSignals sessionSignals portSignals).1.lastState = true ↔
      remoteToolSignals ≠ []) ∧
    (startFired (detectFrom d st env remoteToolSignals sessionSignals portSignals).2.2 = true ↔
      d.lastState = false ∧ remoteToolSignals ≠ []) ∧
    (endFired (detectFrom d st env remoteToolSignals sessionSignals portSignals).2.2 = true ↔
      d.lastState = true ∧ remoteToolSignals = []) ∧
    ((detect u d st env).1.lastState = true ↔
      (DetectRemoteTools u d.windows env.os).1 ≠ []) := by
  refine ⟨(detectFrom_state d st env _ _ _).1, (detectFrom_state d st env _ _ _).2.1,
    (detectFrom_state d st env _ _ _).2.2, ?_⟩
  rw [detect_eq_detectFrom]
  exact (detectFrom_state _ st env _ _ _).1

theorem cyclesFrom_lastState (d : Detector) (st : Storage)
    (cycles : List (Env × List Signal)) :
    (cyclesFrom d st cycles).map (fun d => d.lastState) =
      (cycles.map fun c => c.2.length).map fun n => decide (n > 0) := by
  induction cycles generalizing d st with
  | nil => rfl
  | cons c rest ih =>
    obtain ⟨env, r⟩ := c
    simp only [cyclesFrom, List.map_cons]
    rw [ih]
    congr 1
    have h := (detectFrom_state d st env r DetectSessions DetectRDPPorts).1
    cases r with
    | nil =>
      simp only [List.length_nil, gt_iff_lt, lt_self_iff_false, decide_False]
      simpa using h
    | cons a t => simpa using h

/-- C2, as the code behaves: from a new detector, cycles whose remote-tool signal
counts are 0, 2, 2, 0, 0, 3 make exactly three transitions, to Active at cycle 2, to
Inactive at cycle 4 and to Active again at cycle 6. -/
theorem transitions_of_counts (notifier : Bool) (now : Time) (st : Storage)
    (cycles : List (Env × List Signal))
    (h : (cycles.map fun c => c.2.length) = [0, 2, 2, 0, 0, 3]) :
    transitions notifier now st cycles = [(2, true), (4, false), (6, true)] := by
  unfold transitions
  rw [cyclesFrom_lastState, h]
  rfl

/-- C2 fails as stated: on six cycles with counts 0, 2, 2, 0, 0, 3 the detector makes
three transitions, not two. -/
theorem transitions_sixCycles :
    (sixCycles.map fun c => c.2.length) = [0, 2, 2, 0, 0, 3] ∧
    (transitions true 0 {} sixCycles).length = 3 ∧
    (transitions true 0 {} sixCycles).length ≠ 2 := by
  have h : (sixCycles.map fun c => c.2.length) = [0, 2, 2, 0, 0, 3] := by decide
  have ht : transitions true 0 {} sixCycles = [(2, true), (4, false), (6, true)] := by
    unfold transitions
    rw [cyclesFrom_lastState, h]
    decide
  exact ⟨h, by rw [ht]; rfl, by rw [ht]; decide⟩

/-- C2 witness: the six cycles of `sixCycles`. -/
theorem transitions_of_counts_witness :
    (sixCycles.map fun c => c.2.length) = [0, 2, 2, 0, 0, 3] ∧
    transitions false 0 {} sixCycles = [(2, true), (4, false), (6, true)] :=
  ⟨by decide, transitions_of_counts false 0 {} sixCycles (by decide)⟩

theorem GetStatus_Signals (d : Detector) (st : Storage) (now : Time) (dbErr : Bool) :
    (GetStatus d st now dbErr).Signals = d.signals := by
  unfold GetStatus
  cases GetOpenSession st dbErr <;> cases d.lastState <;> rfl

/-- C9: in a cycle whose activity status equals the state of the previous cycle,
`detect` leaves `lastState` and `lastChange` as they were and calls neither the
storage nor the notifier; in every cycle the stored signals become the signals of
the cycle, and `GetStatus` returns them. -/
theorem detect_frame (u : Unicode) (d : Detector) (st : Storage) (env : Env)
    (remoteToolSignals sessionSignals portSignals : List Signal) :
    (decide (remoteToolSignals.length > 0) = d.lastState →
      (detectFrom d st env remoteToolSignals sessionSignals portSignals).1.lastState =
          d.lastState ∧
        (detectFrom d st env remoteToolSignals sessionSignals portSignals).1.lastChange =
          d.lastChange ∧
        (detectFrom d st env remoteToolSignals sessionSignals portSignals).2.1 = st ∧
        (detectFrom d st env remoteToolSignals sessionSignals portSignals).2.2 = []) ∧
    (detectFrom d st env remoteToolSignals sessionSignals portSignals).1.signals =
      remoteToolSignals ++ sessionSignals ++ portSignals ∧
    (∀ (now : Time) (dbErr : Bool),
      (GetStatus (detectFrom d st env remoteToolSignals sessionSignals portSignals).1
          (detectFrom d st env remoteToolSignals sessionSignals portSignals).2.1 now
          dbErr).Signals =
        remoteToolSignals ++ sessionSignals ++ portSignals) ∧
    (decide ((DetectRemoteTools u d.windows env.os).1.length > 0) = d.lastState →
      (detect u d st env).1.lastState = d.lastState ∧
        (detect u d st env).1.lastChange = d.lastChange ∧
        (detect u d st env).2.1 = st ∧ (detect u d st env).2.2 = []) ∧
    (∀ (now : Time) (dbErr : Bool),
      (GetStatus (detect u d st env).1 (detect u d st env).2.1 now dbErr).Signals =
        (DetectRemoteTools u d.windows env.os).1 ++ DetectSessions ++ DetectRDPPorts) := by
  have hsig : ∀ (d : Detector) (r s p : List Signal),
      (detectFrom d st env r s p).1.signals = r ++ s ++ p := by
    intro d r s p
    unfold detectFrom
    simp only
    split_ifs <;> rfl
  refine ⟨?_, hsig _ _ _ _, ?_, ?_, ?_⟩
  · intro h
    rw [detectFrom_same _ _ _ _ _ _ h]
    exact ⟨rfl, rfl, rfl, rfl⟩
  · intro now dbErr
    rw [GetStatus_Signals, hsig]
  · intro h
    rw [detect_eq_detectFrom,
      detectFrom_same { d with windows := (DetectRemoteTools u d.windows env.os).2 } _ _ _ _ _ h]
    exact ⟨rfl, rfl, rfl, rfl⟩
  · intro now dbErr
    rw [GetStatus_Signals, detect_eq_detectFrom, hsig]

/-- C9 witness: a new detector and a cycle without signals. -/
theorem detect_frame_witness :
    decide (([] : List Signal).length > 0) = (NewDetector true 0).lastState ∧
    ((detectFrom (NewDetector true 0) {} quietEnv [] [] []).1.lastState =
        (NewDetector true 0).lastState ∧
      (detectFrom (NewDetector true 0) {} quietEnv [] [] []).1.lastChange =
        (NewDetector true 0).lastChange ∧
      (detectFrom (NewDetector true 0) {} quietEnv [] [] []).2.1 = {} ∧
      (detectFrom (NewDetector true 0) {} quietEnv [] [] []).2.2 = []) ∧
    decide ((DetectRemoteTools Unicode.ascii (NewDetector true 0).windows
      quietEnv.os).1.length > 0) = (NewDetector true 0).lastState ∧
    ((detect Unicode.ascii (NewDetector true 0) {} quietEnv).1.lastState =
        (NewDetector true 0).lastState ∧
      (detect Unicode.ascii (NewDetector true 0) {} quietEnv).1.lastChange =
        (NewDetector true 0).lastChange ∧
      (detect Unicode.ascii (NewDetector true 0) {} quietEnv).2.1 = {} ∧
      (detect Unicode.ascii (NewDetector true 0) {} quietEnv).2.2 = []) :=
  ⟨by decide,
    (detect_frame Unicode.ascii (NewDetector true 0) {} quietEnv [] [] []).1 (by decide),
    by decide,
    (detect_frame Unicode.ascii (NewDetector true 0) {} quietEnv [] [] []).2.2.2.1
      (by decide)⟩

theorem totalLoop_eq (signals : List Signal) (total : ℚ) :
    totalLoop signals total = total + (signals.map fun s => s.Confidence).sum := by
  induction signals generalizing total with
  | nil => simp [totalLoop]
  | cons s rest ih => simp [totalLoop, ih, add_assoc]

theorem avgConf_eq (signals : List Signal) :
    avgConf signals = (signals.map fun s => s.Confidence).sum / (signals.length : ℚ) := by
  unfold avgConf
  cases signals with
  | nil => simp
  | cons s rest => simp [totalLoop_eq]

theorem rawSignalLoop_sessions (env : Env) (sessionID : String) (signals : List Signal) :
    ∀ (i : Nat) (st : Storage) (events : List Event),
      (rawSignalLoop env sessionID signals i st events).1.sessions = st.sessions := by
  induction signals with
  | nil => intro i st events; rfl
  | cons s rest ih =>
    intro i st events
    simp only [rawSignalLoop]
    rw [ih]
    unfold SaveRawSignal
    simp only
    split_ifs <;> rfl

theorem handleRemoteStart_spec (d : Detector) (st : Storage) (env : Env)
    (signals : List Signal) :
    ∃ (session : RemoteSession) (raws : List RawSignal),
      session.StartTime = d.lastChange ∧ session.EndTime = none ∧
      session.Signals = formatSignals signals ∧ session.Confidence = avgConf signals ∧
      raws.length = signals.length ∧
      (handleRemoteStart d st env signals).2 =
        Event.SaveSession session ::
          (raws.map Event.SaveRawSignal ++
            if d.notifier then [Event.NotifyRemoteStart (signals.map fun s => s.Name)]
            else []) ∧
      ((handleRemoteStart d st env signals).1.sessions = st.sessions ∨
        (handleRemoteStart d st env signals).1.sessions = st.sessions ++ [session]) := by
  unfold handleRemoteStart
  simp only
  generalize hx : SaveSession st _ _ _ _ = x
  have hf := SaveSession_fields st (env.uuid 0) env.storageNow env.saveSessionErr
    { StartTime := d.lastChange, Signals := formatSignals signals,
      Confidence := avgConf signals }
  rw [hx] at hf
  obtain ⟨raws, hlen, h⟩ := rawSignalLoop_events env x.1.ID signals 0 x.2.2
    [Event.SaveSession x.1]
  have hs := rawSignalLoop_sessions env x.1.ID signals 0 x.2.2 [Event.SaveSession x.1]
  have hst : x.2.2.sessions = st.sessions ∨ x.2.2.sessions = st.sessions ++ [x.1] := by
    rw [← hx]
    unfold SaveSession
    simp only
    split_ifs <;> simp
  refine ⟨x.1, raws, hf.1, hf.2.1, hf.2.2.1, hf.2.2.2, hlen, ?_, ?_⟩
  · split <;> simp [h]
  · split <;> simpa [hs] using hst

/-- C10: at a transition from Inactive to Active exactly one session is handed to
the storage, its confidence is the sum of the confidences of the signals of the
cycle divided by their number, and the table of sessions is either unchanged (the
database refused the row) or extended by that session; for an empty list
`handleRemoteStart` records the confidence 0. -/
theorem session_confidence_mean (d : Detector) (st : Storage) (env : Env)
    (remoteToolSignals sessionSignals portSignals : List Signal) :
    (d.lastState = false → remoteToolSignals ≠ [] →
      ∃ (session : RemoteSession) (rest : List Event),
        (detectFrom d st env remoteToolSignals sessionSignals portSignals).2.2 =
          Event.SaveSession session :: rest ∧
        (∀ s, Event.SaveSession s ∉ rest) ∧
        session.Confidence =
          ((remoteToolSignals ++ sessionSignals ++ portSignals).map fun s =>
              s.Confidence).sum /
            ((remoteToolSignals ++ sessionSignals ++ portSignals).length : ℚ) ∧
        ((detectFrom d st env remoteToolSignals sessionSignals portSignals).2.1.sessions =
            st.sessions ∨
          (detectFrom d st env remoteToolSignals sessionSignals portSignals).2.1.sessions =
            st.sessions ++ [session])) ∧
    (∃ (session : RemoteSession) (rest : List Event),
      (handleRemoteStart d st env []).2 = Event.SaveSession session :: rest ∧
        session.Confidence = 0) := by
  constructor
  · intro h hr
    rw [detectFrom_start _ _ _ _ _ _ h hr]
    obtain ⟨session, raws, -, -, -, hc, -, hev, hst⟩ := handleRemoteStart_spec
      { d with signals := remoteToolSignals ++ sessionSignals ++ portSignals,
               lastChange := env.now, lastState := true }
      st env (remoteToolSignals ++ sessionSignals ++ portSignals)
    refine ⟨session, _, hev, ?_, ?_, hst⟩
    · intro s hmem
      cases hn : d.notifier <;> simp [hn] at hmem
    · rw [hc, avgConf_eq]
  · obtain ⟨session, raws, -, -, -, hc, -, h⟩ := handleRemoteStart_events d st env []
    exact ⟨session, _, h, by rw [hc]; simp [avgConf]⟩

/-- C10 witness: a new detector and a cycle with two signals. -/
theorem session_confidence_mean_witness :
    (NewDetector true 0).lastState = false ∧ [todeskSignal, todeskSignal] ≠ [] ∧
    ∃ (session : RemoteSession) (rest : List Event),
      (detectFrom (NewDetector true 0) {} quietEnv [todeskSignal, todeskSignal] [] []).2.2 =
        Event.SaveSession session :: rest ∧
      (∀ s, Event.SaveSession s ∉ rest) ∧
      session.Confidence =
        ((([todeskSignal, todeskSignal] ++ [] ++ []) : List Signal).map fun s =>
            s.Confidence).sum /
          ((([todeskSignal, todeskSignal] ++ [] ++ []) : List Signal).length : ℚ) ∧
      ((detectFrom (NewDetector true 0) {} quietEnv [todeskSignal, todeskSignal] []
            []).2.1.sessions = ({} : Storage).sessions ∨
        (detectFrom (NewDetector true 0) {} quietEnv [todeskSignal, todeskSignal] []
            []).2.1.sessions = ({} : Storage).sessions ++ [session]) :=
  ⟨rfl, by simp,
    (session_confidence_mean (NewDetector true 0) {} quietEnv [todeskSignal, todeskSignal]
      [] []).1 rfl (by simp)⟩

/-! ## Properties of the signal evaluator -/

theorem commandLineLoop_eq (u : Unicode) (os : OS) (tool : RemoteTool) (procs : List Process) :
    commandLineLoop u os tool procs =
      (procs.find? fun p => Strategy.commandLine.succeedsOn u os tool p).map fun p =>
        { remoteProcess := p, detectionMethod := Strategy.commandLine.describe os tool p } := by
  induction procs with
  | nil => rfl
  | cons p rest ih =>
    simp only [commandLineLoop, List.find?, Strategy.succeedsOn]
    cases os.cmdline p.Pid with
    | none => simpa using ih
    | some c =>
      simp only
      cases allArgsFound u (cmdlineRemainder u tool c) tool.CommandLineArgs with
      | true => simp [Strategy.describe]
      | false => simpa using ih

theorem windowClassLoop_eq (u : Unicode) (os : OS) (tool : RemoteTool) (procs : List Process) :
    windowClassLoop os tool procs =
      (procs.find? fun p => Strategy.windowClass.succeedsOn u os tool p).map fun p =>
        { remoteProcess := p, detectionMethod := Strategy.windowClass.describe os tool p } := by
  induction procs with
  | nil => rfl
  | cons p rest ih =>
    simp only [windowClassLoop, List.find?, Strategy.succeedsOn]
    cases h : ((detectWindowClass os p.Pid tool.WindowClass).2 &&
      (detectWindowClass os p.Pid tool.WindowClass).1) with
    | true => simp [h, Strategy.describe]
    | false => simpa [h] using ih

theorem windowTitleLoop_eq (u : Unicode) (os : OS) (tool : RemoteTool) (procs : List Process) :
    windowTitleLoop os tool procs =
      (procs.find? fun p => Strategy.windowTitle.succeedsOn u os tool p).map fun p =>
        { remoteProcess := p, detectionMethod := Strategy.windowTitle.describe os tool p } := by
  induction procs with
  | nil => rfl
  | cons p rest ih =>
    simp only [windowTitleLoop, List.find?, Strategy.succeedsOn]
    cases h : ((detectWindowTitle os p.Pid tool.WindowTitle).2 &&
      (detectWindowTitle os p.Pid tool.WindowTitle).1) with
    | true => simp [h, Strategy.describe]
    | false => simpa [h] using ih

theorem tcpLoop_eq (u : Unicode) (os : OS) (tool : RemoteTool) (procs : List Process) :
    tcpLoop os tool procs =
      (procs.find? fun p => Strategy.tcp.succeedsOn u os tool p).map fun p =>
        { remoteProcess := p, detectionMethod := Strategy.tcp.describe os tool p } := by
  induction procs with
  | nil => rfl
  | cons p rest ih =>
    simp only [tcpLoop, List.find?, Strategy.succeedsOn]
    cases h : ((getTCPConnectionCount os p.Pid tool.UseEstablishedOnly).2 &&
      decide ((getTCPConnectionCount os p.Pid tool.UseEstablishedOnly).1 ≥
        tool.TCPConnThreshold)) with
    | true => simp [h, Strategy.describe]
    | false => simpa [h] using ih

theorem udpLoop_eq (u : Unicode) (os : OS) (tool : RemoteTool) (procs : List Process) :
    udpLoop os tool procs =
      (procs.find? fun p => Strategy.udp.succeedsOn u os tool p).map fun p =>
        { remoteProcess := p, detectionMethod := Strategy.udp.describe os tool p } := by
  induction procs with
  | nil => rfl
  | cons p rest ih =>
    simp only [udpLoop, List.find?, Strategy.succeedsOn]
    cases h : ((getUDPConnectionCount os p.Pid).2 &&
      decide ((getUDPConnectionCount os p.Pid).1 > tool.UDPConnThreshold)) with
    | true => simp [h, Strategy.describe]
    | false => simpa [h] using ih

theorem step_eq_or {α : Type} (r f : Option α) (c : Bool) :
    (if (r.isNone && c) = true then f else r) = r.or (if c = true then f else none) := by
  cases r <;> cases c <;> simp

theorem map_or_eq {α β : Type} (k : α → β) (a b : Option α) :
    (a.or b).map k = (a.map k).or (b.map k) := by
  cases a <;> rfl

theorem map_ite_none {α β : Type} (k : α → β) (c : Bool) (f : Option α) :
    (if c = true then f else none).map k = if c = true then f.map k else none := by
  cases c <;> rfl

theorem findSome?_cons_or {α β : Type} (f : α → Option β) (a : α) (l : List α) :
    List.findSome? f (a :: l) = (f a).or (List.findSome? f l) := by
  cases h : f a <;> simp [List.findSome?, h]

theorem detectStrategies_or (u : Unicode) (os : OS) (tool : RemoteTool)
    (procs : List Process) :
    detectStrategies u os tool procs =
      ((firstMatch u os tool procs).map fun sp =>
          ({ remoteProcess := sp.2, detectionMethod := sp.1.describe os tool sp.2 } :
            Detection)).or
        (if (tool.ProcessName != "" && noStrategy tool) = true then
          procs.head?.map fun first =>
            { remoteProcess := first, detectionMethod := "进程存在" }
        else none) := by
  have c1 : decide (tool.CommandLineArgs.length > 0) = Strategy.commandLine.configured tool := by
    cases h : tool.CommandLineArgs <;> simp [Strategy.configured, h]
  have c2 : (tool.WindowClass != "") = Strategy.windowClass.configured tool := by
    simp [Strategy.configured, bne, beq_eq_decide]
  have c3 : (tool.WindowTitle != "") = Strategy.windowTitle.configured tool := by
    simp [Strategy.configured, bne, beq_eq_decide]
  have c4 : decide (tool.TCPConnThreshold > 0) = Strategy.tcp.configured tool := rfl
  have c5 : decide (tool.UDPConnThreshold > 0) = Strategy.udp.configured tool := rfl
  have hfirst : ∀ (f : Option Detection),
      (if tool.CommandLineArgs.length > 0 then f else none) =
        if Strategy.commandLine.configured tool = true then f else none := by
    intro f
    rw [← c1]
    simp
  unfold detectStrategies firstMatch noStrategy
  rw [commandLineLoop_eq, windowClassLoop_eq u, windowTitleLoop_eq u, tcpLoop_eq u, udpLoop_eq u]
  simp only [Bool.and_assoc, step_eq_or, hfirst, c2, c3, c4, c5, Strategy.order,
    findSome?_cons_or, List.findSome?_nil, map_or_eq, map_ite_none, Option.map_map,
    Option.or_assoc, Option.or_none, Option.map_none']
  rfl

theorem findProcessesByName_fresh (u : Unicode) (os : OS) (d : WindowsDetector)
    (processName : String) (h : CacheFresh u os d) :
    (findProcessesByName u d os processName).1 = freshProcesses u os processName ∧
      CacheFresh u os (findProcessesByName u d os processName).2 := by
  unfold findProcessesByName
  simp only
  split
  · next cached hc =>
    refine ⟨?_, h⟩
    split_ifs at hc with ht
    exact h _ _ hc
  · next hc =>
    cases hs : os.snapshot with
    | none => exact ⟨by simp [freshProcesses, hs], h⟩
    | some entries =>
      cases entries with
      | nil => exact ⟨by simp [freshProcesses, hs], h⟩
      | cons first rest =>
        refine ⟨by simp [freshProcesses, hs], ?_⟩
        intro k l hk
        simp only at hk
        split_ifs at hk with hkn
        · subst hkn
          simp only [Option.some.injEq] at hk
          rw [← hk]
          simp [freshProcesses, hs]
        · exact h _ _ hk

theorem CacheFresh_clearCache (u : Unicode) (os : OS) (d : WindowsDetector) :
    CacheFresh u os (clearCache d) := by
  intro k l hk
  simp [clearCache] at hk

theorem toolsLoop_eq (u : Unicode) (os : OS) (tools : List RemoteTool) :
    ∀ (d : WindowsDetector) (signals : List Signal), CacheFresh u os d →
      (toolsLoop u os tools d signals).1 =
        signals ++ tools.filterMap fun tool => detectTool u os tool (candidates u os tool) := by
  induction tools with
  | nil => intro d signals _; simp [toolsLoop]
  | cons tool rest ih =>
    intro d signals h
    have hnone : detectTool u os tool [] = none := by simp [detectTool]
    unfold toolsLoop
    by_cases hn : (tool.ProcessName != "") = true
    · obtain ⟨h1, h2⟩ := findProcessesByName_fresh u os d tool.ProcessName h
      simp only [hn, if_true]
      rw [ih _ _ h2, h1]
      have hc : candidates u os tool = freshProcesses u os tool.ProcessName := by
        simp [candidates, hn]
      rw [List.filterMap_cons, hc]
      cases detectTool u os tool (freshProcesses u os tool.ProcessName) <;> simp
    · simp only [hn]
      cases hp : os.processes with
      | none =>
        have hc : candidates u os tool = [] := by simp [candidates, hn, hp]
        simp only [Bool.false_eq_true, if_false]
        rw [ih _ _ h, List.filterMap_cons, hc, hnone]
      | some procs =>
        have hc : candidates u os tool = procs := by simp [candidates, hn, hp]
        simp only [Bool.false_eq_true, if_false]
        rw [ih _ _ h, List.filterMap_cons, hc]
        cases detectTool u os tool procs <;> simp

theorem detectRemoteToolsIn_eq (tools : List RemoteTool) (u : Unicode) (d : WindowsDetector)
    (os : OS) :
    (detectRemoteToolsIn tools u d os).1 =
      tools.filterMap fun tool => detectTool u os tool (candidates u os tool) := by
  unfold detectRemoteToolsIn
  rw [toolsLoop_eq u os tools _ _ (CacheFresh_clearCache u os d)]
  rfl

theorem detectTool_eq (u : Unicode) (os : OS) (tool : RemoteTool) (procs : List Process) :
    detectTool u os tool procs =
      match procs, firstMatch u os tool procs with
      | [], _ => none
      | _ :: _, some (s, p) =>
        some (toolSignal os tool
          { remoteProcess := p, detectionMethod := s.describe os tool p })
      | first :: _, none =>
        if (tool.ProcessName != "" && noStrategy tool) = true then
          some (toolSignal os tool { remoteProcess := first, detectionMethod := "进程存在" })
        else none := by
  unfold detectTool
  rw [detectStrategies_or]
  cases procs with
  | nil => rfl
  | cons first rest =>
    cases hf : firstMatch u os tool (first :: rest) with
    | none =>
      by_cases hc : (tool.ProcessName != "" && noStrategy tool) = true <;> simp [hc]
    | some sp => simp

theorem Strategy.forall_iff (P : Strategy → Prop) :
    (∀ s, P s) ↔ P Strategy.commandLine ∧ P Strategy.windowClass ∧ P Strategy.windowTitle ∧
      P Strategy.tcp ∧ P Strategy.udp := by
  constructor
  · intro h
    exact ⟨h _, h _, h _, h _, h _⟩
  · rintro ⟨h1, h2, h3, h4, h5⟩ s
    cases s <;> assumption

theorem or_eq_some_iff {α : Type} (a b : Option α) (x : α) :
    a.or b = some x ↔ a = some x ∨ (a = none ∧ b = some x) := by
  cases a <;> simp

theorem ite_map_eq_some_iff {α β : Type} (c : Bool) (f : Option α) (k : α → β) (y : β) :
    (if c = true then f.map k else none) = some y ↔ c = true ∧ ∃ a, f = some a ∧ k a = y := by
  cases c <;> simp

theorem ite_map_eq_none_iff {α β : Type} (c : Bool) (f : Option α) (k : α → β) :
    (if c = true then f.map k else none) = none ↔ (c = true → f = none) := by
  cases c <;> simp

theorem firstMatch_eq_some_iff (u : Unicode) (os : OS) (tool : RemoteTool)
    (procs : List Process) (s : Strategy) (p : Process) :
    firstMatch u os tool procs = some (s, p) ↔
      s.configured tool = true ∧
      (procs.find? fun q => s.succeedsOn u os tool q) = some p ∧
      ∀ s' : Strategy, s'.rank < s.rank → s'.configured tool = true →
        ∀ q ∈ procs, s'.succeedsOn u os tool q = false := by
  unfold firstMatch
  simp only [Strategy.order, findSome?_cons_or, List.findSome?_nil, Option.or_none,
    or_eq_some_iff, ite_map_eq_some_iff, ite_map_eq_none_iff, Strategy.forall_iff,
    Prod.mk.injEq, List.find?_eq_none]
  cases s <;> simp [Strategy.rank] <;> tauto

theorem find?_agree {α : Type} (f g : α → Bool) (l : List α) (h : ∀ a ∈ l, f a = g a) :
    l.find? f = l.find? g := by
  induction l with
  | nil => rfl
  | cons a rest ih =>
    have ha := h a (List.mem_cons_self _ _)
    have hr := ih fun b hb => h b (List.mem_cons_of_mem _ hb)
    simp only [List.find?, ha, hr]

theorem firstMatch_congr (u : Unicode) (os os' : OS) (tool : RemoteTool)
    (procs : List Process) (s : Strategy) (p : Process)
    (h : firstMatch u os tool procs = some (s, p))
    (hagree : ∀ s' : Strategy, s'.rank ≤ s.rank → ∀ q ∈ procs,
      s'.succeedsOn u os' tool q = s'.succeedsOn u os tool q) :
    firstMatch u os' tool procs = some (s, p) := by
  rw [firstMatch_eq_some_iff] at h ⊢
  obtain ⟨hc, hf, hb⟩ := h
  refine ⟨hc, ?_, ?_⟩
  · rw [← hf]
    exact find?_agree _ _ procs fun q hq => hagree s (le_refl _) q hq
  · intro s' hr hc' q hq
    rw [hagree s' (le_of_lt hr) q hq]
    exact hb s' hr hc' q hq

/-- C3: `DetectRemoteTools` emits at most one signal per rule, in catalog order; the
signal of a rule is that of the first strategy, in the order command line, window
class, window title, TCP threshold, UDP threshold, that is configured and succeeds
on some candidate, on the first candidate on which it succeeds; that match depends
only on the outcomes of the strategies up to it, not on those of later ones. -/
theorem one_signal_by_first_strategy (tools : List RemoteTool) (u : Unicode)
    (d : WindowsDetector) (os : OS) :
    ((detectRemoteToolsIn tools u d os).1 =
      tools.filterMap fun tool => detectTool u os tool (candidates u os tool)) ∧
    (detectRemoteToolsIn tools u d os).1.length ≤ tools.length ∧
    (∀ (tool : RemoteTool) (procs : List Process),
      detectTool u os tool procs =
        match procs, firstMatch u os tool procs with
        | [], _ => none
        | _ :: _, some (s, p) =>
          some (toolSignal os tool
            { remoteProcess := p, detectionMethod := s.describe os tool p })
        | first :: _, none =>
          if (tool.ProcessName != "" && noStrategy tool) = true then
            some (toolSignal os tool { remoteProcess := first, detectionMethod := "进程存在" })
          else none) ∧
    (∀ (tool : RemoteTool) (procs : List Process) (s : Strategy) (p : Process),
      firstMatch u os tool procs = some (s, p) ↔
        s.configured tool = true ∧
        (procs.find? fun q => s.succeedsOn u os tool q) = some p ∧
        ∀ s' : Strategy, s'.rank < s.rank → s'.configured tool = true →
          ∀ q ∈ procs, s'.succeedsOn u os tool q = false) ∧
    (∀ (os' : OS) (tool : RemoteTool) (procs : List Process) (s : Strategy) (p : Process),
      firstMatch u os tool procs = some (s, p) →
      (∀ s' : Strategy, s'.rank ≤ s.rank → ∀ q ∈ procs,
        s'.succeedsOn u os' tool q = s'.succeedsOn u os tool q) →
      firstMatch u os' tool procs = some (s, p)) := by
  refine ⟨detectRemoteToolsIn_eq tools u d os, ?_, detectTool_eq u os,
    firstMatch_eq_some_iff u os, fun os' tool procs s p => firstMatch_congr u os os' tool procs s p⟩
  rw [detectRemoteToolsIn_eq]
  exact List.length_filterMap_le _ _

/-- C3 witness: ToDesk matched by its command line stays matched when the process
gets a window and connections. -/
theorem one_signal_by_first_strategy_witness :
    firstMatch Unicode.ascii todeskOS todeskTool [{ Pid := 1234 }] =
      some (Strategy.commandLine, { Pid := 1234 }) ∧
    (∀ s' : Strategy, s'.rank ≤ Strategy.commandLine.rank → ∀ q ∈ [({ Pid := 1234 } : Process)],
      s'.succeedsOn Unicode.ascii todeskBusyOS todeskTool q =
        s'.succeedsOn Unicode.ascii todeskOS todeskTool q) ∧
    firstMatch Unicode.ascii todeskBusyOS todeskTool [{ Pid := 1234 }] =
      some (Strategy.commandLine, { Pid := 1234 }) :=
  have agree : ∀ s' : Strategy, s'.rank ≤ Strategy.commandLine.rank →
      ∀ q ∈ [({ Pid := 1234 } : Process)],
        s'.succeedsOn Unicode.ascii todeskBusyOS todeskTool q =
          s'.succeedsOn Unicode.ascii todeskOS todeskTool q := by
    intro s' hr q hq
    rw [List.mem_singleton] at hq
    subst hq
    cases s' <;> first | rfl | exact absurd hr (by decide)
  ⟨by decide, agree,
    (one_signal_by_first_strategy remoteTools Unicode.ascii NewWindowsDetector todeskOS).2.2.2.2
      todeskBusyOS todeskTool [{ Pid := 1234 }] Strategy.commandLine { Pid := 1234 }
      (by decide) agree⟩

/-! ## Properties of the command-line strategy -/

theorem indexRunes_isSome_iff (s sub : List Char) :
    (strings.indexRunes s sub).isSome = true ↔ sub <:+: s := by
  induction s with
  | nil =>
    by_cases h : sub = []
    · simp [strings.indexRunes, h]
    · simp [strings.indexRunes, h]
  | cons c cs ih =>
    unfold strings.indexRunes
    by_cases hp : sub.isPrefixOf (c :: cs) = true
    · simp only [hp, if_true, Option.isSome_some, true_iff]
      exact (List.isPrefixOf_iff_prefix.mp hp).isInfix
    · simp only [hp, Bool.false_eq_true, if_false, Option.isSome_map']
      rw [ih, List.infix_cons_iff]
      constructor
      · exact fun h => Or.inr h
      · rintro (h | h)
        · exact absurd (List.isPrefixOf_iff_prefix.mpr h) hp
        · exact h

theorem indexRunes_of_first (sub : List Char) :
    ∀ (pre rest : List Char),
      (∀ pre' rest' : List Char, pre ++ sub ++ rest = pre' ++ sub ++ rest' →
        pre.length ≤ pre'.length) →
      strings.indexRunes (pre ++ sub ++ rest) sub = some pre.length := by
  intro pre
  induction pre with
  | nil =>
    intro rest _
    cases hs : ([] ++ sub ++ rest) with
    | nil =>
      have : sub = [] := by
        simp only [List.nil_append, List.append_eq_nil] at hs
        exact hs.1
      simp [strings.indexRunes, this]
    | cons c cs =>
      have hp : sub.isPrefixOf (c :: cs) = true := by
        rw [List.isPrefixOf_iff_prefix, ← hs]
        exact ⟨rest, by simp⟩
      simp [strings.indexRunes, hp]
  | cons a pre' ih =>
    intro rest hmin
    have hnp : ¬ sub.isPrefixOf (a :: (pre' ++ sub ++ rest)) = true := by
      intro hp
      obtain ⟨t, ht⟩ := List.isPrefixOf_iff_prefix.mp hp
      have := hmin [] t (by simp [ht])
      simp at this
    have hrec := ih rest (by
      intro p' r' he
      have := hmin (a :: p') r' (by simp [← he])
      simpa using this)
    show strings.indexRunes (a :: (pre' ++ sub ++ rest)) sub = some (pre'.length + 1)
    unfold strings.indexRunes
    simp only [hnp, Bool.false_eq_true, if_false, hrec, Option.map_some']

theorem indexRunes_le_of_split (sub : List Char) :
    ∀ (s : List Char) (m : Nat), strings.indexRunes s sub = some m →
      ∀ pre' rest' : List Char, s = pre' ++ sub ++ rest' → m ≤ pre'.length := by
  intro s
  induction s with
  | nil =>
    intro m hm pre' rest' _
    unfold strings.indexRunes at hm
    split_ifs at hm
    simp only [Option.some.injEq] at hm
    omega
  | cons c cs ih =>
    intro m hm pre' rest' hs
    unfold strings.indexRunes at hm
    by_cases hp : sub.isPrefixOf (c :: cs) = true
    · simp only [hp, if_true, Option.some.injEq] at hm
      omega
    · simp only [hp, Bool.false_eq_true, if_false, Option.map_eq_some'] at hm
      obtain ⟨m', hm', rfl⟩ := hm
      cases pre' with
      | nil =>
        exfalso
        apply hp
        rw [List.isPrefixOf_iff_prefix, hs]
        exact ⟨rest', by simp⟩
      | cons a p'' =>
        simp only [List.cons_append, List.cons.injEq] at hs
        have := ih m' hm' p'' rest' hs.2
        simp only [List.length_cons]
        omega

theorem allArgsFound_iff (u : Unicode) (cmdlineLower : String) (args : List String) :
    allArgsFound u cmdlineLower args = true ↔
      ∀ arg ∈ args, (strings.ToLower u arg).data <:+: cmdlineLower.data := by
  induction args with
  | nil => simp [allArgsFound]
  | cons arg rest ih =>
    unfold allArgsFound
    by_cases h : strings.Contains cmdlineLower (strings.ToLower u arg) = true
    · have h' := (indexRunes_isSome_iff _ _).mp h
      simp [h, ih, h']
    · have h' : ¬ (strings.ToLower u arg).data <:+: cmdlineLower.data :=
        fun hh => h ((indexRunes_isSome_iff _ _).mpr hh)
      simp [h, h']

theorem String_data_ne_nil (s : String) (h : s ≠ "") : s.data ≠ [] := by
  intro hd
  apply h
  cases s
  simp_all

theorem cmdlineRemainder_of_absent (u : Unicode) (tool : RemoteTool) (c : String)
    (h : tool.ProcessName = "" ∨
      ¬ (strings.ToLower u tool.ProcessName).data <:+: (strings.ToLower u c).data) :
    cmdlineRemainder u tool c = strings.ToLower u c := by
  unfold cmdlineRemainder
  rcases h with h | h
  · simp [h]
  · have hc : strings.Contains (strings.ToLower u c) (strings.ToLower u tool.ProcessName) =
        false := by
      cases hh : strings.Contains (strings.ToLower u c) (strings.ToLower u tool.ProcessName)
      · rfl
      · exact absurd ((indexRunes_isSome_iff _ _).mp hh) h
    simp [hc]

theorem cmdlineRemainder_of_first (u : Unicode) (tool : RemoteTool) (c : String)
    (pre rest : List Char) (hname : tool.ProcessName ≠ "")
    (hsplit : (strings.ToLower u c).data =
      pre ++ (strings.ToLower u tool.ProcessName).data ++ rest)
    (hmin : ∀ pre' rest' : List Char,
      (strings.ToLower u c).data =
          pre' ++ (strings.ToLower u tool.ProcessName).data ++ rest' →
        pre.length ≤ pre'.length) :
    cmdlineRemainder u tool c =
      strings.TrimSpace (strings.Trim (strings.TrimSpace ⟨rest⟩) "\"") := by
  have hsep : (strings.ToLower u tool.ProcessName).data ≠ [] := by
    have := String_data_ne_nil _ hname
    simpa [strings.ToLower, strings.lowerRunes] using this
  have hidx : strings.indexRunes (strings.ToLower u c).data
      (strings.ToLower u tool.ProcessName).data = some pre.length := by
    rw [hsplit]
    apply indexRunes_of_first
    intro p' r' he
    exact hmin p' r' (by rw [hsplit, he])
  have hcontains : strings.Contains (strings.ToLower u c)
      (strings.ToLower u tool.ProcessName) = true := by
    simp [strings.Contains, hidx]
  have hparts : strings.SplitN (strings.ToLower u c) (strings.ToLower u tool.ProcessName) 2 =
      [⟨pre⟩, ⟨rest⟩] := by
    simp only [strings.SplitN, strings.splitNRunes, hsep, if_false, strings.genSplit, hidx]
    simp [hsplit]
  unfold cmdlineRemainder
  simp [hname, hcontains, hparts]

theorem ToLower_ascii (u : Unicode) (h : u.LowersASCII) (s : String)
    (hs : isASCII s = true) : strings.ToLower u s = strings.ToLower Unicode.ascii s := by
  unfold strings.ToLower strings.lowerRunes
  congr 1
  apply List.map_congr_left
  intro c hc
  have := List.all_eq_true.mp hs c hc
  exact h c (by simpa using this)

theorem cmdlineRemainder_ascii (u : Unicode) (h : u.LowersASCII) (tool : RemoteTool)
    (c : String) (hn : isASCII tool.ProcessName = true) (hc : isASCII c = true) :
    cmdlineRemainder u tool c = cmdlineRemainder Unicode.ascii tool c := by
  unfold cmdlineRemainder
  rw [ToLower_ascii u h c hc, ToLower_ascii u h tool.ProcessName hn]

theorem allArgsFound_ascii (u : Unicode) (h : u.LowersASCII) (x : String)
    (args : List String) (ha : args.all isASCII = true) :
    allArgsFound u x args = allArgsFound Unicode.ascii x args := by
  induction args with
  | nil => rfl
  | cons arg rest ih =>
    simp only [List.all_cons, Bool.and_eq_true] at ha
    unfold allArgsFound
    rw [ToLower_ascii u h arg ha.1, ih ha.2]

theorem commandLineLoop_ascii (u : Unicode) (h : u.LowersASCII) (tool : RemoteTool)
    (c : String) (procs : List Process) (hn : isASCII tool.ProcessName = true)
    (hc : isASCII c = true) (ha : tool.CommandLineArgs.all isASCII = true) :
    commandLineLoop u (cmdlineOS c) tool procs =
      commandLineLoop Unicode.ascii (cmdlineOS c) tool procs := by
  induction procs with
  | nil => rfl
  | cons p rest ih =>
    simp only [commandLineLoop, cmdlineOS]
    rw [cmdlineRemainder_ascii u h tool c hn hc, allArgsFound_ascii u h _ _ ha]
    simp only [cmdlineOS] at ih
    rw [ih]

/-- C4: the command-line strategy matches a candidate whose command line `c` was
read exactly when every configured argument, lower-cased, occurs in the remainder;
the remainder is the lower-cased `c` when the rule has no process name or the
lower-cased name does not occur in it, and otherwise the text after the first
occurrence of the lower-cased name, trimmed of surrounding white space, then of
surrounding double quotes, then of white space again.  The ToDesk command line
matches the ToDesk rule, and no longer does once either argument is removed. -/
theorem command_line_strategy (u : Unicode) (os : OS) (tool : RemoteTool) (p : Process)
    (c : String) :
    (os.cmdline p.Pid = some c →
      ((commandLineLoop u os tool [p]).isSome = true ↔
        ∀ arg ∈ tool.CommandLineArgs,
          (strings.ToLower u arg).data <:+: (cmdlineRemainder u tool c).data)) ∧
    (tool.ProcessName = "" ∨
        ¬ (strings.ToLower u tool.ProcessName).data <:+: (strings.ToLower u c).data →
      cmdlineRemainder u tool c = strings.ToLower u c) ∧
    (∀ pre rest : List Char, tool.ProcessName ≠ "" →
      (strings.ToLower u c).data =
        pre ++ (strings.ToLower u tool.ProcessName).data ++ rest →
      (∀ pre' rest' : List Char,
        (strings.ToLower u c).data =
            pre' ++ (strings.ToLower u tool.ProcessName).data ++ rest' →
          pre.length ≤ pre'.length) →
      cmdlineRemainder u tool c =
        strings.TrimSpace (strings.Trim (strings.TrimSpace ⟨rest⟩) "\"")) ∧
    (u.LowersASCII →
      commandLineLoop u (cmdlineOS todeskCmdline) todeskTool [{ Pid := 1234 }] =
          some { remoteProcess := { Pid := 1234 }, detectionMethod := "命令行参数" } ∧
        commandLineLoop u (cmdlineOS todeskCmdlineNoPort) todeskTool [{ Pid := 1234 }] = none ∧
        commandLineLoop u (cmdlineOS todeskCmdlineNoVideo) todeskTool [{ Pid := 1234 }] =
          none) := by
  refine ⟨?_, cmdlineRemainder_of_absent u tool c,
    fun pre rest => cmdlineRemainder_of_first u tool c pre rest, ?_⟩
  · intro hc
    simp only [commandLineLoop, hc]
    rw [← allArgsFound_iff]
    cases allArgsFound u (cmdlineRemainder u tool c) tool.CommandLineArgs <;> simp
  · intro h
    rw [commandLineLoop_ascii u h _ _ _ (by decide) (by decide) (by decide),
      commandLineLoop_ascii u h _ _ _ (by decide) (by decide) (by decide),
      commandLineLoop_ascii u h _ _ _ (by decide) (by decide) (by decide)]
    exact ⟨by decide, by decide, by decide⟩

/-- C4 witness: the ToDesk rule on the ToDesk command line, with the ASCII tables;
the remainder is the text after `todesk.exe`; a rule without process name keeps the
whole command line. -/
theorem command_line_strategy_witness :
    todeskOS.cmdline 1234 = some todeskCmdline ∧ Unicode.ascii.LowersASCII ∧
    ((commandLineLoop Unicode.ascii todeskOS todeskTool [{ Pid := 1234 }]).isSome = true ↔
      ∀ arg ∈ todeskTool.CommandLineArgs,
        (strings.ToLower Unicode.ascii arg).data <:+:
          (cmdlineRemainder Unicode.ascii todeskTool todeskCmdline).data) ∧
    cmdlineRemainder Unicode.ascii anonymousTool todeskCmdline =
      strings.ToLower Unicode.ascii todeskCmdline ∧
    cmdlineRemainder Unicode.ascii todeskTool todeskCmdline =
      strings.TrimSpace (strings.Trim
        (strings.TrimSpace ⟨" --localport=35600 --isvideosession=true".data⟩) "\"") ∧
    (commandLineLoop Unicode.ascii (cmdlineOS todeskCmdline) todeskTool [{ Pid := 1234 }] =
        some { remoteProcess := { Pid := 1234 }, detectionMethod := "命令行参数" } ∧
      commandLineLoop Unicode.ascii (cmdlineOS todeskCmdlineNoPort) todeskTool
          [{ Pid := 1234 }] = none ∧
      commandLineLoop Unicode.ascii (cmdlineOS todeskCmdlineNoVideo) todeskTool
          [{ Pid := 1234 }] = none) :=
  ⟨rfl, fun _ _ => rfl,
    (command_line_strategy Unicode.ascii todeskOS todeskTool { Pid := 1234 }
      todeskCmdline).1 rfl,
    (command_line_strategy Unicode.ascii todeskOS anonymousTool { Pid := 1234 }
      todeskCmdline).2.1 (Or.inl rfl),
    (command_line_strategy Unicode.ascii todeskOS todeskTool { Pid := 1234 }
      todeskCmdline).2.2.1 "c:\\program files\\todesk\\".data
      " --localport=35600 --isvideosession=true".data (by decide) (by decide)
      (fun pre' rest' h =>
        indexRunes_le_of_split (strings.ToLower Unicode.ascii todeskTool.ProcessName).data
          (strings.ToLower Unicode.ascii todeskCmdline).data 24 (by decide) pre' rest' h),
    (command_line_strategy Unicode.ascii todeskOS todeskTool { Pid := 1234 }
      todeskCmdline).2.2.2 fun _ _ => rfl⟩

/-! ## Properties of the connection-threshold strategies -/

theorem tcpCountLoop_eq (establishedOnly : Bool) (conns : List ConnectionStat) (count : Int) :
    tcpCountLoop establishedOnly conns count =
      count + ((conns.filter fun c =>
        decide (c.Typ = SOCK_STREAM ∧
          (establishedOnly = true → c.Status = "ESTABLISHED"))).length : Int) := by
  induction conns generalizing count with
  | nil => simp [tcpCountLoop]
  | cons conn rest ih =>
    unfold tcpCountLoop
    by_cases ht : conn.Typ = SOCK_STREAM
    · cases establishedOnly with
      | true =>
        by_cases hs : conn.Status = "ESTABLISHED"
        · simp [ht, hs, ih, List.filter_cons]
          omega
        · simp [ht, hs, ih, List.filter_cons]
      | false =>
        simp [ht, ih, List.filter_cons]
        omega
    · simp [ht, ih, List.filter_cons]

theorem udpCountLoop_eq (conns : List ConnectionStat) (count : Int) :
    udpCountLoop conns count =
      count + ((conns.filter fun c => decide (c.Typ = SOCK_DGRAM)).length : Int) := by
  induction conns generalizing count with
  | nil => simp [udpCountLoop]
  | cons conn rest ih =>
    unfold udpCountLoop
    by_cases ht : conn.Typ = SOCK_DGRAM
    · simp [ht, ih, List.filter_cons]
      omega
    · simp [ht, ih, List.filter_cons]

theorem getTCPConnectionCount_eq (os : OS) (pid : Int) (establishedOnly : Bool)
    (conns : List ConnectionStat) (hp : os.newProcess pid = true)
    (hc : os.connections pid = some conns) :
    getTCPConnectionCount os pid establishedOnly =
      (((conns.filter fun c =>
        decide (c.Typ = SOCK_STREAM ∧
          (establishedOnly = true → c.Status = "ESTABLISHED"))).length : Int), true) := by
  simp [getTCPConnectionCount, hp, hc, tcpCountLoop_eq]

theorem getTCPConnectionCount_err (os : OS) (pid : Int) (establishedOnly : Bool) :
    (getTCPConnectionCount os pid establishedOnly).2 = false →
      (getTCPConnectionCount os pid establishedOnly).1 = 0 := by
  unfold getTCPConnectionCount
  cases os.newProcess pid <;> cases os.connections pid <;> simp

theorem tcpLoop_single (os : OS) (tool : RemoteTool) (p : Process)
    (hthr : tool.TCPConnThreshold > 0) :
    (tcpLoop os tool [p]).isSome = true ↔
      (getTCPConnectionCount os p.Pid tool.UseEstablishedOnly).1 ≥ tool.TCPConnThreshold := by
  have herr := getTCPConnectionCount_err os p.Pid tool.UseEstablishedOnly
  simp only [tcpLoop]
  cases hok : (getTCPConnectionCount os p.Pid tool.UseEstablishedOnly).2 with
  | true =>
    by_cases hge : (getTCPConnectionCount os p.Pid tool.UseEstablishedOnly).1 ≥
        tool.TCPConnThreshold
    · simp [hge]
    · simp [hge]
  | false =>
    have h0 := herr hok
    have : ¬ (getTCPConnectionCount os p.Pid tool.UseEstablishedOnly).1 ≥
        tool.TCPConnThreshold := by omega
    simp [this]

theorem getUDPConnectionCount_eq (os : OS) (pid : Int) (conns : List ConnectionStat)
    (hp : os.newProcess pid = true) (hc : os.connections pid = some conns) :
    getUDPConnectionCount os pid =
      (((conns.filter fun c => decide (c.Typ = SOCK_DGRAM)).length : Int), true) := by
  simp [getUDPConnectionCount, hp, hc, udpCountLoop_eq]

theorem getUDPConnectionCount_err (os : OS) (pid : Int) :
    (getUDPConnectionCount os pid).2 = false → (getUDPConnectionCount os pid).1 = 0 := by
  unfold getUDPConnectionCount
  cases os.newProcess pid <;> cases os.connections pid <;> simp

theorem udpLoop_single (os : OS) (tool : RemoteTool) (p : Process)
    (hthr : tool.UDPConnThreshold > 0) :
    (udpLoop os tool [p]).isSome = true ↔
      (getUDPConnectionCount os p.Pid).1 > tool.UDPConnThreshold := by
  have herr := getUDPConnectionCount_err os p.Pid
  simp only [udpLoop]
  cases hok : (getUDPConnectionCount os p.Pid).2 with
  | true =>
    by_cases hge : (getUDPConnectionCount os p.Pid).1 > tool.UDPConnThreshold
    · simp [hge]
    · simp [hge]
  | false =>
    have h0 := herr hok
    have : ¬ (getUDPConnectionCount os p.Pid).1 > tool.UDPConnThreshold := by omega
    simp [this]

/-- C5: `getTCPConnectionCount` returns the number of the stream connections of the
process, only the established ones when `establishedOnly` is set, and for a positive
threshold the TCP strategy succeeds on a candidate exactly when that count reaches
the threshold; with established connections only and threshold 5, four established
connections do not match whatever the other connections are, and five match. -/
theorem tcp_threshold_strategy (os : OS) (tool : RemoteTool) (p : Process)
    (conns : List ConnectionStat) :
    (os.newProcess p.Pid = true → os.connections p.Pid = some conns →
      getTCPConnectionCount os p.Pid tool.UseEstablishedOnly =
        (((conns.filter fun c =>
          decide (c.Typ = SOCK_STREAM ∧
            (tool.UseEstablishedOnly = true → c.Status = "ESTABLISHED"))).length : Int),
          true)) ∧
    (tool.TCPConnThreshold > 0 →
      ((tcpLoop os tool [p]).isSome = true ↔
        (getTCPConnectionCount os p.Pid tool.UseEstablishedOnly).1 ≥
          tool.TCPConnThreshold)) ∧
    (tool.UseEstablishedOnly = true → tool.TCPConnThreshold = 5 →
      os.newProcess p.Pid = true → os.connections p.Pid = some conns →
      ((conns.filter fun c =>
          decide (c.Typ = SOCK_STREAM ∧ c.Status = "ESTABLISHED")).length = 4 →
        tcpLoop os tool [p] = none) ∧
      ((conns.filter fun c =>
          decide (c.Typ = SOCK_STREAM ∧ c.Status = "ESTABLISHED")).length = 5 →
        (tcpLoop os tool [p]).isSome = true)) := by
  refine ⟨getTCPConnectionCount_eq os p.Pid _ conns, tcpLoop_single os tool p, ?_⟩
  intro he ht hp hc
  have hcount := getTCPConnectionCount_eq os p.Pid tool.UseEstablishedOnly conns hp hc
  have hiff := tcpLoop_single os tool p (by omega)
  rw [hcount, ht] at hiff
  simp only [he, true_implies] at hiff
  constructor
  · intro h4
    rw [h4] at hiff
    cases hl : tcpLoop os tool [p] with
    | none => rfl
    | some det =>
      rw [hl] at hiff
      exact absurd (hiff.mp rfl) (by decide)
  · intro h5
    rw [h5] at hiff
    exact hiff.mpr (by decide)

/-- C5 witness: the rule with threshold 5 on four established and two listening
connections, and on five established connections. -/
theorem tcp_threshold_strategy_witness :
    getTCPConnectionCount (connectionsOS fourEstablished) 7 true = (4, true) ∧
    ((tcpLoop (connectionsOS fourEstablished) gameViewerTool [{ Pid := 7 }]).isSome = true ↔
      (getTCPConnectionCount (connectionsOS fourEstablished) 7
        gameViewerTool.UseEstablishedOnly).1 ≥ gameViewerTool.TCPConnThreshold) ∧
    tcpLoop (connectionsOS fourEstablished) gameViewerTool [{ Pid := 7 }] = none ∧
    (tcpLoop (connectionsOS fiveEstablished) gameViewerTool [{ Pid := 7 }]).isSome = true :=
  ⟨(tcp_threshold_strategy (connectionsOS fourEstablished) gameViewerTool { Pid := 7 }
      fourEstablished).1 rfl rfl,
    (tcp_threshold_strategy (connectionsOS fourEstablished) gameViewerTool { Pid := 7 }
      fourEstablished).2.1 (by decide),
    ((tcp_threshold_strategy (connectionsOS fourEstablished) gameViewerTool { Pid := 7 }
      fourEstablished).2.2 rfl rfl rfl rfl).1 (by decide),
    ((tcp_threshold_strategy (connectionsOS fiveEstablished) gameViewerTool { Pid := 7 }
      fiveEstablished).2.2 rfl rfl rfl rfl).2 (by decide)⟩

/-- C6: `getUDPConnectionCount` returns the number of the datagram connections of
the process, and for a positive threshold the UDP strategy succeeds on a candidate
exactly when that count is strictly greater than the threshold; a count equal to
the threshold does not match. -/
theorem udp_threshold_strategy (os : OS) (tool : RemoteTool) (p : Process)
    (conns : List ConnectionStat) :
    (os.newProcess p.Pid = true → os.connections p.Pid = some conns →
      getUDPConnectionCount os p.Pid =
        (((conns.filter fun c => decide (c.Typ = SOCK_DGRAM)).length : Int), true)) ∧
    (tool.UDPConnThreshold > 0 →
      ((udpLoop os tool [p]).isSome = true ↔
        (getUDPConnectionCount os p.Pid).1 > tool.UDPConnThreshold)) ∧
    (tool.UDPConnThreshold > 0 →
      (getUDPConnectionCount os p.Pid).1 = tool.UDPConnThreshold →
      udpLoop os tool [p] = none) := by
  refine ⟨getUDPConnectionCount_eq os p.Pid conns, udpLoop_single os tool p, ?_⟩
  intro hthr heq
  have hiff := udpLoop_single os tool p hthr
  cases hl : udpLoop os tool [p] with
  | none => rfl
  | some det =>
    rw [hl] at hiff
    have := hiff.mp rfl
    omega

/-- C6 witness: the rule with threshold 1 on one datagram connection, and on two. -/
theorem udp_threshold_strategy_witness :
    getUDPConnectionCount (connectionsOS twoDatagrams) 7 = (2, true) ∧
    ((udpLoop (connectionsOS twoDatagrams) askLinkTool [{ Pid := 7 }]).isSome = true ↔
      (getUDPConnectionCount (connectionsOS twoDatagrams) 7).1 >
        askLinkTool.UDPConnThreshold) ∧
    udpLoop (connectionsOS oneDatagram) askLinkTool [{ Pid := 7 }] = none :=
  ⟨(udp_threshold_strategy (connectionsOS twoDatagrams) askLinkTool { Pid := 7 }
      twoDatagrams).1 rfl rfl,
    (udp_threshold_strategy (connectionsOS twoDatagrams) askLinkTool { Pid := 7 }
      twoDatagrams).2.1 (by decide),
    (udp_threshold_strategy (connectionsOS oneDatagram) askLinkTool { Pid := 7 }
      oneDatagram).2.2 (by decide) (by decide)⟩

/-! ## Properties of the emitted signals -/

theorem firstMatch_of_noStrategy (u : Unicode) (os : OS) (tool : RemoteTool)
    (procs : List Process) (h : noStrategy tool = true) :
    firstMatch u os tool procs = none := by
  simp only [noStrategy, Bool.and_eq_true, beq_iff_eq, List.length_eq_zero] at h
  obtain ⟨⟨⟨⟨h1, h2⟩, h3⟩, h4⟩, h5⟩ := h
  simp [firstMatch, Strategy.order, List.findSome?, Strategy.configured, h1, h2, h3, h4, h5]

theorem mem_detectRemoteToolsIn (tools : List RemoteTool) (u : Unicode) (d : WindowsDetector)
    (os : OS) (s : Signal) :
    s ∈ (detectRemoteToolsIn tools u d os).1 ↔
      ∃ tool ∈ tools, detectTool u os tool (candidates u os tool) = some s := by
  rw [detectRemoteToolsIn_eq, List.mem_filterMap]

theorem existence_fallback_of_name (tools : List RemoteTool) (u : Unicode)
    (d : WindowsDetector) (os : OS) (tool : RemoteTool) (hmem : tool ∈ tools)
    (hname : tool.ProcessName ≠ "") (hno : noStrategy tool = true)
    (hcand : candidates u os tool ≠ []) :
    ∃ (first : Process) (rest : List Process), candidates u os tool = first :: rest ∧
      toolSignal os tool { remoteProcess := first, detectionMethod := "进程存在" } ∈
        (detectRemoteToolsIn tools u d os).1 := by
  cases hc : candidates u os tool with
  | nil => exact absurd hc hcand
  | cons first rest =>
    refine ⟨first, rest, rfl, ?_⟩
    rw [mem_detectRemoteToolsIn]
    refine ⟨tool, hmem, ?_⟩
    rw [detectTool_eq, hc, firstMatch_of_noStrategy u os tool _ hno]
    simp [hname, hno]

theorem remoteTools_named : ∀ tool ∈ remoteTools, tool.ProcessName ≠ "" := by
  decide

/-- A rule without process name that configures no strategy, which the catalog does not
hold, has every process as candidate and yet yields no signal: the fallback is guarded
by the process name. -/
theorem no_fallback_without_process_name :
    noStrategy anonymousTool = true ∧
    candidates Unicode.ascii sunloginOS anonymousTool = [{ Pid := 4 }, { Pid := 4321 }] ∧
    (detectRemoteToolsIn [anonymousTool] Unicode.ascii NewWindowsDetector sunloginOS).1 = [] := by
  decide

/-- C7: for every rule of the catalog that configures none of the strategies (no
command-line arguments, no window class, no window title, both thresholds 0) and for
which at least one candidate is resolved, `DetectRemoteTools` emits a signal for that
rule: the existence signal built on its first candidate. -/
theorem existence_fallback (u : Unicode) (d : WindowsDetector) (os : OS)
    (tool : RemoteTool) (hmem : tool ∈ remoteTools) (hno : noStrategy tool = true)
    (hcand : candidates u os tool ≠ []) :
    ∃ (first : Process) (rest : List Process), candidates u os tool = first :: rest ∧
      toolSignal os tool { remoteProcess := first, detectionMethod := "进程存在" } ∈
        (DetectRemoteTools u d os).1 :=
  existence_fallback_of_name remoteTools u d os tool hmem (remoteTools_named tool hmem) hno
    hcand

theorem existence_fallback_witness :
    sunloginTool ∈ remoteTools ∧ noStrategy sunloginTool = true ∧
    candidates Unicode.ascii sunloginOS sunloginTool ≠ [] ∧
    ∃ (first : Process) (rest : List Process),
      candidates Unicode.ascii sunloginOS sunloginTool = first :: rest ∧
      toolSignal sunloginOS sunloginTool
          { remoteProcess := first, detectionMethod := "进程存在" } ∈
        (DetectRemoteTools Unicode.ascii NewWindowsDetector sunloginOS).1 :=
  ⟨by decide, by decide, by decide,
    existence_fallback Unicode.ascii NewWindowsDetector sunloginOS sunloginTool
      (by decide) (by decide) (by decide)⟩

theorem String_append_ne_empty (a b : String) (h : a ≠ "") : a ++ b ≠ "" := by
  intro he
  have hd : (a ++ b).data = [] := by rw [he]
  rw [String.data_append, List.append_eq_nil] at hd
  exact String_data_ne_nil a h hd.1

theorem describe_ne_empty (os : OS) (tool : RemoteTool) (p : Process) (s : Strategy) :
    s.describe os tool p ≠ "" := by
  cases s
  · simp only [Strategy.describe]; decide
  · simp only [Strategy.describe]; decide
  · exact String_append_ne_empty _ _ (by decide)
  · exact String_append_ne_empty _ _ (by decide)
  · exact String_append_ne_empty _ _ (by decide)

theorem toolSignal_fields (os : OS) (tool : RemoteTool) (det : Detection)
    (h : det.detectionMethod ≠ "") :
    (toolSignal os tool det).Typ = "remote_tool" ∧
    (toolSignal os tool det).Confidence = 1 ∧
    (toolSignal os tool det).Name = tool.ToolName ++ (" (" ++ det.detectionMethod ++ ")") ∧
    (toolSignal os tool det).Source =
      "进程:" ++ tool.ProcessName ++ " PID:" ++ fmtInt det.remoteProcess.Pid := by
  simp [toolSignal, h]

/-- C8: every signal of `DetectRemoteTools` has type `remote_tool` and confidence 1;
its name is the display name of its rule followed by the description of the matched
strategy between parentheses, the description of the first matching strategy or of
the existence fallback; its source names the process name of the rule and the pid of
the candidate that matched. -/
theorem signal_shape (tools : List RemoteTool) (u : Unicode) (d : WindowsDetector) (os : OS)
    (s : Signal) (hs : s ∈ (detectRemoteToolsIn tools u d os).1) :
    s.Typ = "remote_tool" ∧ s.Confidence = 1 ∧
    ∃ tool ∈ tools, ∃ p ∈ candidates u os tool, ∃ method : String,
      ((∃ st : Strategy, firstMatch u os tool (candidates u os tool) = some (st, p) ∧
          method = st.describe os tool p) ∨
        (firstMatch u os tool (candidates u os tool) = none ∧
          (candidates u os tool).head? = some p ∧ method = "进程存在")) ∧
      s.Name = tool.ToolName ++ (" (" ++ method ++ ")") ∧
      s.Source = "进程:" ++ tool.ProcessName ++ " PID:" ++ fmtInt p.Pid := by
  rw [mem_detectRemoteToolsIn] at hs
  obtain ⟨tool, hmem, hdet⟩ := hs
  rw [detectTool_eq] at hdet
  cases hc : candidates u os tool with
  | nil => simp [hc] at hdet
  | cons first rest =>
    rw [hc] at hdet
    cases hf : firstMatch u os tool (first :: rest) with
    | some sp =>
      obtain ⟨st, p⟩ := sp
      rw [hf] at hdet
      simp only [Option.some.injEq] at hdet
      have hfields := toolSignal_fields os tool
        { remoteProcess := p, detectionMethod := st.describe os tool p }
        (describe_ne_empty os tool p st)
      rw [hdet] at hfields
      have hp : p ∈ first :: rest :=
        List.mem_of_find?_eq_some ((firstMatch_eq_some_iff u os tool _ st p).mp hf).2.1
      exact ⟨hfields.1, hfields.2.1, tool, hmem, p, by rw [hc]; exact hp, _,
        Or.inl ⟨st, by rw [hc]; exact hf, rfl⟩, hfields.2.2.1, hfields.2.2.2⟩
    | none =>
      rw [hf] at hdet
      by_cases hcond : (tool.ProcessName != "" && noStrategy tool) = true
      · simp only [hcond, if_true, Option.some.injEq] at hdet
        have hfields := toolSignal_fields os tool
          { remoteProcess := first, detectionMethod := "进程存在" }
          (by simp only; decide)
        rw [hdet] at hfields
        exact ⟨hfields.1, hfields.2.1, tool, hmem, first,
          by rw [hc]; exact List.mem_cons_self _ _, _,
          Or.inr ⟨by rw [hc]; exact hf, by rw [hc]; rfl, rfl⟩, hfields.2.2.1, hfields.2.2.2⟩
      · simp [hcond] at hdet

/-- C8 witness: the signal of ToDesk detected by its command line. -/
theorem signal_shape_witness :
    toolSignal todeskOS todeskTool
        { remoteProcess := { Pid := 1234 }, detectionMethod := "命令行参数" } ∈
      (detectRemoteToolsIn remoteTools Unicode.ascii NewWindowsDetector todeskOS).1 ∧
    (toolSignal todeskOS todeskTool
        { remoteProcess := { Pid := 1234 }, detectionMethod := "命令行参数" }).Typ =
      "remote_tool" ∧
    (toolSignal todeskOS todeskTool
        { remoteProcess := { Pid := 1234 }, detectionMethod := "命令行参数" }).Confidence = 1 :=
  ⟨by decide,
    (signal_shape remoteTools Unicode.ascii NewWindowsDetector todeskOS _ (by decide)).1,
    (signal_shape remoteTools Unicode.ascii NewWindowsDetector todeskOS _ (by decide)).2.1⟩

/-! ## Properties of the session recorder -/

theorem joinLoop_eq (sep : String) (rest : List String) (result : String) :
    joinLoop sep rest result = String.intercalate.go result sep rest := by
  induction rest generalizing result with
  | nil => rfl
  | cons x rest ih => simp only [joinLoop, String.intercalate.go, ih]

theorem formatSignals_eq (signals : List Signal) :
    formatSignals signals = ", ".intercalate (signals.map fun s => s.Name) := by
  unfold formatSignals
  cases signals with
  | nil => rfl
  | cons s rest =>
    simp only [List.map_cons, List.length_cons, joinStrings, joinLoop_eq, String.intercalate]
    rfl

/-- C13: at a transition from Inactive to Active exactly one session is handed to
the storage; its start time is the time of the transition recorded in `lastChange`,
it has no end time, and its summary is the names of the signals of the cycle, in
order, joined by a comma and a space; the summary of no signal is empty. -/
theorem session_request (d : Detector) (st : Storage) (env : Env)
    (remoteToolSignals sessionSignals portSignals : List Signal) :
    (d.lastState = false → remoteToolSignals ≠ [] →
      ∃ (session : RemoteSession) (rest : List Event),
        (detectFrom d st env remoteToolSignals sessionSignals portSignals).2.2 =
          Event.SaveSession session :: rest ∧
        (∀ s, Event.SaveSession s ∉ rest) ∧
        (detectFrom d st env remoteToolSignals sessionSignals portSignals).1.lastChange =
          env.now ∧
        session.StartTime = env.now ∧ session.EndTime = none ∧
        session.Signals =
          ", ".intercalate
            ((remoteToolSignals ++ sessionSignals ++ portSignals).map fun s => s.Name)) ∧
    formatSignals [] = "" := by
  refine ⟨?_, rfl⟩
  intro h hr
  rw [detectFrom_start _ _ _ _ _ _ h hr]
  obtain ⟨session, raws, hstart, hend, hsig, -, -, hev, -⟩ := handleRemoteStart_spec
    { d with signals := remoteToolSignals ++ sessionSignals ++ portSignals,
             lastChange := env.now, lastState := true }
    st env (remoteToolSignals ++ sessionSignals ++ portSignals)
  refine ⟨session, _, hev, ?_, rfl, hstart, hend, ?_⟩
  · intro s hmem
    cases hn : d.notifier <;> simp [hn] at hmem
  · rw [hsig, formatSignals_eq]

/-- C13 witness: a new detector and a cycle with two signals. -/
theorem session_request_witness :
    (NewDetector true 0).lastState = false ∧ [todeskSignal, todeskSignal] ≠ [] ∧
    ∃ (session : RemoteSession) (rest : List Event),
      (detectFrom (NewDetector true 0) {} quietEnv [todeskSignal, todeskSignal] [] []).2.2 =
        Event.SaveSession session :: rest ∧
      (∀ s, Event.SaveSession s ∉ rest) ∧
      (detectFrom (NewDetector true 0) {} quietEnv [todeskSignal, todeskSignal] []
        []).1.lastChange = quietEnv.now ∧
      session.StartTime = quietEnv.now ∧ session.EndTime = none ∧
      session.Signals =
        ", ".intercalate
          ((([todeskSignal, todeskSignal] ++ [] ++ []) : List Signal).map fun s => s.Name) :=
  ⟨rfl, by simp,
    (session_request (NewDetector true 0) {} quietEnv [todeskSignal, todeskSignal]
      [] []).1 rfl (by simp)⟩

theorem SaveRawSignal_row (st : Storage) (env : Env) (sessionID : String) (i : Nat)
    (s : Signal) (dbErr : Bool) :
    (SaveRawSignal st (env.uuid (i + 1)) env.storageNow dbErr
      (RawSignal.SetSessionID
        { Typ := s.Typ, Name := s.Name, Confidence := s.Confidence, RawData := s.Source,
          DetectedAt := s.DetectedAt } sessionID)).1 = rawSignalRow env sessionID i s := by
  unfold SaveRawSignal RawSignal.SetSessionID rawSignalRow
  by_cases h1 : sessionID = "" <;> by_cases h2 : s.DetectedAt = 0 <;>
    simp only [h1, h2, beq_self_eq_true, if_true] <;> split_ifs <;> simp_all

theorem rawSignalLoop_rows (env : Env) (sessionID : String) (signals : List Signal) :
    ∀ (i : Nat) (st : Storage) (events : List Event),
      (rawSignalLoop env sessionID signals i st events).2 =
        events ++ (signals.enumFrom i).map fun js =>
          Event.SaveRawSignal (rawSignalRow env sessionID js.1 js.2) := by
  induction signals with
  | nil => intro i st events; simp [rawSignalLoop]
  | cons s rest ih =>
    intro i st events
    simp only [rawSignalLoop]
    rw [ih, SaveRawSignal_row]
    simp [List.enumFrom]

theorem SaveSession_new (st : Storage) (d : Detector) (env : Env) (signals : List Signal) :
    SaveSession st (env.uuid 0) env.storageNow env.saveSessionErr
        { StartTime := d.lastChange, Signals := formatSignals signals,
          Confidence := avgConf signals } =
      (newSession d env signals,
        !(env.saveSessionErr || st.sessions.any fun r => r.ID == env.uuid 0),
        if (env.saveSessionErr || st.sessions.any fun r => r.ID == env.uuid 0) = true then st
        else { st with sessions := st.sessions ++ [newSession d env signals] }) := by
  unfold SaveSession newSession
  by_cases h2 : env.storageNow = 0
  · simp only [beq_self_eq_true, if_true, h2]
    split_ifs <;> simp_all
    intro ha
    simp_all
  · simp only [beq_self_eq_true, if_true]
    split_ifs <;> simp_all
    intro ha
    simp_all

theorem handleRemoteStart_rows (d : Detector) (st : Storage) (env : Env)
    (signals : List Signal) :
    (handleRemoteStart d st env signals).2 =
      Event.SaveSession (newSession d env signals) ::
        (((signals.enumFrom 0).map fun js =>
            Event.SaveRawSignal (rawSignalRow env (env.uuid 0) js.1 js.2)) ++
          if d.notifier = true then [Event.NotifyRemoteStart (signals.map fun s => s.Name)]
          else []) := by
  unfold handleRemoteStart
  simp only [SaveSession_new, rawSignalLoop_rows]
  split <;> simp [newSession]

theorem handleRemoteEnd_none (d : Detector) (st : Storage) (env : Env)
    (h : GetOpenSession st env.getOpenSessionErr = none) :
    handleRemoteEnd d st env =
      (st, Event.GetOpenSession ::
        if d.notifier = true then [Event.NotifyRemoteEnd []] else []) := by
  unfold handleRemoteEnd
  rw [h]
  cases d.notifier <;> rfl

theorem handleRemoteEnd_some (d : Detector) (st : Storage) (env : Env) (o : RemoteSession)
    (h : GetOpenSession st env.getOpenSessionErr = some o) :
    handleRemoteEnd d st env =
      ((UpdateSessionEnd st env.updateSessionEndErr o.ID env.endNow
          (Time.Sub env.endNow o.StartTime)).2,
        Event.GetOpenSession ::
          Event.UpdateSessionEnd o.ID env.endNow (Time.Sub env.endNow o.StartTime) ::
            if d.notifier = true then
              [Event.NotifyRemoteEnd (if o.Signals != "" then parseSignals o.Signals else [])]
            else []) := by
  unfold handleRemoteEnd
  rw [h]
  cases d.notifier <;> rfl

theorem UpdateSessionEnd_rawSignals (st : Storage) (dbErr : Bool) (sessionID : String)
    (endTime : Time) (duration : Duration) :
    (UpdateSessionEnd st dbErr sessionID endTime duration).2.rawSignals = st.rawSignals := by
  unfold UpdateSessionEnd
  cases dbErr <;> rfl

theorem handleRemoteEnd_rawSignals (d : Detector) (st : Storage) (env : Env) :
    (handleRemoteEnd d st env).1.rawSignals = st.rawSignals ∧
      savedRawSignals (handleRemoteEnd d st env).2 = [] := by
  cases h : GetOpenSession st env.getOpenSessionErr with
  | none =>
    rw [handleRemoteEnd_none d st env h]
    cases d.notifier <;> simp [savedRawSignals]
  | some o =>
    rw [handleRemoteEnd_some d st env o h]
    cases d.notifier <;> simp [savedRawSignals, UpdateSessionEnd_rawSignals]

theorem savedRawSignals_handleRemoteStart (d : Detector) (st : Storage) (env : Env)
    (signals : List Signal) :
    savedRawSignals (handleRemoteStart d st env signals).2 =
      (signals.enumFrom 0).map fun js => rawSignalRow env (env.uuid 0) js.1 js.2 := by
  have hmap : ∀ l : List (Nat × Signal),
      (l.filterMap fun x => some (rawSignalRow env (env.uuid 0) x.1 x.2)) =
        l.map fun js => rawSignalRow env (env.uuid 0) js.1 js.2 := by
    intro l
    induction l with
    | nil => rfl
    | cons x rest ih => simp [List.filterMap_cons, ih]
  rw [handleRemoteStart_rows]
  cases d.notifier <;>
    simp [savedRawSignals, List.filterMap_append, List.filterMap_map, Function.comp_def, hmap]

/-- C19, as the code behaves: at a transition from Inactive to Active
`SaveRawSignal` is called once for each signal of the cycle, in order, with the type,
name, confidence, source and time of the signal and the id of the new session; in
every other cycle no raw signal is saved and the table of raw signals is unchanged. -/
theorem raw_signals_on_start (d : Detector) (st : Storage) (env : Env)
    (remoteToolSignals sessionSignals portSignals : List Signal) :
    (d.lastState = false → remoteToolSignals ≠ [] →
      savedRawSignals
          (detectFrom d st env remoteToolSignals sessionSignals portSignals).2.2 =
        ((remoteToolSignals ++ sessionSignals ++ portSignals).enumFrom 0).map fun js =>
          rawSignalRow env (env.uuid 0) js.1 js.2) ∧
    (¬ (d.lastState = false ∧ remoteToolSignals ≠ []) →
      savedRawSignals
          (detectFrom d st env remoteToolSignals sessionSignals portSignals).2.2 = [] ∧
        (detectFrom d st env remoteToolSignals sessionSignals portSignals).2.1.rawSignals =
          st.rawSignals) := by
  constructor
  · intro h hr
    rw [detectFrom_start _ _ _ _ _ _ h hr]
    exact savedRawSignals_handleRemoteStart _ _ _ _
  · intro hno
    have hsame : decide (remoteToolSignals.length > 0) = d.lastState ∨
        (d.lastState = true ∧ remoteToolSignals = []) := by
      cases hl : d.lastState <;> cases remoteToolSignals with
      | nil => simp
      | cons a t =>
        first
        | (simp; done)
        | exact absurd ⟨hl, List.cons_ne_nil _ _⟩ hno
    rcases hsame with h | ⟨hl, hr⟩
    · rw [detectFrom_same _ _ _ _ _ _ h]
      exact ⟨rfl, rfl⟩
    · subst hr
      rw [detectFrom_end _ _ _ _ _ hl]
      exact ⟨(handleRemoteEnd_rawSignals _ _ _).2, (handleRemoteEnd_rawSignals _ _ _).1⟩

/-- C19 fails as stated: a cycle that finds a signal while the detector is already
Active saves no raw signal. -/
theorem no_raw_signal_while_active :
    (detectFrom activeDetector {} quietEnv [todeskSignal] [] []).1.signals = [todeskSignal] ∧
    (detectFrom activeDetector {} quietEnv [todeskSignal] [] []).2.2 = [] ∧
    (detectFrom activeDetector {} quietEnv [todeskSignal] [] []).2.1.rawSignals = [] := by
  decide

/-- C19 witness: a new detector and a cycle with one signal; then the next cycle, with
the same signal. -/
theorem raw_signals_on_start_witness :
    (NewDetector true 0).lastState = false ∧ [todeskSignal] ≠ [] ∧
    savedRawSignals (detectFrom (NewDetector true 0) {} quietEnv [todeskSignal] [] []).2.2 =
      ((([todeskSignal] ++ [] ++ []) : List Signal).enumFrom 0).map (fun js =>
        rawSignalRow quietEnv (quietEnv.uuid 0) js.1 js.2) ∧
    ¬ (activeDetector.lastState = false ∧ [todeskSignal] ≠ []) ∧
    savedRawSignals (detectFrom activeDetector {} quietEnv [todeskSignal] [] []).2.2 = [] ∧
    (detectFrom activeDetector {} quietEnv [todeskSignal] [] []).2.1.rawSignals =
      ({} : Storage).rawSignals :=
  ⟨rfl, by simp,
    (raw_signals_on_start (NewDetector true 0) {} quietEnv [todeskSignal] [] []).1 rfl
      (by simp),
    by decide,
    (raw_signals_on_start activeDetector {} quietEnv [todeskSignal] [] []).2 (by decide)⟩

theorem detectFrom_detector (d : Detector) (st : Storage) (env : Env)
    (r sessionSignals portSignals : List Signal) :
    (detectFrom d st env r sessionSignals portSignals).1 =
      if decide (r.length > 0) = d.lastState then
        { d with signals := r ++ sessionSignals ++ portSignals }
      else
        { d with signals := r ++ sessionSignals ++ portSignals, lastChange := env.now,
                 lastState := decide (r.length > 0) } := by
  unfold detectFrom
  by_cases h : decide (r.length > 0) = d.lastState
  · simp [h]
  · have h' : (decide (r.length > 0) != d.lastState) = true := by simpa [bne_iff_ne] using h
    simp only [h, h', if_true, if_false]
    split <;> rfl

/-- C17: whatever the outcomes of `SaveSession`, `SaveRawSignal`, `GetOpenSession`
and `UpdateSessionEnd`, the detector after the cycle is the same: its state is the
activity status of the cycle and, at a transition, `lastChange` is the time of the
transition; and a detector with a notifier calls the hook of the transition. -/
theorem persistence_failures_do_not_block (u : Unicode) (d : Detector) (st st' : Storage)
    (env env' : Env) (remoteToolSignals sessionSignals portSignals : List Signal) :
    (env.now = env'.now →
      (detectFrom d st env remoteToolSignals sessionSignals portSignals).1 =
        (detectFrom d st' env' remoteToolSignals sessionSignals portSignals).1) ∧
    (env.os = env'.os → env.now = env'.now →
      (detect u d st env).1 = (detect u d st' env').1) ∧
    (detectFrom d st env remoteToolSignals sessionSignals portSignals).1.lastState =
      decide (remoteToolSignals.length > 0) ∧
    (d.lastState ≠ decide (remoteToolSignals.length > 0) →
      (detectFrom d st env remoteToolSignals sessionSignals portSignals).1.lastChange =
        env.now) ∧
    (d.notifier = true → d.lastState = false → remoteToolSignals ≠ [] →
      Event.NotifyRemoteStart
          ((remoteToolSignals ++ sessionSignals ++ portSignals).map fun s => s.Name) ∈
        (detectFrom d st env remoteToolSignals sessionSignals portSignals).2.2) ∧
    (d.notifier = true → d.lastState = true → remoteToolSignals = [] →
      ∃ names : List String, Event.NotifyRemoteEnd names ∈
        (detectFrom d st env remoteToolSignals sessionSignals portSignals).2.2) := by
  refine ⟨?_, ?_, ?_, ?_, ?_, ?_⟩
  · intro h
    rw [detectFrom_detector, detectFrom_detector, h]
  · intro hos h
    rw [detect_eq_detectFrom, detect_eq_detectFrom, detectFrom_detector, detectFrom_detector,
      hos, h]
  · rw [detectFrom_detector]
    split
    · next h => exact h.symm
    · rfl
  · intro h
    rw [detectFrom_detector, if_neg (fun e => h e.symm)]
  · intro hn hl hr
    rw [detectFrom_start _ _ _ _ _ _ hl hr, handleRemoteStart_rows]
    simp [hn]
  · intro hn hl hr
    subst hr
    rw [detectFrom_end _ _ _ _ _ hl]
    cases h : GetOpenSession st env.getOpenSessionErr with
    | none =>
      rw [handleRemoteEnd_none _ st env h]
      exact ⟨[], by simp [hn]⟩
    | some o =>
      rw [handleRemoteEnd_some _ st env o h]
      exact ⟨if o.Signals != "" then parseSignals o.Signals else [], by simp [hn]⟩

/-- C17 witness: a transition to Active and a transition to Inactive while every
storage operation fails. -/
theorem persistence_failures_do_not_block_witness :
    quietEnv.now = failingEnv.now ∧
    (detectFrom (NewDetector true 0) {} quietEnv [todeskSignal] [] []).1 =
      (detectFrom (NewDetector true 0) {} failingEnv [todeskSignal] [] []).1 ∧
    Event.NotifyRemoteStart ((([todeskSignal] ++ [] ++ []) : List Signal).map fun s => s.Name) ∈
      (detectFrom (NewDetector true 0) {} failingEnv [todeskSignal] [] []).2.2 ∧
    (activeDetector.lastState ≠ decide (([] : List Signal).length > 0) ∧
      (detectFrom activeDetector {} failingEnv [] [] []).1.lastChange = failingEnv.now) ∧
    ∃ names : List String, Event.NotifyRemoteEnd names ∈
      (detectFrom activeDetector {} failingEnv [] [] []).2.2 :=
  ⟨rfl,
    (persistence_failures_do_not_block Unicode.ascii (NewDetector true 0) {} {} quietEnv
      failingEnv [todeskSignal] [] []).1 rfl,
    (persistence_failures_do_not_block Unicode.ascii (NewDetector true 0) {} {} failingEnv
      failingEnv [todeskSignal] [] []).2.2.2.2.1 rfl rfl (by simp),
    ⟨by decide,
      (persistence_failures_do_not_block Unicode.ascii activeDetector {} {} failingEnv
        failingEnv [] [] []).2.2.2.1 (by decide)⟩,
    (persistence_failures_do_not_block Unicode.ascii activeDetector {} {} failingEnv
      failingEnv [] [] []).2.2.2.2.2 rfl rfl rfl⟩

theorem length_filter_map_le {α : Type} (p : α → Bool) (f : α → α)
    (h : ∀ a, p (f a) = true → p a = true) (l : List α) :
    ((l.map f).filter p).length ≤ (l.filter p).length := by
  induction l with
  | nil => simp
  | cons a rest ih =>
    simp only [List.map_cons, List.filter_cons]
    cases h1 : p (f a) with
    | true =>
      have h2 := h a h1
      simp only [h2, if_true, List.length_cons]
      omega
    | false =>
      cases h2 : p a with
      | true =>
        simp only [if_true, Bool.false_eq_true, if_false, List.length_cons]
        omega
      | false =>
        simp only [Bool.false_eq_true, if_false]
        exact ih

theorem openCount_UpdateSessionEnd (st : Storage) (dbErr : Bool) (sessionID : String)
    (endTime : Time) (duration : Duration) :
    openCount (UpdateSessionEnd st dbErr sessionID endTime duration).2 ≤ openCount st := by
  unfold UpdateSessionEnd openCount
  cases dbErr with
  | true => exact le_refl _
  | false =>
    simp only [Bool.false_eq_true, if_false]
    apply length_filter_map_le
    intro r hr
    split_ifs at hr with hid
    · simp [RemoteSession.IsActive] at hr
    · exact hr

theorem openCount_handleRemoteEnd (d : Detector) (st : Storage) (env : Env) :
    openCount (handleRemoteEnd d st env).1 ≤ openCount st := by
  cases h : GetOpenSession st env.getOpenSessionErr with
  | none => rw [handleRemoteEnd_none d st env h]
  | some o =>
    rw [handleRemoteEnd_some d st env o h]
    exact openCount_UpdateSessionEnd _ _ _ _ _

theorem openCount_handleRemoteStart (d : Detector) (st : Storage) (env : Env)
    (signals : List Signal) :
    openCount (handleRemoteStart d st env signals).1 ≤ openCount st + 1 := by
  obtain ⟨session, raws, -, -, -, -, -, -, hst⟩ := handleRemoteStart_spec d st env signals
  unfold openCount
  rcases hst with h | h
  · rw [h]
    omega
  · rw [h, List.filter_append, List.length_append]
    have : ([session].filter fun r => r.IsActive).length ≤ 1 := by
      simp only [List.filter_cons, List.filter_nil]
      split <;> simp
    omega

theorem openCount_detectFrom (d : Detector) (st : Storage) (env : Env)
    (r sessionSignals portSignals : List Signal) (h1 : openCount st ≤ 1)
    (h0 : d.lastState = false → r ≠ [] → openCount st = 0) :
    openCount (detectFrom d st env r sessionSignals portSignals).2.1 ≤ 1 := by
  by_cases hsame : decide (r.length > 0) = d.lastState
  · rw [detectFrom_same _ _ _ _ _ _ hsame]
    exact h1
  · cases hl : d.lastState with
    | false =>
      have hr : r ≠ [] := by
        intro hr
        apply hsame
        simp [hr, hl]
      rw [detectFrom_start _ _ _ _ _ _ hl hr]
      have := openCount_handleRemoteStart
        { d with signals := r ++ sessionSignals ++ portSignals, lastChange := env.now,
                 lastState := true } st env (r ++ sessionSignals ++ portSignals)
      have h00 := h0 hl hr
      show openCount (handleRemoteStart _ st env _).1 ≤ 1
      omega
    | true =>
      have hr : r = [] := by
        cases r with
        | nil => rfl
        | cons a t =>
          exfalso
          apply hsame
          simp [hl]
      subst hr
      rw [detectFrom_end _ _ _ _ _ hl]
      have := openCount_handleRemoteEnd
        { d with signals := sessionSignals ++ portSignals, lastChange := env.now,
                 lastState := false } st env
      show openCount (handleRemoteEnd _ st env).1 ≤ 1
      omega

/-- C11, as the code behaves: a cycle leaves at most one open session in the store
when the store held at most one before it, and none if the cycle is a transition
from Inactive to Active. -/
theorem open_sessions_bounded (u : Unicode) (d : Detector) (st : Storage) (env : Env)
    (remoteToolSignals sessionSignals portSignals : List Signal) :
    (openCount st ≤ 1 →
      (d.lastState = false → remoteToolSignals ≠ [] → openCount st = 0) →
      openCount (detectFrom d st env remoteToolSignals sessionSignals portSignals).2.1 ≤ 1) ∧
    (openCount st ≤ 1 →
      (d.lastState = false → (DetectRemoteTools u d.windows env.os).1 ≠ [] →
        openCount st = 0) →
      openCount (detect u d st env).2.1 ≤ 1) := by
  refine ⟨openCount_detectFrom d st env _ _ _, ?_⟩
  intro h1 h0
  rw [detect_eq_detectFrom]
  exact openCount_detectFrom _ st env _ _ _ h1 h0

/-- C11 fails as stated: a new detector whose store still holds one open session opens
a second one at its first transition to Active. -/
theorem second_open_session :
    openCount staleStore = 1 ∧
    openCount (detectFrom (NewDetector true 0) staleStore quietEnv [todeskSignal] [] []).2.1 =
      2 := by
  decide

/-- C11 witness: the transition to Active on an empty store, and the transition to
Inactive on the store with one open session. -/
theorem open_sessions_bounded_witness :
    openCount {} ≤ 1 ∧
    ((NewDetector true 0).lastState = false → [todeskSignal] ≠ [] → openCount {} = 0) ∧
    openCount (detectFrom (NewDetector true 0) {} quietEnv [todeskSignal] [] []).2.1 ≤ 1 ∧
    openCount staleStore ≤ 1 ∧
    openCount (detectFrom activeDetector staleStore quietEnv [] [] []).2.1 ≤ 1 :=
  ⟨by decide, fun _ _ => by decide,
    (open_sessions_bounded Unicode.ascii (NewDetector true 0) {} quietEnv [todeskSignal] []
      []).1 (by decide) (fun _ _ => by decide),
    by decide,
    (open_sessions_bounded Unicode.ascii activeDetector staleStore quietEnv [] [] []).1
      (by decide) (fun h _ => absurd h (by decide))⟩

/-! ## Properties of the process cache -/

theorem snapshotLoop_eq (u : Unicode) (os : OS) (processName : String)
    (entries : List ProcessEntry32) :
    snapshotLoop u os processName entries =
      (entries.filter fun e =>
          sameName u e.ExeFile processName && os.newProcess (toInt32 e.ProcessID)).map
        fun e => { Pid := toInt32 e.ProcessID } := by
  induction entries with
  | nil => rfl
  | cons e rest ih =>
    unfold snapshotLoop
    rw [ih]
    simp only [List.filter_cons, sameName]
    cases h1 : (strings.EqualFold u e.ExeFile processName ||
      strings.EqualFold u (strings.ToLower u e.ExeFile) (strings.ToLower u processName)) <;>
    cases h2 : os.newProcess (toInt32 e.ProcessID) <;> simp

theorem findProcessesByName_hit (u : Unicode) (d : WindowsDetector) (os : OS)
    (processName : String) (l : List Process) (hc : d.processCache processName = some l)
    (ht : Time.Sub os.now d.processCacheTime < d.cacheDuration) :
    findProcessesByName u d os processName = (l, d) := by
  unfold findProcessesByName
  simp [ht, hc]

theorem findProcessesByName_miss (u : Unicode) (d : WindowsDetector) (os : OS)
    (processName : String)
    (hm : d.processCache processName = none ∨
      ¬ Time.Sub os.now d.processCacheTime < d.cacheDuration) :
    findProcessesByName u d os processName =
      match os.snapshot with
      | some (first :: rest) =>
        (snapshotLoop u os processName (first :: rest),
          { d with
            processCache := fun k =>
              if k = processName then some (snapshotLoop u os processName (first :: rest))
              else d.processCache k
            processCacheTime := os.now })
      | _ => ([], d) := by
  have hhit : (if Time.Sub os.now d.processCacheTime < d.cacheDuration then
      d.processCache processName else none) = none := by
    rcases hm with h | h
    · simp [h]
    · simp [h]
  unfold findProcessesByName
  simp only [hhit]
  cases os.snapshot with
  | none => rfl
  | some entries =>
    cases entries with
    | nil => rfl
    | cons first rest => rfl

theorem findProcessesByName_other (u : Unicode) (d : WindowsDetector) (os : OS)
    (processName other : String) (h : other ≠ processName) :
    (findProcessesByName u d os other).2.processCache processName =
      d.processCache processName := by
  unfold findProcessesByName
  simp only
  split
  · rfl
  · cases os.snapshot with
    | none => rfl
    | some entries =>
      cases entries with
      | nil => rfl
      | cons first rest => simp [Ne.symm h]

theorem findProcessesByName_cached (u : Unicode) (d : WindowsDetector) (os : OS)
    (processName : String) (first : ProcessEntry32) (rest : List ProcessEntry32)
    (hs : os.snapshot = some (first :: rest)) :
    (findProcessesByName u d os processName).2.processCache processName =
      some (findProcessesByName u d os processName).1 := by
  by_cases hm : d.processCache processName = none ∨
      ¬ Time.Sub os.now d.processCacheTime < d.cacheDuration
  · rw [findProcessesByName_miss u d os processName hm, hs]
    simp
  · simp only [not_or, not_not] at hm
    obtain ⟨l, hl⟩ := Option.ne_none_iff_exists'.mp hm.1
    rw [findProcessesByName_hit u d os processName l hl hm.2]
    exact hl

/-- C15: a name resolved in the cache is served from it while the age of the cache
is below its lifetime: the lookup returns the cached list and leaves the detector as
it was, whatever the operating system would answer; so a second lookup of a name,
made within the lifetime after a first one whose snapshot succeeded, returns the
list of the first; lookups of other names in between keep the entry. -/
theorem cache_hit (u : Unicode) (d : WindowsDetector) (os1 os2 : OS) (processName : String) :
    (∀ l : List Process, d.processCache processName = some l →
      Time.Sub os2.now d.processCacheTime < d.cacheDuration →
      findProcessesByName u d os2 processName = (l, d)) ∧
    (∀ (first : ProcessEntry32) (rest : List ProcessEntry32),
      os1.snapshot = some (first :: rest) →
      Time.Sub os2.now (findProcessesByName u d os1 processName).2.processCacheTime <
        (findProcessesByName u d os1 processName).2.cacheDuration →
      findProcessesByName u (findProcessesByName u d os1 processName).2 os2 processName =
        ((findProcessesByName u d os1 processName).1,
          (findProcessesByName u d os1 processName).2)) ∧
    (∀ (first : ProcessEntry32) (rest : List ProcessEntry32),
      os1.snapshot = some (first :: rest) →
      (d.processCache processName = none ∨
        ¬ Time.Sub os1.now d.processCacheTime < d.cacheDuration) →
      (findProcessesByName u d os1 processName).2.processCacheTime = os1.now ∧
        (findProcessesByName u d os1 processName).2.cacheDuration = d.cacheDuration) ∧
    (∀ other : String, other ≠ processName →
      (findProcessesByName u d os1 other).2.processCache processName =
        d.processCache processName) := by
  refine ⟨fun l hc ht => findProcessesByName_hit u d os2 processName l hc ht, ?_, ?_,
    fun other h => findProcessesByName_other u d os1 processName other h⟩
  · intro first rest hs ht
    exact findProcessesByName_hit u _ os2 processName _
      (findProcessesByName_cached u d os1 processName first rest hs) ht
  · intro first rest hs hm
    rw [findProcessesByName_miss u d os1 processName hm, hs]
    exact ⟨rfl, rfl⟩

/-- C15 witness: ToDesk looked up on a new detector, then again at the same time while
the snapshot cannot be created. -/
theorem cache_hit_witness :
    todeskOS.snapshot = some [{ ExeFile := "System", ProcessID := 4 },
      { ExeFile := "ToDesk.exe", ProcessID := 1234 }] ∧
    Time.Sub noSnapshotOS.now
        (findProcessesByName Unicode.ascii NewWindowsDetector todeskOS
          "todesk.exe").2.processCacheTime <
      (findProcessesByName Unicode.ascii NewWindowsDetector todeskOS
        "todesk.exe").2.cacheDuration ∧
    (findProcessesByName Unicode.ascii NewWindowsDetector todeskOS "todesk.exe").1 =
      [{ Pid := 1234 }] ∧
    findProcessesByName Unicode.ascii
        (findProcessesByName Unicode.ascii NewWindowsDetector todeskOS "todesk.exe").2
        noSnapshotOS "todesk.exe" =
      ((findProcessesByName Unicode.ascii NewWindowsDetector todeskOS "todesk.exe").1,
        (findProcessesByName Unicode.ascii NewWindowsDetector todeskOS "todesk.exe").2) :=
  ⟨rfl, by decide, by decide,
    (cache_hit Unicode.ascii NewWindowsDetector todeskOS noSnapshotOS "todesk.exe").2.1 _ _
      rfl (by decide)⟩

/-- C16, as the code behaves: a lookup of a name that the cache does not hold, as
after `clearCache`, or made when the age of the cache has reached its lifetime, reads
one snapshot; when the snapshot succeeds it returns the processes of the snapshot
whose executable name equals the name up to case and for which a handle can be
created, and stores that list under the name with the time of the lookup; when the
snapshot fails it returns no process and stores nothing. -/
theorem cache_miss (u : Unicode) (d : WindowsDetector) (os : OS) (processName : String) :
    ((clearCache d).processCache processName = none ∧
      (clearCache d).processCacheTime = d.processCacheTime ∧
      (clearCache d).cacheDuration = d.cacheDuration) ∧
    (∀ other : String, other ≠ processName →
      (findProcessesByName u d os other).2.processCache processName =
        d.processCache processName) ∧
    (d.processCache processName = none ∨
        ¬ Time.Sub os.now d.processCacheTime < d.cacheDuration →
      (∀ (first : ProcessEntry32) (rest : List ProcessEntry32),
        os.snapshot = some (first :: rest) →
        (findProcessesByName u d os processName).1 =
            ((first :: rest).filter fun e =>
                sameName u e.ExeFile processName &&
                  os.newProcess (toInt32 e.ProcessID)).map
              (fun e => { Pid := toInt32 e.ProcessID }) ∧
          (findProcessesByName u d os processName).2.processCache processName =
            some (findProcessesByName u d os processName).1 ∧
          (findProcessesByName u d os processName).2.processCacheTime = os.now) ∧
      (os.snapshot = none ∨ os.snapshot = some [] →
        findProcessesByName u d os processName = ([], d))) := by
  refine ⟨⟨rfl, rfl, rfl⟩, fun other h => findProcessesByName_other u d os processName other h,
    ?_⟩
  intro hm
  rw [findProcessesByName_miss u d os processName hm]
  constructor
  · intro first rest hs
    rw [hs]
    exact ⟨snapshotLoop_eq u os processName _, by simp, rfl⟩
  · rintro (hs | hs) <;> rw [hs]

/-- C16 fails as stated: after `clearCache` a lookup whose snapshot cannot be created
returns no process and stores nothing; and a process of the requested name for which
no handle can be created is not returned. -/
theorem cache_miss_failures :
    findProcessesByName Unicode.ascii (clearCache NewWindowsDetector) noSnapshotOS
        "todesk.exe" = ([], clearCache NewWindowsDetector) ∧
    (findProcessesByName Unicode.ascii (clearCache NewWindowsDetector) noSnapshotOS
        "todesk.exe").2.processCache "todesk.exe" = none ∧
    sameName Unicode.ascii "ToDesk.exe" "todesk.exe" = true ∧
    (findProcessesByName Unicode.ascii (clearCache NewWindowsDetector) closedProcessOS
        "todesk.exe").1 = [] := by
  refine ⟨rfl, rfl, by decide, by decide⟩

/-- C16 witness: ToDesk looked up after `clearCache` while it runs. -/
theorem cache_miss_witness :
    ((clearCache NewWindowsDetector).processCache "todesk.exe" = none ∨
      ¬ Time.Sub todeskOS.now (clearCache NewWindowsDetector).processCacheTime <
        (clearCache NewWindowsDetector).cacheDuration) ∧
    (findProcessesByName Unicode.ascii (clearCache NewWindowsDetector) todeskOS
        "todesk.exe").1 = [{ Pid := 1234 }] ∧
    (findProcessesByName Unicode.ascii (clearCache NewWindowsDetector) todeskOS
        "todesk.exe").2.processCache "todesk.exe" = some [{ Pid := 1234 }] ∧
    findProcessesByName Unicode.ascii (clearCache NewWindowsDetector) noSnapshotOS
        "todesk.exe" = ([], clearCache NewWindowsDetector) :=
  ⟨Or.inl rfl,
    (((cache_miss Unicode.ascii (clearCache NewWindowsDetector) todeskOS "todesk.exe").2.2
      (Or.inl rfl)).1 _ _ rfl).1.trans (by decide),
    (((cache_miss Unicode.ascii (clearCache NewWindowsDetector) todeskOS "todesk.exe").2.2
      (Or.inl rfl)).1 _ _ rfl).2.1.trans (by decide),
    ((cache_miss Unicode.ascii (clearCache NewWindowsDetector) noSnapshotOS "todesk.exe").2.2
      (Or.inl rfl)).2 (Or.inl rfl)⟩

/-! ## Isolation of failed queries -/

theorem detectWindowClass_no_window (os : OS) (pid : Int) (className : String)
    (h : ∀ w ∈ os.windows, w.pid ≠ toUint32 pid) :
    detectWindowClass os pid className = (false, false) := by
  simp only [detectWindowClass, detectWindowClassByAPI, Bool.true_and, ite_eq_right_iff,
    Prod.mk.injEq, Bool.true_eq_false, and_self, imp_false, Bool.not_eq_true,
    List.any_eq_false, Bool.and_eq_true, beq_iff_eq, not_and]
  intro w hw he
  exact absurd he.symm (h w hw)

theorem detectWindowTitle_no_window (os : OS) (pid : Int) (titleSubStr : String)
    (h : ∀ w ∈ os.windows, w.pid ≠ toUint32 pid) :
    detectWindowTitle os pid titleSubStr = (false, true) := by
  simp only [detectWindowTitle, Prod.mk.injEq, and_true, List.any_eq_false,
    Bool.and_eq_true, beq_iff_eq, not_and]
  intro w hw he
  exact absurd he.symm (h w hw)

theorem connections_failed (os : OS) (pid : Int) (establishedOnly : Bool)
    (h : os.newProcess pid = false ∨ os.connections pid = none) :
    (getTCPConnectionCount os pid establishedOnly).2 = false ∧
      (getUDPConnectionCount os pid).2 = false := by
  unfold getTCPConnectionCount getUDPConnectionCount
  rcases h with h | h
  · simp [h]
  · cases os.newProcess pid <;> simp [h]

/-- C18: a candidate whose command line cannot be read, whose connections cannot be
listed or of which no window is enumerated is skipped by the strategy, which goes on
with the remaining candidates; a configured strategy still decides the rule when the
strategies before it fail on every candidate; the rules after a rule are evaluated
whatever happens in it; a rule without candidates, also because the snapshot or the
list of processes cannot be had, yields no signal. -/
theorem failures_isolated (u : Unicode) (d : WindowsDetector) (os : OS) (tool : RemoteTool)
    (tools : List RemoteTool) (p : Process) (rest : List Process) :
    (os.cmdline p.Pid = none →
      commandLineLoop u os tool (p :: rest) = commandLineLoop u os tool rest) ∧
    ((∀ w ∈ os.windows, w.pid ≠ toUint32 p.Pid) →
      windowClassLoop os tool (p :: rest) = windowClassLoop os tool rest ∧
        windowTitleLoop os tool (p :: rest) = windowTitleLoop os tool rest) ∧
    (os.newProcess p.Pid = false ∨ os.connections p.Pid = none →
      tcpLoop os tool (p :: rest) = tcpLoop os tool rest ∧
        udpLoop os tool (p :: rest) = udpLoop os tool rest) ∧
    (∀ (procs : List Process) (s : Strategy) (q : Process),
      s.configured tool = true →
      (procs.find? fun c => s.succeedsOn u os tool c) = some q →
      (∀ s' : Strategy, s'.rank < s.rank → s'.configured tool = true →
        ∀ c ∈ procs, s'.succeedsOn u os tool c = false) →
      detectTool u os tool procs =
        some (toolSignal os tool
          { remoteProcess := q, detectionMethod := s.describe os tool q })) ∧
    (detectRemoteToolsIn (tool :: tools) u d os).1 =
      (detectTool u os tool (candidates u os tool)).toList ++
        (detectRemoteToolsIn tools u d os).1 ∧
    detectTool u os tool [] = none ∧
    (tool.ProcessName ≠ "" → os.snapshot = none → candidates u os tool = []) ∧
    (tool.ProcessName = "" → os.processes = none → candidates u os tool = []) := by
  refine ⟨?_, ?_, ?_, ?_, ?_, ?_, ?_, ?_⟩
  · intro h
    simp [commandLineLoop, h]
  · intro h
    constructor
    · simp [windowClassLoop, detectWindowClass_no_window os p.Pid tool.WindowClass h]
    · simp [windowTitleLoop, detectWindowTitle_no_window os p.Pid tool.WindowTitle h]
  · intro h
    obtain ⟨h1, h2⟩ := connections_failed os p.Pid tool.UseEstablishedOnly h
    constructor
    · simp [tcpLoop, h1]
    · simp [udpLoop, h2]
  · intro procs s q hc hf hb
    have hfm := (firstMatch_eq_some_iff u os tool procs s q).mpr ⟨hc, hf, hb⟩
    rw [detectTool_eq, hfm]
    cases procs with
    | nil => simp at hf
    | cons a t => rfl
  · rw [detectRemoteToolsIn_eq, detectRemoteToolsIn_eq, List.filterMap_cons]
    cases detectTool u os tool (candidates u os tool) <;> simp
  · simp [detectTool]
  · intro hn hs
    simp [candidates, hn, freshProcesses, hs]
  · intro hn hp
    simp [candidates, hn, hp]

/-- C18 witness: a ToDesk process whose command line cannot be read stands before the
one that matches; the rule with only a TCP threshold is decided by it. -/
theorem failures_isolated_witness :
    todeskOS.cmdline 1000 = none ∧
    commandLineLoop Unicode.ascii todeskOS todeskTool [{ Pid := 1000 }, { Pid := 1234 }] =
      commandLineLoop Unicode.ascii todeskOS todeskTool [{ Pid := 1234 }] ∧
    (∀ w ∈ todeskBusyOS.windows, w.pid ≠ toUint32 1000) ∧
    windowTitleLoop todeskBusyOS todeskTool [{ Pid := 1000 }, { Pid := 1234 }] =
      windowTitleLoop todeskBusyOS todeskTool [{ Pid := 1234 }] ∧
    (todeskOS.newProcess 1000 = false ∨ todeskOS.connections 1000 = none) ∧
    tcpLoop todeskOS gameViewerTool [{ Pid := 1000 }, { Pid := 1234 }] =
      tcpLoop todeskOS gameViewerTool [{ Pid := 1234 }] ∧
    detectTool Unicode.ascii (connectionsOS fiveEstablished) gameViewerTool [{ Pid := 7 }] =
      some (toolSignal (connectionsOS fiveEstablished) gameViewerTool
        { remoteProcess := { Pid := 7 },
          detectionMethod :=
            Strategy.tcp.describe (connectionsOS fiveEstablished) gameViewerTool
              { Pid := 7 } }) ∧
    candidates Unicode.ascii noSnapshotOS todeskTool = [] ∧
    candidates Unicode.ascii noSnapshotOS anonymousTool = [] :=
  ⟨rfl,
    (failures_isolated Unicode.ascii NewWindowsDetector todeskOS todeskTool [] { Pid := 1000 }
      [{ Pid := 1234 }]).1 rfl,
    by decide,
    ((failures_isolated Unicode.ascii NewWindowsDetector todeskBusyOS todeskTool []
      { Pid := 1000 } [{ Pid := 1234 }]).2.1 (by decide)).2,
    Or.inr rfl,
    ((failures_isolated Unicode.ascii NewWindowsDetector todeskOS gameViewerTool []
      { Pid := 1000 } [{ Pid := 1234 }]).2.2.1 (Or.inr rfl)).1,
    (failures_isolated Unicode.ascii NewWindowsDetector (connectionsOS fiveEstablished)
      gameViewerTool [] { Pid := 7 } []).2.2.2.1 [{ Pid := 7 }] Strategy.tcp { Pid := 7 }
      (by decide) (by decide)
      (fun s' hr hc => by
        cases s' <;> first | exact absurd hc (by decide) | exact absurd hr (by decide)),
    (failures_isolated Unicode.ascii NewWindowsDetector noSnapshotOS todeskTool []
      { Pid := 7 } []).2.2.2.2.2.2.1 (by decide) rfl,
    (failures_isolated Unicode.ascii NewWindowsDetector noSnapshotOS anonymousTool []
      { Pid := 7 } []).2.2.2.2.2.2.2 rfl rfl⟩

/-! ## Round trip of the summary -/

theorem joinLoop_data (sep : String) (rest : List String) (result : String) :
    (joinLoop sep rest result).data =
      result.data ++ (rest.map fun x => sep.data ++ x.data).flatten := by
  induction rest generalizing result with
  | nil => simp [joinLoop]
  | cons x rest ih => simp [joinLoop, ih, String.data_append, List.append_assoc]

theorem indexRunes_comma_none (n : List Char) (h : ',' ∉ n) :
    strings.indexRunes n [','] = none := by
  induction n with
  | nil => simp [strings.indexRunes]
  | cons c cs ih =>
    have hc : ',' ≠ c := fun e => h (e ▸ List.mem_cons_self _ _)
    have hcs : ',' ∉ cs := fun e => h (List.mem_cons_of_mem _ e)
    simp [strings.indexRunes, List.isPrefixOf, hc, ih hcs]

theorem indexRunes_comma_some (n t : List Char) (h : ',' ∉ n) :
    strings.indexRunes (n ++ ',' :: t) [','] = some n.length := by
  induction n with
  | nil => simp [strings.indexRunes, List.isPrefixOf]
  | cons c cs ih =>
    have hc : ',' ≠ c := fun e => h (e ▸ List.mem_cons_self _ _)
    have hcs : ',' ∉ cs := fun e => h (List.mem_cons_of_mem _ e)
    simp [strings.indexRunes, List.isPrefixOf, hc, ih hcs]

theorem genSplit_comma (segs : List (List Char)) :
    ∀ (seg : List Char) (k : Nat), segs.length ≤ k → ',' ∉ seg →
      (∀ x ∈ segs, ',' ∉ x) →
      strings.genSplit [','] k (seg ++ (segs.map fun x => ',' :: x).flatten) = seg :: segs := by
  induction segs with
  | nil =>
    intro seg k _ hseg _
    cases k with
    | zero => simp [strings.genSplit]
    | succ k => simp [strings.genSplit, indexRunes_comma_none seg hseg]
  | cons m rest ih =>
    intro seg k hk hseg hall
    cases k with
    | zero => simp at hk
    | succ k =>
      have hm : ',' ∉ m := hall m (List.mem_cons_self _ _)
      have hrest : ∀ x ∈ rest, ',' ∉ x := fun x hx => hall x (List.mem_cons_of_mem _ hx)
      have hidx := indexRunes_comma_some seg (m ++ (rest.map fun x => ',' :: x).flatten) hseg
      simp only [List.map_cons, List.flatten_cons, List.cons_append, strings.genSplit, hidx]
      have hdrop : List.drop (seg.length + [','].length)
          (seg ++ ',' :: (m ++ (rest.map fun x => ',' :: x).flatten)) =
          m ++ (rest.map fun x => ',' :: x).flatten := by
        simp [List.drop_append]
      have htake : List.take seg.length
          (seg ++ ',' :: (m ++ (rest.map fun x => ',' :: x).flatten)) = seg := by
        simp [List.take_append]
      rw [hdrop, htake, ih m k (by simpa using hk) hm hrest]

theorem length_le_flatten_comma (segs : List (List Char)) (seg : List Char) :
    segs.length ≤ (seg ++ (segs.map fun x => ',' :: x).flatten).length := by
  induction segs generalizing seg with
  | nil => simp
  | cons m rest ih =>
    have := ih m
    simp only [List.map_cons, List.flatten_cons, List.length_append, List.length_cons] at this ⊢
    omega

theorem trimRunes_clean (n : List Char)
    (hh : n.head?.map isSpace ≠ some true)
    (hl : n.getLast?.map isSpace ≠ some true) :
    strings.trimRunes isSpace n = n := by
  unfold strings.trimRunes
  have hd : n.dropWhile isSpace = n := by
    cases n with
    | nil => rfl
    | cons c cs =>
      have hc : isSpace c = false := by simpa using hh
      simp [List.dropWhile, hc]
  rw [hd, List.rdropWhile_eq_self_iff]
  intro hne
  rw [List.getLast?_eq_getLast n hne] at hl
  simpa using hl

theorem trimRunes_space_clean (n : List Char)
    (hh : n.head?.map isSpace ≠ some true)
    (hl : n.getLast?.map isSpace ≠ some true) :
    strings.trimRunes isSpace (' ' :: n) = n := by
  have h := trimRunes_clean n hh hl
  unfold strings.trimRunes at h ⊢
  have hs : isSpace ' ' = true := by decide
  rw [List.dropWhile_cons, if_pos hs]
  exact h

theorem parseLoop_spaced (rest : List String) (h : ∀ n ∈ rest, cleanName n) :
    parseLoop (rest.map fun n => String.mk (' ' :: n.data)) = rest := by
  induction rest with
  | nil => rfl
  | cons n rest ih =>
    obtain ⟨hne, _, hh, hl⟩ := h n (List.mem_cons_self _ _)
    have ht : strings.TrimSpace (String.mk (' ' :: n.data)) = n := by
      unfold strings.TrimSpace
      simp only [trimRunes_space_clean n.data hh hl]
    simp only [List.map_cons, parseLoop, ht, ih fun m hm => h m (List.mem_cons_of_mem _ hm)]
    simp [hne]

theorem parseLoop_first (n : String) (parts : List String) (h : cleanName n) :
    parseLoop (n :: parts) = n :: parseLoop parts := by
  obtain ⟨hne, _, hh, hl⟩ := h
  have ht : strings.TrimSpace n = n := by
    unfold strings.TrimSpace
    simp only [trimRunes_clean n.data hh hl]
  simp only [parseLoop, ht]
  simp [hne]

theorem parseSignals_formatSignals (signals : List Signal)
    (h : ∀ s ∈ signals, cleanName s.Name) :
    parseSignals (formatSignals signals) = signals.map fun s => s.Name := by
  cases signals with
  | nil => rfl
  | cons s rest =>
    have hs : cleanName s.Name := h s (List.mem_cons_self _ _)
    have hrest : ∀ n ∈ rest.map (fun x => x.Name), cleanName n := by
      intro n hn
      obtain ⟨x, hx, rfl⟩ := List.mem_map.1 hn
      exact h x (List.mem_cons_of_mem _ hx)
    have hf : formatSignals (s :: rest) = joinLoop ", " (rest.map fun x => x.Name) s.Name := by
      simp [formatSignals, joinStrings]
    have hdata : (formatSignals (s :: rest)).data =
        s.Name.data ++ (((rest.map fun x => x.Name).map fun n => ' ' :: n.data).map
          fun x => ',' :: x).flatten := by
      rw [hf, joinLoop_data]
      congr 1
      simp only [List.map_map]
      congr 1
    have hne : formatSignals (s :: rest) ≠ "" := by
      intro he
      have hd := congrArg String.data he
      rw [hdata] at hd
      have := String_data_ne_nil _ hs.1
      simp_all
    have hsplit : strings.Split (formatSignals (s :: rest)) "," =
        s.Name :: (rest.map fun x => x.Name).map fun n => String.mk (' ' :: n.data) := by
      unfold strings.Split
      have hsep : ",".data = [','] := rfl
      rw [hsep, if_neg (by simp), hdata,
        genSplit_comma _ _ _ (length_le_flatten_comma _ _) hs.2.1]
      · simp
      · intro x hx
        obtain ⟨n, hn, rfl⟩ := List.mem_map.1 hx
        intro hc
        rcases List.mem_cons.1 hc with hc | hc
        · exact absurd hc (by decide)
        · exact (hrest n hn).2.1 hc
    unfold parseSignals
    rw [if_neg (by simpa using hne), hsplit, parseLoop_first _ _ hs, parseLoop_spaced _ hrest]
    rfl

/-- C14: for signals whose names are not empty, hold no comma and have no white space
at either end, parsing the formatted summary gives back their names in order (nothing for
no signals); the session that `handleRemoteStart` stores carries that summary and the
start hook those names, and when `handleRemoteEnd` closes an open session carrying it, the
end hook receives the same names. -/
theorem summary_round_trip (signals : List Signal) (h : ∀ s ∈ signals, cleanName s.Name) :
    parseSignals (formatSignals signals) = (signals.map fun s => s.Name) ∧
    parseSignals (formatSignals []) = [] ∧
    (∀ (d : Detector) (st : Storage) (env : Env), d.notifier = true →
      ∃ raws, (handleRemoteStart d st env signals).2 =
        Event.SaveSession (newSession d env signals) :: (raws ++
          [Event.NotifyRemoteStart (signals.map fun s => s.Name)]) ∧
        (newSession d env signals).Signals = formatSignals signals ∧
        ∀ e ∈ raws, ∃ r, e = Event.SaveRawSignal r) ∧
    ∀ (d : Detector) (st : Storage) (env : Env) (o : RemoteSession),
      d.notifier = true → GetOpenSession st env.getOpenSessionErr = some o →
      o.Signals = formatSignals signals →
      (handleRemoteEnd d st env).2 =
        [Event.GetOpenSession,
          Event.UpdateSessionEnd o.ID env.endNow (Time.Sub env.endNow o.StartTime),
          Event.NotifyRemoteEnd (signals.map fun s => s.Name)] := by
  have hrt := parseSignals_formatSignals signals h
  refine ⟨hrt, rfl, ?_, ?_⟩
  · intro d st env hn
    refine ⟨(signals.enumFrom 0).map fun js =>
      Event.SaveRawSignal (rawSignalRow env (env.uuid 0) js.1 js.2), ?_, rfl, ?_⟩
    · rw [handleRemoteStart_rows, if_pos hn]
    · intro e he
      obtain ⟨js, -, rfl⟩ := List.mem_map.1 he
      exact ⟨_, rfl⟩
  · intro d st env o hn ho hs
    rw [handleRemoteEnd_some d st env o ho, if_pos hn, hs]
    have hp : (if formatSignals signals != "" then parseSignals (formatSignals signals)
        else []) = signals.map fun s => s.Name := by
      split
      · exact hrt
      · rename_i hempty
        have he : formatSignals signals = "" := by simpa using hempty
        rw [← hrt, he]
        rfl
    rw [hp]

theorem summary_round_trip_witness :
    (∀ s ∈ [todeskSignal, { todeskSignal with Name := "RDP Session" }], cleanName s.Name) ∧
    parseSignals (formatSignals [todeskSignal, { todeskSignal with Name := "RDP Session" }]) =
      ["ToDesk (命令行参数)", "RDP Session"] :=
  ⟨by decide,
    (summary_round_trip [todeskSignal, { todeskSignal with Name := "RDP Session" }]
      (by decide)).1⟩

/-! ## Rounding of `float64` on durations -/

theorem two_pow_toNat_div (z : Int) :
    ((2 : ℚ) ^ z.toNat) / (2 : ℚ) ^ (-z).toNat = (2 : ℚ) ^ z := by
  rcases le_total 0 z with h | h
  · have h1 : (-z).toNat = 0 := Int.toNat_eq_zero.2 (by omega)
    rw [h1, pow_zero, div_one]
    conv_rhs => rw [← Int.toNat_of_nonneg h]
    rw [zpow_natCast]
  · have h1 : z.toNat = 0 := Int.toNat_eq_zero.2 h
    have h2 : z = -((-z).toNat : Int) := by
      rw [Int.toNat_of_nonneg (by omega)]
      omega
    rw [h1, pow_zero]
    conv_rhs => rw [h2]
    rw [zpow_neg, zpow_natCast, one_div]

theorem log2Fuel_spec (f : Nat) : ∀ n : Nat, 0 < n → n < 2 ^ f →
    2 ^ log2Fuel f n ≤ n ∧ n < 2 ^ (log2Fuel f n + 1) := by
  induction f with
  | zero =>
    intro n h0 h1
    simp at h1
    omega
  | succ f ih =>
    intro n h0 h1
    unfold log2Fuel
    split
    · simp
      omega
    · rename_i h2
      have h3 : n / 2 < 2 ^ f := by
        rw [pow_succ] at h1
        omega
      obtain ⟨ha, hb⟩ := ih (n / 2) (by omega) h3
      rw [pow_succ, pow_succ]
      rw [pow_succ] at hb
      omega

theorem ilog2_spec (n : Nat) (h : 0 < n) : 2 ^ ilog2 n ≤ n ∧ n < 2 ^ (ilog2 n + 1) :=
  log2Fuel_spec n n h (Nat.lt_two_pow n)

theorem nearest_core (N D m1 : Nat) (hD : 0 < D)
    (hm : m1 = if 2 * (N % D) > D ∨ (2 * (N % D) = D ∧ N / D % 2 = 1) then N / D + 1
      else N / D) :
    (m1 : ℚ) ≤ (N : ℚ) / D + 1 / 2 ∧
    (∀ k : ℕ, (k : ℚ) ≤ (N : ℚ) / D → k ≤ m1) ∧
    (∀ k : ℕ, (N : ℚ) / D ≤ k → m1 ≤ k) := by
  have hDq : (0 : ℚ) < D := by exact_mod_cast hD
  have hdiv : D * (N / D) + N % D = N := Nat.div_add_mod N D
  have hmod : N % D < D := Nat.mod_lt N hD
  have hN : (N : ℚ) = D * ((N / D : ℕ) : ℚ) + ((N % D : ℕ) : ℚ) := by exact_mod_cast hdiv.symm
  have hle : N / D ≤ m1 := by
    rw [hm]
    split <;> omega
  refine ⟨?_, ?_, ?_⟩
  · rw [← sub_le_iff_le_add, le_div_iff₀ hDq]
    by_cases hc : 2 * (N % D) > D ∨ (2 * (N % D) = D ∧ N / D % 2 = 1)
    · rw [if_pos hc] at hm
      have h2 : D ≤ 2 * (N % D) := by omega
      have h2q : (D : ℚ) ≤ 2 * ((N % D : ℕ) : ℚ) := by exact_mod_cast h2
      rw [hm, hN]
      push_cast
      nlinarith
    · rw [if_neg hc] at hm
      have h0q : (0 : ℚ) ≤ ((N % D : ℕ) : ℚ) := by positivity
      rw [hm, hN]
      nlinarith
  · intro k hk
    rw [le_div_iff₀ hDq] at hk
    have hk2 : k * D ≤ N := by exact_mod_cast hk
    have : k ≤ N / D := (Nat.le_div_iff_mul_le hD).2 hk2
    omega
  · intro k hk
    rw [div_le_iff₀ hDq] at hk
    have hk2 : N ≤ k * D := by exact_mod_cast hk
    by_cases hr : N % D = 0
    · have hc : ¬(2 * (N % D) > D ∨ (2 * (N % D) = D ∧ N / D % 2 = 1)) := by omega
      rw [if_neg hc] at hm
      rw [hm]
      exact Nat.div_le_of_le_mul (by rw [Nat.mul_comm]; exact hk2)
    · have hlt : N / D < k := by
        rw [Nat.div_lt_iff_lt_mul hD]
        rcases Nat.lt_or_ge N (k * D) with h | h
        · exact h
        · have he : N = k * D := le_antisymm hk2 h
          rw [he, Nat.mul_mod_left] at hr
          exact absurd rfl hr
      rw [hm]
      split <;> omega

theorem roundNat_spec (p q : Nat) (hp : 0 < p) (hq : 0 < q) :
    (2 : ℚ) ^ ((roundNat p q).2 + 52) ≤ (p : ℚ) / q ∧
    ((roundNat p q).1 : ℚ) ≤ (p : ℚ) / q * 2 ^ (-(roundNat p q).2) + 1 / 2 ∧
    (∀ k : ℕ, (k : ℚ) ≤ (p : ℚ) / q * 2 ^ (-(roundNat p q).2) → k ≤ (roundNat p q).1) ∧
    (∀ k : ℕ, (p : ℚ) / q * 2 ^ (-(roundNat p q).2) ≤ k → (roundNat p q).1 ≤ k) := by
  have hpq : (0 : ℚ) < p := by exact_mod_cast hp
  have hqq : (0 : ℚ) < q := by exact_mod_cast hq
  obtain ⟨e0, he0⟩ : ∃ e0 : Int, e0 = (ilog2 p : Int) - (ilog2 q : Int) := ⟨_, rfl⟩
  obtain ⟨e, he⟩ : ∃ e : Int,
      e = if p * 2 ^ (-e0).toNat ≥ q * 2 ^ e0.toNat then e0 else e0 - 1 := ⟨_, rfl⟩
  obtain ⟨N, hN⟩ : ∃ N : Nat, N = p * 2 ^ (-(e - 52)).toNat := ⟨_, rfl⟩
  obtain ⟨D, hD⟩ : ∃ D : Nat, D = q * 2 ^ (e - 52).toNat := ⟨_, rfl⟩
  have h2 : (roundNat p q).2 = e - 52 := by
    rw [he, he0]
    rfl
  have h1 : (roundNat p q).1 =
      if 2 * (N % D) > D ∨ (2 * (N % D) = D ∧ N / D % 2 = 1) then N / D + 1 else N / D := by
    rw [hN, hD, he, he0]
    rfl
  have hDpos : 0 < D := by
    rw [hD]
    positivity
  have hval : (N : ℚ) / D = (p : ℚ) / q * 2 ^ (-(e - 52)) := by
    have h := two_pow_toNat_div (-(e - 52))
    rw [neg_neg] at h
    rw [hN, hD, ← h]
    push_cast
    field_simp
  have hbound : (2 : ℚ) ^ e ≤ (p : ℚ) / q := by
    by_cases hc : p * 2 ^ (-e0).toNat ≥ q * 2 ^ e0.toNat
    · rw [if_pos hc] at he
      rw [he, ← two_pow_toNat_div e0, div_le_div_iff₀ (by positivity) hqq]
      have hcq : ((q * 2 ^ e0.toNat : ℕ) : ℚ) ≤ ((p * 2 ^ (-e0).toNat : ℕ) : ℚ) := by
        exact_mod_cast hc
      push_cast at hcq
      linarith
    · rw [if_neg hc] at he
      have hlp := (ilog2_spec p hp).1
      have hlq := (ilog2_spec q hq).2
      have hlpq : ((2 : ℚ) ^ ilog2 p) ≤ p := by exact_mod_cast hlp
      have hlqq : (q : ℚ) ≤ (2 : ℚ) ^ (ilog2 q + 1) := by exact_mod_cast hlq.le
      have hz : (2 : ℚ) ^ e = (2 : ℚ) ^ ilog2 p / (2 : ℚ) ^ (ilog2 q + 1) := by
        rw [he, he0, ← zpow_natCast, ← zpow_natCast, ← zpow_sub₀ (by norm_num)]
        congr 1
        push_cast
        ring
      rw [hz, div_le_div_iff₀ (by positivity) hqq]
      exact mul_le_mul hlpq hlqq hqq.le hpq.le
  obtain ⟨ha, hb, hc⟩ := nearest_core N D _ hDpos h1
  rw [h2, ← hval]
  refine ⟨?_, ha, hb, hc⟩
  have : e - 52 + 52 = e := by ring
  rw [this]
  exact hbound

theorem F64.round_pos (p : Int) (q : Nat) (hp : 0 < p) :
    F64.round p q =
      { num := ((roundNat p.natAbs q).1 : Int), exp := (roundNat p.natAbs q).2 } := by
  unfold F64.round
  rw [if_neg (by omega)]
  simp only [if_neg (by omega : ¬p < 0)]

theorem F64.round_props (p : Int) (q : Nat) (hp : 0 < p) (hq : 0 < q) :
    0 ≤ (F64.round p q).num ∧
    (2 : ℚ) ^ ((F64.round p q).exp + 52) ≤ (p : ℚ) / q ∧
    (F64.round p q).val ≤ (p : ℚ) / q + 2 ^ (F64.round p q).exp / 2 ∧
    (∀ (g : ℚ) (k : ℕ), g * 2 ^ (-(F64.round p q).exp) = k → g ≤ (p : ℚ) / q →
      g ≤ (F64.round p q).val) ∧
    (∀ (g : ℚ) (k : ℕ), g * 2 ^ (-(F64.round p q).exp) = k → (p : ℚ) / q ≤ g →
      (F64.round p q).val ≤ g) := by
  have hn : 0 < p.natAbs := Int.natAbs_pos.2 (by omega)
  have hcast : ((p.natAbs : ℕ) : ℚ) = (p : ℚ) := by
    rw [Nat.cast_natAbs, abs_of_pos hp]
  obtain ⟨h1, h2, h3, h4⟩ := roundNat_spec p.natAbs q hn hq
  rw [hcast] at h1 h2 h3 h4
  rw [F64.round_pos p q hp]
  unfold F64.val
  simp only
  generalize (roundNat p.natAbs q).1 = m at *
  generalize (roundNat p.natAbs q).2 = s at *
  have hs : (0 : ℚ) < 2 ^ s := by positivity
  have hinv : (2 : ℚ) ^ (-s) * 2 ^ s = 1 := by
    rw [← zpow_add₀ (by norm_num)]
    simp
  refine ⟨by positivity, h1, ?_, ?_, ?_⟩
  · have h := mul_le_mul_of_nonneg_right h2 hs.le
    rw [add_mul, mul_assoc, hinv, mul_one] at h
    push_cast
    linarith
  · intro g k hk hg
    have hle : (k : ℚ) ≤ (p : ℚ) / q * 2 ^ (-s) := by
      rw [← hk]
      exact mul_le_mul_of_nonneg_right hg (by positivity)
    have hkm : (k : ℚ) ≤ m := by exact_mod_cast h3 k hle
    have hgk : g = k * 2 ^ s := by
      rw [← hk, mul_assoc, hinv, mul_one]
    rw [hgk]
    push_cast
    exact mul_le_mul_of_nonneg_right hkm hs.le
  · intro g k hk hg
    have hle : (p : ℚ) / q * 2 ^ (-s) ≤ (k : ℚ) := by
      rw [← hk]
      exact mul_le_mul_of_nonneg_right hg (by positivity)
    have hkm : (m : ℚ) ≤ k := by exact_mod_cast h4 k hle
    have hgk : g = k * 2 ^ s := by
      rw [← hk, mul_assoc, hinv, mul_one]
    rw [hgk]
    push_cast
    exact mul_le_mul_of_nonneg_right hkm hs.le

theorem zpow_grid (g : ℚ) (j : ℕ) (a b : Int) (hab : b ≤ a) (h : g * 2 ^ (-a) = j) :
    g * 2 ^ (-b) = ((j * 2 ^ (a - b).toNat : ℕ) : ℚ) := by
  have h1 : (2 : ℚ) ^ (-b) = 2 ^ (-a) * 2 ^ (a - b).toNat := by
    rw [← zpow_natCast, Int.toNat_of_nonneg (by omega), ← zpow_add₀ (by norm_num)]
    congr 1
    ring
  rw [h1, ← mul_assoc, h]
  push_cast
  ring

theorem F64.ofInt_val (i : Int) (h0 : 0 ≤ i) (h1 : i < 2 ^ 53) :
    (F64.ofInt i).val = i ∧ 0 ≤ (F64.ofInt i).num := by
  rcases eq_or_lt_of_le h0 with h | h
  · subst h
    simp [F64.ofInt, F64.round, F64.val]
  · unfold F64.ofInt
    obtain ⟨hn, he, -, hlo, hhi⟩ := F64.round_props i 1 h Nat.one_pos
    refine ⟨?_, hn⟩
    simp only [Nat.cast_one, div_one] at he hlo hhi
    have hi : (i : ℚ) < 2 ^ (53 : Int) := by
      have h2 : (i : ℚ) < (2 : ℚ) ^ (53 : ℕ) := by exact_mod_cast h1
      have e : (2 : ℚ) ^ (53 : Int) = (2 : ℚ) ^ (53 : ℕ) := zpow_natCast 2 53
      rw [e]
      exact h2
    have hexp : (F64.round i 1).exp + 52 < 53 :=
      (zpow_lt_zpow_iff_right₀ (by norm_num : (1 : ℚ) < 2)).1 (lt_of_le_of_lt he hi)
    have hg : (i : ℚ) * 2 ^ (-(0 : Int)) = ((i.toNat : ℕ) : ℚ) := by
      have : ((i.toNat : ℕ) : Int) = i := Int.toNat_of_nonneg h0
      have hq : (((i.toNat : ℕ) : Int) : ℚ) = (i : ℚ) := by rw [this]
      simp only [neg_zero, zpow_zero, mul_one]
      exact hq.symm.trans (Int.cast_natCast _)
    have hgrid := zpow_grid (i : ℚ) i.toNat 0 (F64.round i 1).exp (by omega) hg
    exact le_antisymm (hhi _ _ hgrid le_rfl) (hlo _ _ hgrid le_rfl)

theorem F64.div_eq_round (a b : F64) (hb : 0 < b.num) :
    ∃ (P : Int) (Q : Nat), F64.div a b = F64.round P Q ∧ 0 < Q ∧
      (P : ℚ) / Q = a.val / b.val ∧ (0 < a.num → 0 < P) ∧ (a.num = 0 → P = 0) := by
  refine ⟨a.num * 1 * 2 ^ (a.exp - b.exp).toNat, b.num.natAbs * 2 ^ (b.exp - a.exp).toNat,
    ?_, ?_, ?_, ?_, ?_⟩
  · unfold F64.div
    simp only [if_neg (by omega : ¬b.num < 0)]
  · have : 0 < b.num.natAbs := Int.natAbs_pos.2 (by omega)
    positivity
  · have hcast : ((b.num.natAbs : ℕ) : ℚ) = (b.num : ℚ) := by
      rw [Nat.cast_natAbs, abs_of_pos hb]
    have hbq : (0 : ℚ) < b.num := by exact_mod_cast hb
    have h := two_pow_toNat_div (a.exp - b.exp)
    rw [neg_sub] at h
    unfold F64.val
    rw [show a.exp = (a.exp - b.exp) + b.exp by ring, zpow_add₀ (by norm_num), ← h]
    push_cast
    rw [hcast]
    simp only [sub_add_cancel]
    field_simp
    ring
  · intro ha
    positivity
  · intro ha
    simp [ha]

theorem F64.add_eq_round (a b : F64) :
    ∃ (P : Int) (Q : Nat), F64.add a b = F64.round P Q ∧ 0 < Q ∧
      (P : ℚ) / Q = a.val + b.val := by
  refine ⟨(a.num * 2 ^ (a.exp - min a.exp b.exp).toNat +
      b.num * 2 ^ (b.exp - min a.exp b.exp).toNat) * 2 ^ (min a.exp b.exp).toNat,
    2 ^ (-min a.exp b.exp).toNat, rfl, by positivity, ?_⟩
  have h := two_pow_toNat_div (min a.exp b.exp)
  have ha : ((2 : ℚ) ^ (a.exp - min a.exp b.exp).toNat) * 2 ^ (min a.exp b.exp) =
      2 ^ a.exp := by
    rw [← zpow_natCast, Int.toNat_of_nonneg (by omega), ← zpow_add₀ (by norm_num)]
    congr 1
    ring
  have hb : ((2 : ℚ) ^ (b.exp - min a.exp b.exp).toNat) * 2 ^ (min a.exp b.exp) =
      2 ^ b.exp := by
    rw [← zpow_natCast, Int.toNat_of_nonneg (by omega), ← zpow_add₀ (by norm_num)]
    congr 1
    ring
  unfold F64.val
  rw [← ha, ← hb, ← h]
  push_cast
  field_simp
  ring

theorem F64.toInt_eq (a : F64) (k : Int) (hn : 0 ≤ a.num) (hlo : (k : ℚ) ≤ a.val)
    (hhi : a.val < k + 1) : a.toInt = k := by
  unfold F64.toInt
  have hA : (0 : Int) ≤ a.num * 2 ^ a.exp.toNat := by positivity
  have hB : (0 : Int) < 2 ^ (-a.exp).toNat := by positivity
  have hBq : (0 : ℚ) < ((2 ^ (-a.exp).toNat : Int) : ℚ) := by exact_mod_cast hB
  rw [Int.tdiv_eq_ediv hA hB.le]
  have hval : a.val = ((a.num * 2 ^ a.exp.toNat : Int) : ℚ) / ((2 ^ (-a.exp).toNat : Int) : ℚ) := by
    unfold F64.val
    rw [← two_pow_toNat_div a.exp]
    push_cast
    ring
  rw [hval] at hlo hhi
  rw [le_div_iff₀ hBq] at hlo
  rw [div_lt_iff₀ hBq] at hhi
  have h1 : k * 2 ^ (-a.exp).toNat ≤ a.num * 2 ^ a.exp.toNat := by exact_mod_cast hlo
  have h2 : a.num * 2 ^ a.exp.toNat < (k + 1) * 2 ^ (-a.exp).toNat := by exact_mod_cast hhi
  apply le_antisymm
  · have := (Int.ediv_lt_iff_lt_mul hB).2 h2
    omega
  · exact (Int.le_ediv_iff_mul_le hB).2 h1

theorem fraction_bound (nsec : Int) (h0 : 0 ≤ nsec) (h1 : nsec < 1000000000) :
    0 ≤ (F64.div (F64.ofInt nsec) (F64.ofInt 1000000000)).num ∧
    0 ≤ (F64.div (F64.ofInt nsec) (F64.ofInt 1000000000)).val ∧
    (F64.div (F64.ofInt nsec) (F64.ofInt 1000000000)).val ≤ 1 - 1 / 2 ^ 30 - 1 / 2 ^ 40 := by
  obtain ⟨hNv, hNn⟩ := F64.ofInt_val nsec h0 (by omega)
  obtain ⟨hTv, hTn⟩ := F64.ofInt_val 1000000000 (by norm_num) (by norm_num)
  have hTpos : 0 < (F64.ofInt 1000000000).num := by
    rcases eq_or_lt_of_le hTn with h | h
    · unfold F64.val at hTv
      rw [← h] at hTv
      norm_num at hTv
    · exact h
  obtain ⟨P, Q, hdiv, hQ, hPQ, hpos, hzero⟩ :=
    F64.div_eq_round (F64.ofInt nsec) (F64.ofInt 1000000000) hTpos
  rw [hNv, hTv] at hPQ
  rw [hdiv]
  rcases eq_or_lt_of_le h0 with h | h
  · have hz : (F64.ofInt nsec).num = 0 := by
      rw [← h]
      rfl
    rw [hzero hz]
    simp only [F64.round, if_true, F64.val]
    norm_num
  · have hNpos : 0 < (F64.ofInt nsec).num := by
      rcases eq_or_lt_of_le hNn with h' | h'
      · unfold F64.val at hNv
        rw [← h'] at hNv
        have : (nsec : ℚ) = 0 := by simpa using hNv.symm
        have : nsec = 0 := by exact_mod_cast this
        omega
      · exact h'
    have hP := hpos hNpos
    obtain ⟨hn, he, -, -, hhi⟩ := F64.round_props P Q hP hQ
    rw [hPQ] at he hhi
    have hnq : (nsec : ℚ) ≤ 999999999 := by
      have : nsec ≤ 999999999 := by omega
      exact_mod_cast this
    have hy1 : (nsec : ℚ) / ((1000000000 : Int) : ℚ) < (2 : ℚ) ^ (0 : Int) := by
      rw [zpow_zero, div_lt_one (by norm_num)]
      push_cast
      linarith
    have hexp : (F64.round P Q).exp + 52 < 0 :=
      (zpow_lt_zpow_iff_right₀ (by norm_num : (1 : ℚ) < 2)).1 (lt_of_le_of_lt he hy1)
    have hg : (1 - 1 / 2 ^ 30 - 1 / 2 ^ 40 : ℚ) * 2 ^ (-(-40 : Int)) =
        ((2 ^ 40 - 2 ^ 10 - 1 : ℕ) : ℚ) := by
      rw [neg_neg, show ((40 : Int)) = ((40 : ℕ) : Int) by rfl, zpow_natCast]
      norm_num
    have hgrid := zpow_grid _ _ (-40) (F64.round P Q).exp (by omega) hg
    have hle : (nsec : ℚ) / ((1000000000 : Int) : ℚ) ≤ 1 - 1 / 2 ^ 30 - 1 / 2 ^ 40 := by
      rw [div_le_iff₀ (by norm_num)]
      push_cast
      have : (999999999 : ℚ) ≤ (1 - 1 / 2 ^ 30 - 1 / 2 ^ 40) * 1000000000 := by norm_num
      linarith
    refine ⟨hn, ?_, hhi _ _ hgrid hle⟩
    unfold F64.val
    have : (0 : ℚ) ≤ ((F64.round P Q).num : ℚ) := by exact_mod_cast hn
    positivity

theorem seconds_toInt (d : Int) (h0 : 0 ≤ d) (h1 : d < 2 ^ 24 * 1000000000) :
    (Duration.Seconds d).toInt = d / 1000000000 := by
  unfold Duration.Seconds
  simp only [Second]
  rw [Int.tdiv_eq_ediv h0 (by norm_num), Int.tmod_eq_emod h0 (by norm_num)]
  have hs0 : 0 ≤ d / 1000000000 := Int.ediv_nonneg h0 (by norm_num)
  have hs1 : d / 1000000000 < 2 ^ 24 := by
    rw [Int.ediv_lt_iff_lt_mul (by norm_num)]
    exact h1
  norm_num at hs1
  have hn0 : 0 ≤ d % 1000000000 := Int.emod_nonneg d (by norm_num)
  have hn1 : d % 1000000000 < 1000000000 := Int.emod_lt_of_pos d (by norm_num)
  generalize d / 1000000000 = sec at *
  generalize d % 1000000000 = nsec at *
  obtain ⟨hAv, hAn⟩ := F64.ofInt_val sec hs0 (by omega)
  obtain ⟨hBn, hB0, hB1⟩ := fraction_bound nsec hn0 hn1
  generalize F64.div (F64.ofInt nsec) (F64.ofInt 1000000000) = B at *
  obtain ⟨P, Q, hadd, hQ, hPQ⟩ := F64.add_eq_round (F64.ofInt sec) B
  rw [hAv] at hPQ
  rw [hadd]
  have hQq : (0 : ℚ) < Q := by exact_mod_cast hQ
  have hsq0 : (0 : ℚ) ≤ sec := by exact_mod_cast hs0
  have hsq1 : (sec : ℚ) ≤ 2 ^ 24 - 1 := by
    have : sec ≤ 2 ^ 24 - 1 := by omega
    exact_mod_cast this
  have hP0 : 0 ≤ P := by
    by_contra hneg
    have hPq : (P : ℚ) < 0 := by exact_mod_cast (not_le.1 hneg)
    have : (P : ℚ) / Q < 0 := div_neg_of_neg_of_pos hPq hQq
    linarith
  rcases eq_or_lt_of_le hP0 with hP | hP
  · rw [← hP] at hPQ ⊢
    have hsum : (sec : ℚ) + B.val = 0 := by
      rw [← hPQ]
      simp
    have hsec : (sec : ℚ) = 0 := by linarith
    have hsec0 : sec = 0 := by exact_mod_cast hsec
    rw [hsec0]
    rfl
  · obtain ⟨hn, he, hnear, hlo, -⟩ := F64.round_props P Q hP hQ
    rw [hPQ] at he hnear hlo
    have hx : (sec : ℚ) + B.val < (2 : ℚ) ^ (24 : Int) := by
      have e : (2 : ℚ) ^ (24 : Int) = (2 : ℚ) ^ (24 : ℕ) := zpow_natCast 2 24
      rw [e]
      have : (1 - 1 / 2 ^ 30 - 1 / 2 ^ 40 : ℚ) < 1 := by norm_num
      linarith
    have hexp : (F64.round P Q).exp + 52 < 24 :=
      (zpow_lt_zpow_iff_right₀ (by norm_num : (1 : ℚ) < 2)).1 (lt_of_le_of_lt he hx)
    have hg : (sec : ℚ) * 2 ^ (-(0 : Int)) = ((sec.toNat : ℕ) : ℚ) := by
      have h2 : ((sec.toNat : ℕ) : Int) = sec := Int.toNat_of_nonneg hs0
      have hq : (((sec.toNat : ℕ) : Int) : ℚ) = (sec : ℚ) := by rw [h2]
      simp only [neg_zero, zpow_zero, mul_one]
      exact hq.symm.trans (Int.cast_natCast _)
    have hgrid := zpow_grid (sec : ℚ) sec.toNat 0 (F64.round P Q).exp (by omega) hg
    have hlow := hlo _ _ hgrid (by linarith)
    have hpow : (2 : ℚ) ^ (F64.round P Q).exp ≤ (2 : ℚ) ^ (-29 : Int) :=
      zpow_le_zpow_right₀ (by norm_num) (by omega)
    have h29 : (2 : ℚ) ^ (-29 : Int) = 1 / 2 ^ 29 := by
      rw [zpow_neg, show ((29 : Int)) = ((29 : ℕ) : Int) by rfl, zpow_natCast, one_div]
    rw [h29] at hpow
    apply F64.toInt_eq _ _ hn hlow
    have : (1 - 1 / 2 ^ 30 - 1 / 2 ^ 40 : ℚ) + 1 / 2 ^ 29 / 2 < 1 := by norm_num
    linarith

/-! ## Closing of the session -/

theorem firstByID_mem (l : List RemoteSession) (o : RemoteSession)
    (h : firstByID l = some o) : o ∈ l := by
  induction l generalizing o with
  | nil => simp [firstByID] at h
  | cons r rest ih =>
    unfold firstByID at h
    cases hf : firstByID rest with
    | none =>
      rw [hf] at h
      simp only [Option.some.injEq] at h
      simp [h]
    | some t =>
      rw [hf] at h
      simp only at h
      split at h
      · simp only [Option.some.injEq] at h
        exact List.mem_cons_of_mem _ (ih _ (h ▸ hf))
      · simp only [Option.some.injEq] at h
        simp [h]

theorem GetOpenSession_mem (st : Storage) (dbErr : Bool) (o : RemoteSession)
    (h : GetOpenSession st dbErr = some o) : o ∈ st.sessions ∧ o.EndTime = none := by
  unfold GetOpenSession at h
  split at h
  · exact absurd h (by simp)
  · have hm := List.mem_filter.1 (firstByID_mem _ _ h)
    exact ⟨hm.1, by simpa using hm.2⟩

theorem Time.Sub_small (t v : Time) (h0 : v ≤ t) (h1 : t - v < 2 ^ 24 * 1000000000) :
    Time.Sub t v = t - v := by
  have key : ∀ x : Int, 0 ≤ x → x < 2 ^ 24 * 1000000000 →
      (if x > 2 ^ 63 - 1 then (2 ^ 63 - 1 : Int)
        else if x < -(2 ^ 63) then -(2 ^ 63) else x) = x := by
    intro x hx0 hx1
    norm_num at hx1
    rw [if_neg (by norm_num; omega), if_neg (by norm_num; omega)]
  exact key (t - v) (sub_nonneg.2 h0) h1

theorem handleRemoteEnd_sessions (d : Detector) (st : Storage) (env : Env)
    (o : RemoteSession) (ho : GetOpenSession st env.getOpenSessionErr = some o)
    (hu : env.updateSessionEndErr = false) :
    (handleRemoteEnd d st env).1.sessions =
      st.sessions.map fun r =>
        if r.ID == o.ID then
          { r with
            EndTime := some env.endNow
            Duration := (Duration.Seconds (Time.Sub env.endNow o.StartTime)).toInt }
        else r := by
  rw [handleRemoteEnd_some d st env o ho, hu]
  rfl

/-- C12 (as the code has it): on a transition from Active to Inactive in which
`GetOpenSession` returns the open session `o` and `UpdateSessionEnd` succeeds, the rows
of `o` get the current time as `EndTime` and, when that time is not before the start and
less than 2^24 seconds after it, the whole seconds between them, rounded down, as
`Duration`; every other row is left as it was. -/
theorem session_closed (d : Detector) (st : Storage) (env : Env)
    (sessionSignals portSignals : List Signal) (o : RemoteSession)
    (hl : d.lastState = true)
    (ho : GetOpenSession st env.getOpenSessionErr = some o)
    (hu : env.updateSessionEndErr = false)
    (h0 : o.StartTime ≤ env.endNow)
    (h1 : env.endNow - o.StartTime < 2 ^ 24 * 1000000000) :
    (detectFrom d st env [] sessionSignals portSignals).2.1.sessions =
      (st.sessions.map fun r =>
        if r.ID == o.ID then
          { r with
            EndTime := some env.endNow
            Duration := (env.endNow - o.StartTime) / 1000000000 }
        else r) ∧
    o ∈ st.sessions ∧ o.EndTime = none ∧
    { o with EndTime := some env.endNow, Duration := (env.endNow - o.StartTime) / 1000000000 } ∈
      (detectFrom d st env [] sessionSignals portSignals).2.1.sessions := by
  have hs : (detectFrom d st env [] sessionSignals portSignals).2.1.sessions =
      st.sessions.map fun r =>
        if r.ID == o.ID then
          { r with
            EndTime := some env.endNow
            Duration := (env.endNow - o.StartTime) / 1000000000 }
        else r := by
    rw [detectFrom_end d st env sessionSignals portSignals hl]
    show (handleRemoteEnd _ st env).1.sessions = _
    rw [handleRemoteEnd_sessions _ st env o ho hu, Time.Sub_small _ _ h0 h1,
      seconds_toInt _ (sub_nonneg.2 h0) h1]
  obtain ⟨hm, he⟩ := GetOpenSession_mem st _ o ho
  refine ⟨hs, hm, he, ?_⟩
  rw [hs]
  refine List.mem_map.2 ⟨o, hm, ?_⟩
  simp

/-- C12 does not hold as stated: when `GetOpenSession` fails the open session stays
open, and a session closed 16777216.999999999 seconds after its start is stored with a
`Duration` of 16777217 seconds. -/
theorem close_not_recorded :
    (detectFrom activeDetector staleStore failingEnv [] [] []).2.1 = staleStore ∧
    (detectFrom activeDetector openStore (closingEnv 16777216999999999) [] [] []).2.1.sessions =
      [{ ID := "open", StartTime := 0, EndTime := some 16777216999999999,
         Duration := 16777217, Signals := "ToDesk (命令行参数)", Confidence := 1 }] ∧
    ((16777216999999999 : Int) - 0) / 1000000000 = 16777216 := by
  decide

theorem session_closed_witness :
    (detectFrom activeDetector openStore (closingEnv 16777215999999999) [] [] []).2.1.sessions =
      [{ ID := "open", StartTime := 0, EndTime := some 16777215999999999,
         Duration := 16777215, Signals := "ToDesk (命令行参数)", Confidence := 1 }] :=
  (session_closed activeDetector openStore (closingEnv 16777215999999999) [] []
    { ID := "open", StartTime := 0, Signals := "ToDesk (命令行参数)", Confidence := 1 }
    rfl (by decide) rfl (by decide) (by decide)).1

/-! ## The end-to-end scenario -/

theorem handleRemoteStart_sessions (d : Detector) (st : Storage) (env : Env)
    (signals : List Signal) :
    (handleRemoteStart d st env signals).1.sessions =
      if (env.saveSessionErr || st.sessions.any fun r => r.ID == env.uuid 0) = true then
        st.sessions
      else st.sessions ++ [newSession d env signals] := by
  unfold handleRemoteStart
  simp only [SaveSession_new]
  split <;> split <;> simp_all [rawSignalLoop_sessions]

/-- C20 (as the code has it): from a new detector with an empty store, cycle 1 with zero
signals leaves the state Inactive and stores nothing; cycle 2 with one remote-tool signal
makes the state Active and stores exactly one session, without `EndTime`, starting at the
time of cycle 2; cycle 3 with zero signals, run `P` after cycle 2, makes the state
Inactive and closes that session with the whole seconds of one period `P` as `Duration`,
for `P` under 2^24 seconds and a store that accepts the operations. -/
theorem three_cycles (notifier : Bool) (t0 : Time) (env1 env2 env3 : Env) (s : Signal)
    (P : Int) (h2 : env2.saveSessionErr = false) (h3 : env3.getOpenSessionErr = false)
    (h4 : env3.updateSessionEndErr = false) (hP0 : 0 ≤ P) (hP1 : P < 2 ^ 24 * 1000000000)
    (hnow : env3.now = env2.now + P) (hend : env3.endNow = env3.now) :
    (threeCycles notifier t0 env1 env2 env3 s).1.1.lastState = false ∧
    (threeCycles notifier t0 env1 env2 env3 s).1.2.1.sessions = [] ∧
    (threeCycles notifier t0 env1 env2 env3 s).1.2.2 = [] ∧
    (threeCycles notifier t0 env1 env2 env3 s).2.1.1.lastState = true ∧
    (threeCycles notifier t0 env1 env2 env3 s).2.1.2.1.sessions = [createdSession env2 s] ∧
    (createdSession env2 s).EndTime = none ∧
    (threeCycles notifier t0 env1 env2 env3 s).2.2.1.lastState = false ∧
    (threeCycles notifier t0 env1 env2 env3 s).2.2.2.1.sessions =
      [{ createdSession env2 s with
         EndTime := some (env2.now + P)
         Duration := P / 1000000000 }] := by
  have e1 : detectFrom (NewDetector notifier t0) {} env1 [] DetectSessions DetectRDPPorts =
      ({ NewDetector notifier t0 with signals := [] ++ DetectSessions ++ DetectRDPPorts },
        {}, []) :=
    detectFrom_same _ _ _ _ _ _ rfl
  obtain ⟨d1, hd1⟩ : ∃ d1 : Detector, d1 =
      { NewDetector notifier t0 with signals := [] ++ DetectSessions ++ DetectRDPPorts } :=
    ⟨_, rfl⟩
  have hl1 : d1.lastState = false := by rw [hd1]; rfl
  obtain ⟨d2, hd2⟩ : ∃ d2 : Detector, d2 =
      { d1 with signals := [s] ++ DetectSessions ++ DetectRDPPorts, lastChange := env2.now,
                lastState := true } := ⟨_, rfl⟩
  have e2 : detectFrom d1 {} env2 [s] DetectSessions DetectRDPPorts =
      (d2, handleRemoteStart d2 {} env2 ([s] ++ DetectSessions ++ DetectRDPPorts)) := by
    rw [hd2]
    exact detectFrom_start d1 {} env2 [s] _ _ hl1 (by simp)
  have hl2 : d2.lastState = true := by rw [hd2]
  have hs2 : (handleRemoteStart d2 {} env2 ([s] ++ DetectSessions ++ DetectRDPPorts)).1.sessions =
      [createdSession env2 s] := by
    rw [handleRemoteStart_sessions, h2, hd2]
    rfl
  obtain ⟨st2, hst2⟩ : ∃ st2 : Storage, st2 =
      (handleRemoteStart d2 {} env2 ([s] ++ DetectSessions ++ DetectRDPPorts)).1 := ⟨_, rfl⟩
  rw [← hst2] at hs2
  obtain ⟨d3, hd3⟩ : ∃ d3 : Detector, d3 =
      { d2 with signals := DetectSessions ++ DetectRDPPorts, lastChange := env3.now,
                lastState := false } := ⟨_, rfl⟩
  have e3 : detectFrom d2 st2 env3 [] DetectSessions DetectRDPPorts =
      (d3, handleRemoteEnd d3 st2 env3) := by
    rw [hd3]
    exact detectFrom_end d2 st2 env3 _ _ hl2
  have ho : GetOpenSession st2 env3.getOpenSessionErr = some (createdSession env2 s) := by
    unfold GetOpenSession
    rw [h3, hs2]
    rfl
  have hs3 : (handleRemoteEnd d3 st2 env3).1.sessions =
      [{ createdSession env2 s with
         EndTime := some (env2.now + P)
         Duration := P / 1000000000 }] := by
    have hsub : env3.endNow - (createdSession env2 s).StartTime = P := by
      rw [hend, hnow]
      show env2.now + P - env2.now = P
      ring
    have hle : (createdSession env2 s).StartTime ≤ env3.endNow := by
      rw [hend, hnow]
      show env2.now ≤ env2.now + P
      exact le_add_of_nonneg_right hP0
    rw [handleRemoteEnd_sessions d3 st2 env3 _ ho h4,
      Time.Sub_small _ _ hle (by rw [hsub]; exact hP1), hsub, seconds_toInt P hP0 hP1, hs2,
      hend, hnow]
    simp
  have hc1 : (threeCycles notifier t0 env1 env2 env3 s).1 = (d1, {}, []) := by
    rw [hd1, ← e1]
    rfl
  have hc2 : (threeCycles notifier t0 env1 env2 env3 s).2.1 =
      (d2, st2, (handleRemoteStart d2 {} env2 ([s] ++ DetectSessions ++ DetectRDPPorts)).2) := by
    show detectFrom (threeCycles notifier t0 env1 env2 env3 s).1.1
      (threeCycles notifier t0 env1 env2 env3 s).1.2.1 env2 [s] DetectSessions DetectRDPPorts = _
    rw [hc1, hst2]
    exact e2
  have hc3 : (threeCycles notifier t0 env1 env2 env3 s).2.2 = (d3, handleRemoteEnd d3 st2 env3) := by
    show detectFrom (threeCycles notifier t0 env1 env2 env3 s).2.1.1
      (threeCycles notifier t0 env1 env2 env3 s).2.1.2.1 env3 [] DetectSessions DetectRDPPorts = _
    rw [hc2]
    exact e3
  rw [hc1, hc2, hc3]
  refine ⟨hl1, rfl, rfl, hl2, hs2, rfl, ?_, hs3⟩
  rw [hd3]

/-- C20 does not hold as stated: with cycles 5 seconds apart the session created in
cycle 2 is closed in cycle 3 with a `Duration` of 5 seconds, one period, not 10. -/
theorem one_period_duration :
    ((threeCycles true 0 (cycleEnv 5000000000) (cycleEnv 10000000000)
        (cycleEnv 15000000000) todeskSignal).2.2.2.1.sessions.map
      fun r => (r.StartTime, r.EndTime, r.Duration)) =
      [(10000000000, some 15000000000, 5)] ∧
    (5 : Int) ≠ 2 * 5 := by
  decide

theorem three_cycles_witness :
    (threeCycles true 0 (cycleEnv 5000000000) (cycleEnv 10000000000)
        (cycleEnv 15000000000) todeskSignal).2.2.2.1.sessions =
      [{ createdSession (cycleEnv 10000000000) todeskSignal with
         EndTime := some (10000000000 + 5000000000)
         Duration := 5000000000 / 1000000000 }] :=
  (three_cycles true 0 (cycleEnv 5000000000) (cycleEnv 10000000000)
    (cycleEnv 15000000000) todeskSignal 5000000000 rfl rfl rfl (by decide) (by decide)
    (by decide) rfl).2.2.2.2.2.2.2

/-! ## The invariant of the open session -/

theorem firstByID_isSome (l : List RemoteSession) (h : l ≠ []) :
    ∃ o, firstByID l = some o := by
  cases l with
  | nil => exact absurd rfl h
  | cons r rest =>
    unfold firstByID
    cases firstByID rest with
    | none => exact ⟨r, rfl⟩
    | some t =>
      simp only
      split
      · exact ⟨t, rfl⟩
      · exact ⟨r, rfl⟩

theorem handleRemoteStart_opens (d : Detector) (st : Storage) (env : Env)
    (signals : List Signal) (he : env.saveSessionErr = false)
    (hid : ∀ x ∈ st.sessions, x.ID ≠ env.uuid 0) :
    openCount (handleRemoteStart d st env signals).1 = openCount st + 1 := by
  have hany : (st.sessions.any fun r => r.ID == env.uuid 0) = false := by
    rw [List.any_eq_false]
    intro x hx
    simpa using hid x hx
  unfold openCount
  rw [handleRemoteStart_sessions, he, hany]
  simp [newSession, RemoteSession.IsActive]

theorem handleRemoteEnd_closes (d : Detector) (st : Storage) (env : Env)
    (hg : env.getOpenSessionErr = false) (hu : env.updateSessionEndErr = false)
    (h1 : openCount st = 1) :
    openCount (handleRemoteEnd d st env).1 = 0 := by
  have hne : (st.sessions.filter fun r => r.EndTime.isNone) ≠ [] := by
    intro hnil
    unfold openCount at h1
    have : (st.sessions.filter fun r => r.IsActive) = [] := hnil
    rw [this] at h1
    simp at h1
  obtain ⟨o, ho⟩ := firstByID_isSome _ hne
  have hget : GetOpenSession st env.getOpenSessionErr = some o := by
    unfold GetOpenSession
    rw [hg]
    exact ho
  obtain ⟨hmem, hopen⟩ := GetOpenSession_mem st _ o hget
  have hsingle : (st.sessions.filter fun r => r.IsActive) = [o] := by
    unfold openCount at h1
    obtain ⟨a, ha⟩ := List.length_eq_one.1 h1
    have hin : o ∈ st.sessions.filter fun r => r.IsActive :=
      List.mem_filter.2 ⟨hmem, by simp [RemoteSession.IsActive, hopen]⟩
    rw [ha] at hin ⊢
    simp at hin
    rw [hin]
  unfold openCount
  rw [handleRemoteEnd_sessions d st env o hget hu, List.length_eq_zero, List.filter_eq_nil_iff]
  intro r hr
  obtain ⟨x, hx, rfl⟩ := List.mem_map.1 hr
  by_cases hid : (x.ID == o.ID) = true
  · simp [hid, RemoteSession.IsActive]
  · simp only [hid, if_false, Bool.false_eq_true]
    intro hact
    have hin : x ∈ st.sessions.filter fun r => r.IsActive := List.mem_filter.2 ⟨hx, hact⟩
    rw [hsingle] at hin
    simp at hin
    rw [hin] at hid
    simp at hid

theorem detectFrom_openCount (d : Detector) (st : Storage) (env : Env)
    (r sessionSignals portSignals : List Signal)
    (hinv : openCount st = if d.lastState = true then 1 else 0)
    (hstart : d.lastState = false → r ≠ [] →
      env.saveSessionErr = false ∧ ∀ x ∈ st.sessions, x.ID ≠ env.uuid 0)
    (hend : d.lastState = true → r = [] →
      env.getOpenSessionErr = false ∧ env.updateSessionEndErr = false) :
    openCount (detectFrom d st env r sessionSignals portSignals).2.1 =
      if (detectFrom d st env r sessionSignals portSignals).1.lastState = true then 1
      else 0 := by
  by_cases hsame : decide (r.length > 0) = d.lastState
  · rw [detectFrom_same _ _ _ _ _ _ hsame]
    exact hinv
  · cases hl : d.lastState with
    | false =>
      have hr : r ≠ [] := by
        intro hnil
        apply hsame
        rw [hl, hnil]
        rfl
      obtain ⟨he, hid⟩ := hstart hl hr
      rw [detectFrom_start _ _ _ _ _ _ hl hr]
      rw [hl] at hinv
      simp only [if_true]
      rw [handleRemoteStart_opens _ _ _ _ he hid, hinv]
      simp
    | true =>
      have hr : r = [] := by
        by_contra hne
        apply hsame
        rw [hl]
        simpa using List.length_pos.2 hne
      obtain ⟨hg, hu⟩ := hend hl hr
      subst hr
      rw [detectFrom_end _ _ _ _ _ hl]
      rw [hl] at hinv
      simp only [Bool.false_eq_true, if_false]
      exact handleRemoteEnd_closes _ _ _ hg hu (by simpa using hinv)

theorem statesFrom_openCount (cycles : List (Env × List Signal)) :
    ∀ (d : Detector) (st : Storage),
      (openCount st = if d.lastState = true then 1 else 0) →
      storageSucceeds d st cycles →
      ∀ c ∈ statesFrom d st cycles, openCount c.2 = if c.1.lastState = true then 1 else 0 := by
  induction cycles with
  | nil =>
    intro d st _ _ c hc
    simp [statesFrom] at hc
  | cons cycle rest ih =>
    intro d st hinv hs c hc
    obtain ⟨env, r⟩ := cycle
    obtain ⟨h1, h2, h3⟩ := hs
    have hstep := detectFrom_openCount d st env r DetectSessions DetectRDPPorts hinv h1 h2
    simp only [statesFrom, List.mem_cons] at hc
    rcases hc with hc | hc
    · rw [hc]
      exact hstep
    · exact ih _ _ hstep h3 c hc

theorem statesFrom_length (cycles : List (Env × List Signal)) :
    ∀ (d : Detector) (st : Storage), (statesFrom d st cycles).length = cycles.length := by
  induction cycles with
  | nil => intro d st; rfl
  | cons cycle rest ih =>
    intro d st
    obtain ⟨env, r⟩ := cycle
    simp only [statesFrom, List.length_cons, add_left_inj]
    exact ih _ _

/-- C21: from a new detector and a store without open session, and with every storage
operation of the cycles succeeding, after every cycle of any sequence of cycles the store
holds exactly one session without `EndTime` when the state is Active and none when the
state is Inactive. -/
theorem open_session_tracks_state (notifier : Bool) (t0 : Time) (st : Storage)
    (cycles : List (Env × List Signal)) (h0 : openCount st = 0)
    (hs : storageSucceeds (NewDetector notifier t0) st cycles) :
    (statesFrom (NewDetector notifier t0) st cycles).length = cycles.length ∧
    ∀ c ∈ statesFrom (NewDetector notifier t0) st cycles,
      (c.1.lastState = true → openCount c.2 = 1) ∧
      (c.1.lastState = false → openCount c.2 = 0) := by
  refine ⟨?_, ?_⟩
  · exact statesFrom_length cycles _ _
  · intro c hc
    have h := statesFrom_openCount cycles (NewDetector notifier t0) st
      (by rw [h0]; rfl) hs c hc
    constructor
    · intro hl
      rw [h, if_pos hl]
    · intro hl
      rw [h, if_neg (by simp [hl])]

theorem open_session_tracks_state_witness :
    storageSucceeds (NewDetector true 0) {} fiveCycles ∧
    ∀ c ∈ statesFrom (NewDetector true 0) {} fiveCycles,
      (c.1.lastState = true → openCount c.2 = 1) ∧
      (c.1.lastState = false → openCount c.2 = 0) :=
  ⟨by decide, (open_session_tracks_state true 0 {} fiveCycles rfl (by decide)).2⟩

/-! ## Independence of the cache at entry -/

theorem toolsLoop_append (u : Unicode) (os : OS) (pre post : List RemoteTool) :
    ∀ (d : WindowsDetector) (signals : List Signal),
      toolsLoop u os (pre ++ post) d signals =
        toolsLoop u os post (toolsLoop u os pre d signals).2
          (toolsLoop u os pre d signals).1 := by
  induction pre with
  | nil => intro d signals; rfl
  | cons tool rest ih =>
    intro d signals
    simp only [List.cons_append, toolsLoop]
    split
    · exact ih _ _
    · split
      · exact ih _ _
      · exact ih _ _

theorem toolsLoop_fresh (u : Unicode) (os : OS) (tools : List RemoteTool) :
    ∀ (d : WindowsDetector) (signals : List Signal), CacheFresh u os d →
      CacheFresh u os (toolsLoop u os tools d signals).2 := by
  induction tools with
  | nil => intro d signals h; exact h
  | cons tool rest ih =>
    intro d signals h
    unfold toolsLoop
    split
    · exact ih _ _ (findProcessesByName_fresh u os d tool.ProcessName h).2
    · split
      · exact ih _ _ h
      · exact ih _ _ h

theorem findProcessesByName_time (u : Unicode) (os : OS) (d : WindowsDetector)
    (processName : String)
    (h : (∀ k, d.processCache k = none) ∨ d.processCacheTime = os.now) :
    (∀ k, (findProcessesByName u d os processName).2.processCache k = none) ∨
      (findProcessesByName u d os processName).2.processCacheTime = os.now := by
  unfold findProcessesByName
  simp only
  split
  · exact h
  · cases os.snapshot with
    | none => exact h
    | some entries =>
      cases entries with
      | nil => exact h
      | cons first rest => exact Or.inr rfl

theorem toolsLoop_time (u : Unicode) (os : OS) (tools : List RemoteTool) :
    ∀ (d : WindowsDetector) (signals : List Signal),
      ((∀ k, d.processCache k = none) ∨ d.processCacheTime = os.now) →
      ((∀ k, (toolsLoop u os tools d signals).2.processCache k = none) ∨
        (toolsLoop u os tools d signals).2.processCacheTime = os.now) := by
  induction tools with
  | nil => intro d signals h; exact h
  | cons tool rest ih =>
    intro d signals h
    unfold toolsLoop
    split
    · exact ih _ _ (findProcessesByName_time u os d tool.ProcessName h)
    · split
      · exact ih _ _ h
      · exact ih _ _ h

/-- C22: `DetectRemoteTools` empties the cache before its first lookup, so its signals
are the same from any two detectors, whatever their caches, fill times and lifetimes,
under the same observations of the cycle: each rule is evaluated on the list that a
snapshot of this cycle resolves, which is what every lookup of the loop returns; the
lists left in the cache are of this cycle too, with the time of the cycle as fill
time. -/
theorem cache_cleared_first (u : Unicode) (d1 d2 : WindowsDetector) (os : OS)
    (tools : List RemoteTool) :
    (DetectRemoteTools u d1 os).1 = (DetectRemoteTools u d2 os).1 ∧
    (detectRemoteToolsIn tools u d1 os).1 = (detectRemoteToolsIn tools u d2 os).1 ∧
    (∀ name, (clearCache d1).processCache name = none) ∧
    (detectRemoteToolsIn tools u d1 os).1 =
      (tools.filterMap fun tool => detectTool u os tool (candidates u os tool)) ∧
    (∀ (pre post : List RemoteTool) (tool : RemoteTool), tool.ProcessName ≠ "" →
      detectRemoteToolsIn (pre ++ tool :: post) u d1 os =
        toolsLoop u os post
          (findProcessesByName u (detectRemoteToolsIn pre u d1 os).2 os tool.ProcessName).2
          ((detectRemoteToolsIn pre u d1 os).1 ++
            (detectTool u os tool
              (findProcessesByName u (detectRemoteToolsIn pre u d1 os).2 os
                tool.ProcessName).1).toList) ∧
      (findProcessesByName u (detectRemoteToolsIn pre u d1 os).2 os tool.ProcessName).1 =
        freshProcesses u os tool.ProcessName) ∧
    (∀ name l, (detectRemoteToolsIn tools u d1 os).2.processCache name = some l →
      l = freshProcesses u os name ∧
        (detectRemoteToolsIn tools u d1 os).2.processCacheTime = os.now) := by
  refine ⟨?_, ?_, fun _ => rfl, detectRemoteToolsIn_eq tools u d1 os, ?_, ?_⟩
  · unfold DetectRemoteTools
    rw [detectRemoteToolsIn_eq, detectRemoteToolsIn_eq]
  · rw [detectRemoteToolsIn_eq, detectRemoteToolsIn_eq]
  · intro pre post tool hn
    have hfresh : CacheFresh u os (detectRemoteToolsIn pre u d1 os).2 :=
      toolsLoop_fresh u os pre _ _ (CacheFresh_clearCache u os d1)
    refine ⟨?_, (findProcessesByName_fresh u os _ tool.ProcessName hfresh).1⟩
    unfold detectRemoteToolsIn
    rw [toolsLoop_append]
    conv_lhs => unfold toolsLoop
    simp [hn]
  · intro name l hl
    have hfresh : CacheFresh u os (detectRemoteToolsIn tools u d1 os).2 :=
      toolsLoop_fresh u os tools _ _ (CacheFresh_clearCache u os d1)
    refine ⟨hfresh name l hl, ?_⟩
    rcases toolsLoop_time u os tools (clearCache d1) [] (Or.inl fun _ => rfl) with h | h
    · have hnone := h name
      unfold detectRemoteToolsIn at hl
      rw [hnone] at hl
      exact absurd hl (by simp)
    · exact h

theorem cache_cleared_first_witness :
    (DetectRemoteTools Unicode.ascii staleDetector todeskOS).1 =
      (DetectRemoteTools Unicode.ascii NewWindowsDetector todeskOS).1 ∧
    staleDetector.processCache "todesk.exe" = some [{ Pid := 999 }] ∧
    (findProcessesByName Unicode.ascii (detectRemoteToolsIn [] Unicode.ascii staleDetector
        todeskOS).2 todeskOS todeskTool.ProcessName).1 = [{ Pid := 1234 }] :=
  ⟨(cache_cleared_first Unicode.ascii staleDetector NewWindowsDetector todeskOS []).1,
    rfl,
    ((cache_cleared_first Unicode.ascii staleDetector NewWindowsDetector todeskOS
      []).2.2.2.2.1 [] [] todeskTool (by decide)).2.trans (by decide)⟩

/-! ## Stale entries of the cache -/

/-- C23: the cache keeps one fill time, which every fill sets, and a fill for one name
leaves the entries of other names in place: after a lookup of `a` filled the cache from
the snapshot of `os1` and a later lookup of another name `b` filled it from `os2`, a
lookup of `a` made within the lifetime after the second fill returns the list resolved
from `os1`, leaves the detector as it is and does not depend on the snapshot of `os3`,
however long after the first lookup it is made. -/
theorem stale_cache_hit (u : Unicode) (d : WindowsDetector) (os1 os2 os3 : OS)
    (a b : String) (first1 first2 : ProcessEntry32) (rest1 rest2 : List ProcessEntry32)
    (hab : b ≠ a)
    (hs1 : os1.snapshot = some (first1 :: rest1))
    (hs2 : os2.snapshot = some (first2 :: rest2))
    (hm1 : d.processCache a = none ∨ ¬ Time.Sub os1.now d.processCacheTime < d.cacheDuration)
    (hm2 : d.processCache b = none ∨ ¬ Time.Sub os2.now os1.now < d.cacheDuration)
    (hage : Time.Sub os3.now os2.now < d.cacheDuration) :
    (findProcessesByName u d os1 a).1 = snapshotLoop u os1 a (first1 :: rest1) ∧
    (findProcessesByName u (findProcessesByName u d os1 a).2 os2 b).2.processCacheTime =
      os2.now ∧
    findProcessesByName u (findProcessesByName u (findProcessesByName u d os1 a).2 os2 b).2
        os3 a =
      (snapshotLoop u os1 a (first1 :: rest1),
        (findProcessesByName u (findProcessesByName u d os1 a).2 os2 b).2) := by
  have e1 := findProcessesByName_miss u d os1 a hm1
  rw [hs1] at e1
  simp only at e1
  rw [e1]
  have hm2' : ({ d with
        processCache := fun k =>
          if k = a then some (snapshotLoop u os1 a (first1 :: rest1)) else d.processCache k
        processCacheTime := os1.now } : WindowsDetector).processCache b = none ∨
      ¬ Time.Sub os2.now ({ d with
        processCache := fun k =>
          if k = a then some (snapshotLoop u os1 a (first1 :: rest1)) else d.processCache k
        processCacheTime := os1.now } : WindowsDetector).processCacheTime <
        ({ d with
        processCache := fun k =>
          if k = a then some (snapshotLoop u os1 a (first1 :: rest1)) else d.processCache k
        processCacheTime := os1.now } : WindowsDetector).cacheDuration := by
    rcases hm2 with h | h
    · left
      simp [hab, h]
    · right
      exact h
  have e2 := findProcessesByName_miss u _ os2 b hm2'
  rw [hs2] at e2
  simp only at e2
  rw [e2]
  refine ⟨rfl, rfl, ?_⟩
  apply findProcessesByName_hit
  · simp [Ne.symm hab]
  · exact hage

theorem stale_cache_hit_witness :
    (findProcessesByName Unicode.ascii
        (findProcessesByName Unicode.ascii
          (findProcessesByName Unicode.ascii NewWindowsDetector (todeskAt 0) "todesk.exe").2
          (todeskAt 2900000000) "AweSun.exe").2
        (idleAt 4000000000) "todesk.exe").1 = [{ Pid := 1234 }] ∧
    freshProcesses Unicode.ascii (idleAt 4000000000) "todesk.exe" = [] ∧
    ¬ Time.Sub (idleAt 4000000000).now (todeskAt 0).now < NewWindowsDetector.cacheDuration :=
  ⟨(congrArg Prod.fst
      (stale_cache_hit Unicode.ascii NewWindowsDetector (todeskAt 0) (todeskAt 2900000000)
        (idleAt 4000000000) "todesk.exe" "AweSun.exe" _ _ _ _ (by decide) rfl rfl
        (Or.inl rfl) (Or.inl rfl) (by decide)).2.2).trans (by decide),
    by decide, by decide⟩

/-! ## Whole units of a duration -/

theorem fraction_le (U nsec : Int) (G : ℚ) (j : ℕ) (hU0 : 0 < U) (hU1 : U < 2 ^ 53)
    (hj : G * 2 ^ (-(-53 : Int)) = j) (hG : ((U : ℚ) - 1) / U ≤ G)
    (h0 : 0 ≤ nsec) (h1 : nsec < U) :
    0 ≤ (F64.div (F64.ofInt nsec) (F64.ofInt U)).num ∧
    0 ≤ (F64.div (F64.ofInt nsec) (F64.ofInt U)).val ∧
    (F64.div (F64.ofInt nsec) (F64.ofInt U)).val ≤ G := by
  have hUq : (0 : ℚ) < U := by exact_mod_cast hU0
  have hG0 : 0 ≤ G := le_trans (div_nonneg (by
    have : (1 : ℚ) ≤ U := by exact_mod_cast hU0
    linarith) hUq.le) hG
  obtain ⟨hNv, hNn⟩ := F64.ofInt_val nsec h0 (by omega)
  obtain ⟨hTv, hTn⟩ := F64.ofInt_val U hU0.le hU1
  have hTpos : 0 < (F64.ofInt U).num := by
    rcases eq_or_lt_of_le hTn with h | h
    · unfold F64.val at hTv
      rw [← h] at hTv
      simp at hTv
      linarith
    · exact h
  obtain ⟨P, Q, hdiv, hQ, hPQ, hpos, hzero⟩ :=
    F64.div_eq_round (F64.ofInt nsec) (F64.ofInt U) hTpos
  rw [hNv, hTv] at hPQ
  rw [hdiv]
  rcases eq_or_lt_of_le h0 with h | h
  · have hz : (F64.ofInt nsec).num = 0 := by
      rw [← h]
      rfl
    rw [hzero hz]
    simp only [F64.round, if_true, F64.val]
    simpa using hG0
  · have hNpos : 0 < (F64.ofInt nsec).num := by
      rcases eq_or_lt_of_le hNn with h' | h'
      · unfold F64.val at hNv
        rw [← h'] at hNv
        have : (nsec : ℚ) = 0 := by simpa using hNv.symm
        have : nsec = 0 := by exact_mod_cast this
        omega
      · exact h'
    have hP := hpos hNpos
    obtain ⟨hn, he, -, -, hhi⟩ := F64.round_props P Q hP hQ
    rw [hPQ] at he hhi
    have hnq : (nsec : ℚ) ≤ U - 1 := by
      have : nsec ≤ U - 1 := by omega
      exact_mod_cast this
    have hy1 : (nsec : ℚ) / (U : ℚ) < (2 : ℚ) ^ (0 : Int) := by
      rw [zpow_zero, div_lt_one hUq]
      linarith
    have hexp : (F64.round P Q).exp + 52 < 0 :=
      (zpow_lt_zpow_iff_right₀ (by norm_num : (1 : ℚ) < 2)).1 (lt_of_le_of_lt he hy1)
    have hgrid := zpow_grid _ _ (-53) (F64.round P Q).exp (by omega) hj
    have hle : (nsec : ℚ) / (U : ℚ) ≤ G :=
      le_trans (div_le_div_of_nonneg_right hnq hUq.le) hG
    refine ⟨hn, ?_, hhi _ _ hgrid hle⟩
    unfold F64.val
    have : (0 : ℚ) ≤ ((F64.round P Q).num : ℚ) := by exact_mod_cast hn
    positivity

theorem unit_toInt (U : Int) (K : ℕ) (G H : ℚ) (j : ℕ) (hU0 : 0 < U) (hU1 : U < 2 ^ 53)
    (hK : K ≤ 53) (hj : G * 2 ^ (-(-53 : Int)) = j) (hG : ((U : ℚ) - 1) / U ≤ G)
    (hH : (2 : ℚ) ^ ((K : Int) - 53) ≤ 2 * H) (hGH : G + H < 1)
    (d : Int) (h0 : 0 ≤ d) (h1 : d < 2 ^ K * U) :
    (F64.add (F64.ofInt (d / U)) (F64.div (F64.ofInt (d % U)) (F64.ofInt U))).toInt =
      d / U := by
  have hs0 : 0 ≤ d / U := Int.ediv_nonneg h0 hU0.le
  have hs1 : d / U < 2 ^ K := by
    rw [Int.ediv_lt_iff_lt_mul hU0]
    exact h1
  have hn0 : 0 ≤ d % U := Int.emod_nonneg d (by omega)
  have hn1 : d % U < U := Int.emod_lt_of_pos d hU0
  generalize d / U = sec at *
  generalize d % U = nsec at *
  have hpow : (2 : Int) ^ K ≤ 2 ^ 53 := pow_le_pow_right₀ (by norm_num) hK
  obtain ⟨hAv, hAn⟩ := F64.ofInt_val sec hs0 (lt_of_lt_of_le hs1 hpow)
  obtain ⟨hBn, hB0, hB1⟩ := fraction_le U nsec G j hU0 hU1 hj hG hn0 hn1
  generalize F64.div (F64.ofInt nsec) (F64.ofInt U) = B at *
  obtain ⟨P, Q, hadd, hQ, hPQ⟩ := F64.add_eq_round (F64.ofInt sec) B
  rw [hAv] at hPQ
  rw [hadd]
  have hQq : (0 : ℚ) < Q := by exact_mod_cast hQ
  have hsq0 : (0 : ℚ) ≤ sec := by exact_mod_cast hs0
  have hsq1 : (sec : ℚ) + 1 ≤ 2 ^ K := by
    have : sec + 1 ≤ 2 ^ K := hs1
    exact_mod_cast this
  have hH0 : 0 < H := by
    have : (0 : ℚ) < (2 : ℚ) ^ ((K : Int) - 53) := by positivity
    linarith
  have hP0 : 0 ≤ P := by
    by_contra hneg
    have hPq : (P : ℚ) < 0 := by exact_mod_cast (not_le.1 hneg)
    have : (P : ℚ) / Q < 0 := div_neg_of_neg_of_pos hPq hQq
    linarith
  rcases eq_or_lt_of_le hP0 with hP | hP
  · rw [← hP] at hPQ ⊢
    have hsum : (sec : ℚ) + B.val = 0 := by
      rw [← hPQ]
      simp
    have hsec : (sec : ℚ) = 0 := by linarith
    have hsec0 : sec = 0 := by exact_mod_cast hsec
    rw [hsec0]
    rfl
  · obtain ⟨hn, he, hnear, hlo, -⟩ := F64.round_props P Q hP hQ
    rw [hPQ] at he hnear hlo
    have hx : (sec : ℚ) + B.val < (2 : ℚ) ^ (K : Int) := by
      rw [zpow_natCast]
      linarith
    have hexp : (F64.round P Q).exp + 52 < K :=
      (zpow_lt_zpow_iff_right₀ (by norm_num : (1 : ℚ) < 2)).1 (lt_of_le_of_lt he hx)
    have hg : (sec : ℚ) * 2 ^ (-(0 : Int)) = ((sec.toNat : ℕ) : ℚ) := by
      have h2 : ((sec.toNat : ℕ) : Int) = sec := Int.toNat_of_nonneg hs0
      have hq : (((sec.toNat : ℕ) : Int) : ℚ) = (sec : ℚ) := by rw [h2]
      simp only [neg_zero, zpow_zero, mul_one]
      exact hq.symm.trans (Int.cast_natCast _)
    have hgrid := zpow_grid (sec : ℚ) sec.toNat 0 (F64.round P Q).exp (by omega) hg
    have hlow := hlo _ _ hgrid (by linarith)
    have hpw : (2 : ℚ) ^ (F64.round P Q).exp ≤ (2 : ℚ) ^ ((K : Int) - 53) :=
      zpow_le_zpow_right₀ (by norm_num) (by omega)
    apply F64.toInt_eq _ _ hn hlow
    linarith

theorem hours_toInt (d : Int) (h0 : 0 ≤ d) (h1 : d < 2 ^ 12 * 3600000000000) :
    (Duration.Hours d).toInt = d / 3600000000000 := by
  unfold Duration.Hours
  simp only [Hour, Minute, Second]
  rw [Int.tdiv_eq_ediv h0 (by norm_num), Int.tmod_eq_emod h0 (by norm_num)]
  have hH : (2 : ℚ) ^ (((12 : ℕ) : Int) - 53) ≤ 2 * (1 / 2 ^ 42) := by
    rw [show (((12 : ℕ) : Int) - 53) = -((41 : ℕ) : Int) by norm_num, zpow_neg, zpow_natCast]
    norm_num
  have hj : (1 - 1 / 2 ^ 42 - 1 / 2 ^ 50 : ℚ) * 2 ^ (-(-53 : Int)) =
      ((2 ^ 53 - 2 ^ 11 - 2 ^ 3 : ℕ) : ℚ) := by
    rw [neg_neg, show ((53 : Int)) = ((53 : ℕ) : Int) by rfl, zpow_natCast]
    norm_num
  exact unit_toInt (60 * (60 * 1000000000)) 12 (1 - 1 / 2 ^ 42 - 1 / 2 ^ 50) (1 / 2 ^ 42) _
    (by norm_num) (by norm_num) (by norm_num) hj (by norm_num) hH (by norm_num) d h0
    (by norm_num at h1 ⊢; exact h1)

theorem minutes_toInt (d : Int) (h0 : 0 ≤ d) (h1 : d < 2 ^ 18 * 60000000000) :
    (Duration.Minutes d).toInt = d / 60000000000 := by
  unfold Duration.Minutes
  simp only [Minute, Second]
  rw [Int.tdiv_eq_ediv h0 (by norm_num), Int.tmod_eq_emod h0 (by norm_num)]
  have hH : (2 : ℚ) ^ (((18 : ℕ) : Int) - 53) ≤ 2 * (1 / 2 ^ 36) := by
    rw [show (((18 : ℕ) : Int) - 53) = -((35 : ℕ) : Int) by norm_num, zpow_neg, zpow_natCast]
    norm_num
  have hj : (1 - 1 / 2 ^ 36 - 1 / 2 ^ 45 : ℚ) * 2 ^ (-(-53 : Int)) =
      ((2 ^ 53 - 2 ^ 17 - 2 ^ 8 : ℕ) : ℚ) := by
    rw [neg_neg, show ((53 : Int)) = ((53 : ℕ) : Int) by rfl, zpow_natCast]
    norm_num
  exact unit_toInt (60 * 1000000000) 18 (1 - 1 / 2 ^ 36 - 1 / 2 ^ 45) (1 / 2 ^ 36) _
    (by norm_num) (by norm_num) (by norm_num) hj (by norm_num) hH (by norm_num) d h0
    (by norm_num at h1 ⊢; exact h1)

theorem formatDuration_whole_seconds (d : Int) (h0 : 0 ≤ d)
    (h1 : d < 4096 * 3600000000000) :
    formatDuration d =
      fmt02d (d / 1000000000 / 3600) ++ ":" ++ fmt02d (d / 1000000000 / 60 % 60) ++ ":" ++
        fmt02d (d / 1000000000 % 60) := by
  have hh := hours_toInt d h0 (by norm_num at h1 ⊢; exact h1)
  have hm := minutes_toInt d h0 (by norm_num at h1 ⊢; omega)
  have hs := seconds_toInt d h0 (by norm_num at h1 ⊢; omega)
  have e1 : d / 1000000000 / 3600 = d / 3600000000000 := by omega
  have e2 : d / 1000000000 / 60 = d / 60000000000 := by omega
  have hm0 : 0 ≤ d / 60000000000 := Int.ediv_nonneg h0 (by norm_num)
  have hs0 : 0 ≤ d / 1000000000 := Int.ediv_nonneg h0 (by norm_num)
  unfold formatDuration
  simp only [hh, hm, hs]
  rw [Int.tmod_eq_emod hm0 (by norm_num), Int.tmod_eq_emod hs0 (by norm_num), e1, e2]

theorem fmt02d_two_digits (n : Int) (h0 : 0 ≤ n) (h1 : n < 60) :
    (fmt02d n).length = 2 ∧ ∀ c ∈ (fmt02d n).data, c.isDigit = true := by
  interval_cases n <;> decide

/-- C24 at an input where the code departs from it: a duration of 4096 h 59 min
59.999999999 s, that is 14749199 whole seconds and 4096 whole hours, is formatted with
4097 hours, because `d.Hours()` rounds to 4097 in `float64`. -/
theorem formatDuration_rounds_up :
    formatDuration 14749199999999999 = "4097:59:59" ∧
    (14749199999999999 : Int) / 1000000000 = 14749199 ∧
    (14749199 : Int) / 3600 = 4096 ∧
    (Duration.Hours 14749199999999999).toInt = 4097 := by
  decide

/-! ## Properties of the history endpoint -/

theorem wrapInt_id (x : Int) (h0 : -(2 ^ 63) ≤ x) (h1 : x < 2 ^ 63) : wrapInt x = x := by
  unfold wrapInt
  norm_num at h0 h1 ⊢
  omega

theorem signedValue_range (neg : Bool) (digits : List Char) (p : Int)
    (h : strconv.signedValue neg digits = some p) : -(2 ^ 63) ≤ p ∧ p < 2 ^ 63 := by
  unfold strconv.signedValue at h
  by_cases hnil : digits = []
  · rw [if_pos hnil] at h
    exact absurd h (by simp)
  · rw [if_neg hnil] at h
    cases hd : digitsValue digits 0 with
    | none =>
      rw [hd] at h
      exact absurd h (by simp)
    | some n =>
      rw [hd] at h
      cases neg with
      | true =>
        simp only [if_true] at h
        by_cases hle : n ≤ 2 ^ 63
        · rw [if_pos hle] at h
          simp only [Option.some.injEq] at h
          have hle2 : (n : Int) ≤ 2 ^ 63 := by exact_mod_cast hle
          norm_num at hle2 ⊢
          omega
        · rw [if_neg hle] at h
          exact absurd h (by simp)
      | false =>
        simp only [Bool.false_eq_true, if_false] at h
        by_cases hlt : n < 2 ^ 63
        · rw [if_pos hlt] at h
          simp only [Option.some.injEq] at h
          have hlt2 : (n : Int) < 2 ^ 63 := by exact_mod_cast hlt
          norm_num at hlt2 ⊢
          omega
        · rw [if_neg hlt] at h
          exact absurd h (by simp)

theorem Atoi_range (s : String) (p : Int) (h : strconv.Atoi s = some p) :
    -(2 ^ 63) ≤ p ∧ p < 2 ^ 63 := by
  unfold strconv.Atoi at h
  split at h <;> exact signedValue_range _ _ p h

theorem Atoi_empty : strconv.Atoi "" = none := by
  decide

theorem pagingParam_eq (default : Int) (value : String) :
    pagingParam default value =
      match strconv.Atoi value with
      | some p => if p > 0 then p else default
      | none => default := by
  unfold pagingParam
  by_cases hv : value = ""
  · subst hv
    rw [Atoi_empty]
    rfl
  · simp [hv]

theorem pagingParam_range (default : Int) (value : String) (h0 : 1 ≤ default)
    (h1 : default < 2 ^ 63) :
    1 ≤ pagingParam default value ∧ pagingParam default value < 2 ^ 63 := by
  rw [pagingParam_eq]
  cases h : strconv.Atoi value with
  | none => exact ⟨h0, h1⟩
  | some p =>
    simp only
    split_ifs with hp
    · exact ⟨hp, (Atoi_range value p h).2⟩
    · exact ⟨h0, h1⟩

theorem GetSessionsPaginated_eq (db : HistoryDB) (page pageSize : Int) (h0 : 1 ≤ page)
    (h1 : page < 2 ^ 63) (h2 : 0 ≤ pageSize) (h3 : (page - 1) * pageSize < 2 ^ 63) :
    GetSessionsPaginated db page pageSize =
      match db.count with
      | none => none
      | some total =>
        match db.find ((page - 1) * pageSize) pageSize with
        | none => none
        | some sessions => some (sessions, total) := by
  unfold GetSessionsPaginated
  have e1 : wrapInt (page - 1) = page - 1 :=
    wrapInt_id _ (by norm_num at h1 ⊢; omega) (by norm_num at h1 ⊢; omega)
  have hnn : 0 ≤ (page - 1) * pageSize := mul_nonneg (by omega) h2
  have e2 : wrapInt ((page - 1) * pageSize) = (page - 1) * pageSize :=
    wrapInt_id _ (by norm_num; omega) h3
  simp only [e1, e2]

theorem ceilDiv_spec (total pageSize : Int) (h0 : 0 ≤ total) (h1 : 1 ≤ pageSize) :
    total ≤ (total + pageSize - 1) / pageSize * pageSize ∧
    ((total + pageSize - 1) / pageSize - 1) * pageSize < total ∧
    (total = 0 → (total + pageSize - 1) / pageSize = 0) := by
  have hp : 0 < pageSize := by omega
  have hd := Int.ediv_add_emod (total + pageSize - 1) pageSize
  have hm0 := Int.emod_nonneg (total + pageSize - 1) (by omega : pageSize ≠ 0)
  have hm1 := Int.emod_lt_of_pos (total + pageSize - 1) hp
  refine ⟨by nlinarith, by nlinarith, ?_⟩
  intro ht
  subst ht
  rw [zero_add]
  exact Int.ediv_eq_zero_of_lt (by omega) (by omega)

theorem handleHistory_paged (db : HistoryDB) (pageStr pageSizeStr : String) :
    1 ≤ pagingParam 1 pageStr ∧ 1 ≤ pagingParam 5 pageSizeStr ∧
    (∀ (total : Int) (sessions : List RemoteSession),
      db.count = some total → 0 ≤ total →
      total + pagingParam 5 pageSizeStr - 1 < 2 ^ 63 →
      (pagingParam 1 pageStr - 1) * pagingParam 5 pageSizeStr < 2 ^ 63 →
      db.find ((pagingParam 1 pageStr - 1) * pagingParam 5 pageSizeStr)
        (pagingParam 5 pageSizeStr) = some sessions →
      handleHistory db "GET" pageStr pageSizeStr =
        HistoryReply.page sessions total (pagingParam 1 pageStr) (pagingParam 5 pageSizeStr)
          ((total + pagingParam 5 pageSizeStr - 1) / pagingParam 5 pageSizeStr)) := by
  obtain ⟨hp0, hp1⟩ := pagingParam_range 1 pageStr (by norm_num) (by norm_num)
  obtain ⟨hs0, hs1⟩ := pagingParam_range 5 pageSizeStr (by norm_num) (by norm_num)
  refine ⟨hp0, hs0, ?_⟩
  intro total sessions hc ht hsum hprod hfind
  generalize hpg : pagingParam 1 pageStr = page at *
  generalize hps : pagingParam 5 pageSizeStr = pageSize at *
  unfold handleHistory
  simp only [bne_self_eq_false, Bool.false_eq_true, if_false, hpg, hps]
  rw [GetSessionsPaginated_eq db page pageSize hp0 hp1 (by omega) hprod, hc]
  simp only [hfind]
  have hsum2 : total + pageSize - 1 < 9223372036854775808 := by
    norm_num at hsum
    exact hsum
  have hs2 : pageSize < 9223372036854775808 := by
    norm_num at hs1
    exact hs1
  have e1 : wrapInt total = total :=
    wrapInt_id _ (by norm_num; omega) (by norm_num; omega)
  have e3 : wrapInt (wrapInt (total + pageSize) - 1) = total + pageSize - 1 := by
    unfold wrapInt
    norm_num
    omega
  have hd : Int.tdiv (total + pageSize - 1) pageSize = (total + pageSize - 1) / pageSize :=
    Int.tdiv_eq_ediv (by omega) (by omega)
  rw [e1, e3, hd]

/-- C25 at a request where the code departs from it: with two sessions stored, a `GET`
with `pageSize=9223372036854775807` is answered with `totalPages` equal to -1, because
`int(total) + pageSize - 1` wraps around; the total divided by the page size, rounded
up, is 1. -/
theorem totalPages_wraps :
    handleHistory twoSessionsDB "GET" "" "9223372036854775807" =
      HistoryReply.page [] 2 1 9223372036854775807 (-1) ∧
    strconv.Atoi "9223372036854775807" = some 9223372036854775807 ∧
    ((2 : Int) + 9223372036854775807 - 1) / 9223372036854775807 = 1 := by
  decide

end RemoteKnown
